import Mathlib

/-!
# The entry / logger record pipeline of logrus

A shallow embedding of `entry.go` and `logger.go`.

Go pointers are addresses into three stores kept in `State`: one for loggers,
one for entries and one for field maps.  An `*Entry` is the address of an entry
cell, the `Data` of an entry is the address of a map cell, so that two entries
holding the same map address share every later change made through either of
them, exactly as two Go values of type `Fields` that come from one `make` do.

What the pipeline calls but does not define is kept abstract:
the formatter and the hooks are functions stored in the logger, the sink is a
record of the byte strings handed to `Write`, `time.Now()` is an argument of
the write, `fmt.Sprintf` is an argument of the rendering, and the numeric
values of the six level constants are an argument of every function that
compares against one of them.  Calls that leave the pipeline (rendering, lock,
hook, formatter, sink, standard error) are appended to `State.trace` in the
order in which the code makes them.
-/

namespace Logrus

/-! ## Data model -/

/-- Severity level, `type Level uint32` as witnessed by `Logger.getLevel`. -/
abbrev Level := Nat

/-- The six level constants used by `entry.go` and `logger.go`.  Their
declaration is not part of the sources at hand, so their values are a
parameter of everything that mentions one of them. -/
structure Levels where
  PanicLevel : Level
  FatalLevel : Level
  ErrorLevel : Level
  WarnLevel : Level
  InfoLevel : Level
  DebugLevel : Level

/-- A concrete choice of the constants, used to evaluate the definitions:
panic is the smallest and debug the largest, the only direction under which an
`InfoLevel` entry is "lower than" a `DebugLevel` logger as the tests of
`entry_test.go` name it, and under which `entry.Level <= PanicLevel` singles
out the panic level. -/
def Levels.iota : Levels :=
  { PanicLevel := 0, FatalLevel := 1, ErrorLevel := 2, WarnLevel := 3, InfoLevel := 4,
    DebugLevel := 5 }

/-- A value of type `interface{}`: what a field holds and what a write is
given as an argument.  Only its dynamic kind (string or not) and its default
rendering matter to the pipeline. -/
inductive Value where
  | str (s : String)
  | int (n : Int)
  | bool (b : Bool)
  | err (text : String)
  | other (rendered : String)
deriving DecidableEq

/-- The contents of a `Fields` map (`map[string]interface{}`): keys are unique. -/
abbrev Fields := AList (fun _ : String => Value)

/-- `time.Time`, with `0` for the zero time. -/
abbrev Time := Nat

/-- Modelled from the spec: the declaration of `formatMode` is missing from the
sources; the write family has a printf-style, a space-joined and a
newline-terminated rendering, which `entry.go` names `formatted`,
`unformatted` and `newLine`.  `unknown` stands for any other value of the
type, the case `constructMessage` handles after its `switch`. -/
inductive formatMode where
  | formatted
  | unformatted
  | newLine
  | unknown
deriving DecidableEq

/-- Modelled from the spec: `errorKey` is missing from the sources; `withError`
is "sugar for `withField("error", err)`". -/
def errorKey : String := "error"

/-- The struct `Entry` of `entry.go`; `Logger` and `Data` are addresses. -/
structure Entry where
  Logger : Nat
  Data : Nat
  Time : Time
  Level : Level
  Message : String

/-- What a hook or a formatter reads off an `*Entry`: the entry's scalar
members and the present contents of the map its `Data` points to. -/
structure Record where
  Data : Fields
  Time : Time
  Level : Level
  Message : String

/-- Modelled from the spec: the `Hook` interface is missing from the sources.
"`levels() -> set of Level` (declares interest), `fire(entry) -> error | nil`
(may mutate `entry`'s Field Set)": `Fire` maps what the hook reads to the new
contents of the entry's field map and the error it returns, if any. -/
structure Hook where
  Levels : List Level
  Fire : Record → Fields × Option String

/-- Modelled from the spec: `LevelHooks` is missing from the sources; it is a
"mapping from Level → ordered sequence of Hook capability implementations". -/
abbrev LevelHooks := Level → List Hook

/-- The `Formatter` capability: `format(entry) -> bytes | error`. -/
abbrev Formatter := Record → Except String String

/-- An `io.Writer`: the byte strings handed to `Write` so far, and the error, if
any, that `Write` returns for a given byte string. -/
structure Writer where
  written : List String
  fail : String → Option String

/-- The struct `Logger` of `logger.go`.  `entryPool` lists the addresses of the
pooled entries, the most recently released first. -/
structure Logger where
  out : Writer
  hooks : LevelHooks
  formatter : Formatter
  level : Level
  entryPool : List Nat

/-- A call that leaves the pipeline. -/
inductive Event where
  | render (mode : formatMode) (format : String) (args : List Value)
  | lock (logger : Nat)
  | unlock (logger : Nat)
  | fire (level : Level) (entry : Nat) (seen : Record)
  | hook (index : Nat) (entry : Nat) (seen : Record)
  | format (entry : Nat) (seen : Record)
  | write (logger : Nat) (bytes : String)
  | stderr (text : String)

/-- What a `panic` carries: `&entry` in `Entry.log`, a string in `Logger.Panic`. -/
inductive Payload where
  | entry (addr : Nat)
  | message (text : String)
deriving DecidableEq

/-- How a call ends: it returns, the process exits, or it panics. -/
inductive Outcome where
  | returned
  | exited (code : Nat)
  | panicked (payload : Payload)
deriving DecidableEq

/-- The stores and the trace.  Addresses below `nextEntry` (`nextMap`,
`nextLogger`) are allocated. -/
structure State where
  loggers : Nat → Logger
  entries : Nat → Entry
  maps : Nat → Fields
  nextLogger : Nat
  nextEntry : Nat
  nextMap : Nat
  trace : List Event

namespace State

/-- Overwrite the entry cell at `addr`. -/
def setEntry (st : State) (addr : Nat) (e : Entry) : State :=
  { st with entries := fun i => if i = addr then e else st.entries i }

/-- Overwrite the map cell at `addr`. -/
def setMap (st : State) (addr : Nat) (m : Fields) : State :=
  { st with maps := fun i => if i = addr then m else st.maps i }

/-- Overwrite the logger cell at `addr`. -/
def setLogger (st : State) (addr : Nat) (l : Logger) : State :=
  { st with loggers := fun i => if i = addr then l else st.loggers i }

/-- Allocate a new entry cell: `&Entry{...}`. -/
def allocEntry (st : State) (e : Entry) : State × Nat :=
  ({ st with entries := fun i => if i = st.nextEntry then e else st.entries i,
             nextEntry := st.nextEntry + 1 }, st.nextEntry)

/-- Allocate a new map cell: `make(Fields, n)` followed by the stores that fill it. -/
def allocMap (st : State) (m : Fields) : State × Nat :=
  ({ st with maps := fun i => if i = st.nextMap then m else st.maps i,
             nextMap := st.nextMap + 1 }, st.nextMap)

/-- Allocate a new logger cell: `&Logger{...}`. -/
def allocLogger (st : State) (l : Logger) : State × Nat :=
  ({ st with loggers := fun i => if i = st.nextLogger then l else st.loggers i,
             nextLogger := st.nextLogger + 1 }, st.nextLogger)

/-- Append an event to the trace. -/
def emit (st : State) (ev : Event) : State :=
  { st with trace := st.trace ++ [ev] }

/-- The contents of the field map of the entry at `entry`: `entry.Data`. -/
def fields (st : State) (entry : Nat) : Fields :=
  st.maps (st.entries entry).Data

/-- What a reader of `*entry` sees. -/
def record (st : State) (entry : Nat) : Record :=
  { Data := st.fields entry, Time := (st.entries entry).Time,
    Level := (st.entries entry).Level, Message := (st.entries entry).Message }

/-- A state with nothing allocated. -/
def empty : State :=
  { loggers := fun _ =>
      { out := { written := [], fail := fun _ => none }, hooks := fun _ => [],
        formatter := fun _ => .ok "", level := 0, entryPool := [] },
    entries := fun _ => { Logger := 0, Data := 0, Time := 0, Level := 0, Message := "" },
    maps := fun _ => ∅,
    nextLogger := 0, nextEntry := 0, nextMap := 0, trace := [] }

end State

/-- The loop `for k, v := range src { dst[k] = v }`. -/
def copyInto (dst src : Fields) : Fields :=
  src.foldl (fun d k v => d.insert k v) dst

/-! ## fmt -/

namespace fmt

/-- Whether the dynamic kind of the value is `reflect.String`. -/
def isString : Value → Bool
  | .str _ => true
  | _ => false

/-- The rendering of one operand under the verb `%v`. -/
def render : Value → String
  | .str s => s
  | .int n => toString n
  | .bool b => if b then "true" else "false"
  | .err text => text
  | .other rendered => rendered

/-- The operands after the first one of `fmt.Sprint`: a space is added between
two operands when neither is a string. -/
def sprintRest (prev : Value) : List Value → String
  | [] => ""
  | a :: rest =>
    (if !isString a && !isString prev then " " else "") ++ render a ++ sprintRest a rest

/-- `fmt.Sprint(args...)`. -/
def Sprint : List Value → String
  | [] => ""
  | a :: rest => render a ++ sprintRest a rest

/-- The operands of `fmt.Sprintln` after the first one: always a space before. -/
def sprintlnRest : List Value → String
  | [] => ""
  | a :: rest => " " ++ render a ++ sprintlnRest rest

/-- `fmt.Sprintln(args...)`: spaces between all operands, and a final newline. -/
def Sprintln : List Value → String
  | [] => "\n"
  | a :: rest => render a ++ sprintlnRest rest ++ "\n"

end fmt

/-- `fmt.Sprintf`, which the embedding takes as a parameter. -/
abbrev SprintfFn := String → List Value → String

/-! ## entry.go -/

/-- `newLogEntry(logger, level, data)`: a new entry cell; `Time` and `Message`
are not set and hold their zero values. -/
def newLogEntry (st : State) (logger : Nat) (level : Level) (data : Nat) : State × Nat :=
  st.allocEntry { Logger := logger, Data := data, Time := 0, Level := level, Message := "" }

/-- `logger.getLevel()`. -/
def Logger.getLevel (st : State) (logger : Nat) : Level :=
  (st.loggers logger).level

/-- `NewEntry(logger)`. -/
def NewEntry (st : State) (logger : Nat) : State × Nat :=
  let m := st.allocMap ∅
  newLogEntry m.1 logger (m.1.loggers logger).level m.2

/-- `NewEntryWithFields(logger, fields)`: the entry keeps the caller's map. -/
def NewEntryWithFields (st : State) (logger : Nat) (fields : Nat) : State × Nat :=
  newLogEntry st logger (st.loggers logger).level fields

/-- `NewEntryWithField(logger, key, value)`. -/
def NewEntryWithField (st : State) (logger : Nat) (key : String) (value : Value) :
    State × Nat :=
  let m := st.allocMap ((∅ : Fields).insert key value)
  newLogEntry m.1 logger (m.1.loggers logger).level m.2

/-- `entry.AsLevel(level)`: the new entry holds the same map address. -/
def Entry.AsLevel (st : State) (entry : Nat) (level : Logrus.Level) : State × Nat :=
  newLogEntry st (st.entries entry).Logger level (st.entries entry).Data

/-- `entry.AsDebug()`. -/
def Entry.AsDebug (lv : Levels) (st : State) (entry : Nat) : State × Nat :=
  Entry.AsLevel st entry lv.DebugLevel

/-- `entry.AsInfo()`. -/
def Entry.AsInfo (lv : Levels) (st : State) (entry : Nat) : State × Nat :=
  Entry.AsLevel st entry lv.InfoLevel

/-- `entry.AsWarning()`. -/
def Entry.AsWarning (lv : Levels) (st : State) (entry : Nat) : State × Nat :=
  Entry.AsLevel st entry lv.WarnLevel

/-- `entry.AsError()`. -/
def Entry.AsError (lv : Levels) (st : State) (entry : Nat) : State × Nat :=
  Entry.AsLevel st entry lv.ErrorLevel

/-- `entry.AsFatal()`. -/
def Entry.AsFatal (lv : Levels) (st : State) (entry : Nat) : State × Nat :=
  Entry.AsLevel st entry lv.FatalLevel

/-- `entry.AsPanic()`. -/
def Entry.AsPanic (lv : Levels) (st : State) (entry : Nat) : State × Nat :=
  Entry.AsLevel st entry lv.PanicLevel

/-- `entry.WithFields(fields)`.  The argument map is only read, so it is passed
by its contents.  `data` is filled by the two loops before anything else can
reach it, so the cell is allocated with the contents the loops leave. -/
def Entry.WithFields (st : State) (entry : Nat) (fields : Fields) : State × Nat :=
  if (st.entries entry).Level > Logger.getLevel st (st.entries entry).Logger then
    (st, entry)
  else
    let data := st.allocMap (copyInto (copyInto ∅ (st.fields entry)) fields)
    newLogEntry data.1 (st.entries entry).Logger (st.entries entry).Level data.2

/-- `entry.WithField(key, value)`. -/
def Entry.WithField (st : State) (entry : Nat) (key : String) (value : Value) :
    State × Nat :=
  if (st.entries entry).Level > Logger.getLevel st (st.entries entry).Logger then
    (st, entry)
  else
    Entry.WithFields st entry ((∅ : Fields).insert key value)

/-- `entry.WithError(err)`. -/
def Entry.WithError (st : State) (entry : Nat) (err : Value) : State × Nat :=
  Entry.WithField st entry errorKey err

/-- `sprintlnn(args...)`: `fmt.Sprintln` without its last byte. -/
def sprintlnn (args : List Value) : String :=
  ⟨(fmt.Sprintln args).data.dropLast⟩

/-- `constructMessage(mode, format, args...)`. -/
def constructMessage (sprintf : SprintfFn) (mode : formatMode) (format : String)
    (args : List Value) : String :=
  match mode with
  | .formatted => sprintf format args
  | .unformatted => fmt.Sprint args
  | .newLine => sprintlnn args
  | .unknown => sprintf format args

/-- Modelled from the spec: `LevelHooks.Fire` is missing from the sources.
"`fire(level, entry) -> error`: invokes every hook registered for `level`, in
order; first error returned aborts remaining hook invocations for this event
and is surfaced to the caller".  This is the walk over the hooks of one level,
`index` counting the hooks already invoked; each hook reads the entry as it is
when its turn comes and its changes are stored into the map the entry's `Data`
points to. -/
def fireEach (entry : Nat) : Nat → List Hook → State → State × Option String
  | _, [], st => (st, none)
  | index, hook :: rest, st =>
    let st1 := (st.setMap (st.entries entry).Data (hook.Fire (st.record entry)).1).emit
      (.hook index entry (st.record entry))
    match (hook.Fire (st.record entry)).2 with
    | some err => (st1, some err)
    | none => fireEach entry (index + 1) rest st1

/-- Modelled from the spec: `hooks.Fire(level, entry)`, see `fireEach`. -/
def LevelHooks.Fire (hooks : LevelHooks) (st : State) (level : Level) (entry : Nat) :
    State × Option String :=
  fireEach entry 0 (hooks level) (st.emit (.fire level entry (st.record entry)))

/-- Modelled from the spec: `hooks.Add(hook)` is missing from the sources;
"appends the hook under every level it declares interest in, preserving
registration order per level". -/
def LevelHooks.Add (hooks : LevelHooks) (hook : Hook) : LevelHooks :=
  hook.Levels.foldl (fun hs level => fun l => if l = level then hs l ++ [hook] else hs l) hooks

/-- Lines 161-162 of `Entry.log`: `entry.Time = time.Now()` and
`entry.Message = msg`. -/
def Entry.stamp (st : State) (entry : Nat) (msg : String) (now : Logrus.Time) : State :=
  st.setEntry entry { st.entries entry with Time := now, Message := msg }

/-- Lines 164-171 of `Entry.log`: the hooks are fired under the lock, and a
failure is reported on standard error under the lock. -/
def Entry.fireHooks (st : State) (entry : Nat) : State :=
  let logger := (st.entries entry).Logger
  let fired := LevelHooks.Fire (st.loggers logger).hooks (st.emit (.lock logger))
    (st.entries entry).Level entry
  let st1 := fired.1.emit (.unlock logger)
  match fired.2 with
  | some err =>
    ((st1.emit (.lock logger)).emit
      (.stderr ("Failed to fire the hook: " ++ err ++ "\n"))).emit (.unlock logger)
  | none => st1

/-- Lines 172-184 of `Entry.log`: the entry is formatted; a failure is reported
on standard error, otherwise the bytes are written to `out` under the lock and
a failure of that write is reported on standard error. -/
def Entry.emitBytes (st : State) (entry : Nat) : State :=
  let logger := (st.entries entry).Logger
  let st1 := st.emit (.format entry (st.record entry))
  match (st.loggers logger).formatter (st.record entry) with
  | .error err =>
    ((st1.emit (.lock logger)).emit
      (.stderr ("Failed to obtain reader, " ++ err ++ "\n"))).emit (.unlock logger)
  | .ok serialized =>
    let l := st1.loggers logger
    let st2 := ((st1.emit (.lock logger)).setLogger logger
      { l with out := { l.out with written := l.out.written ++ [serialized] } }).emit
      (.write logger serialized)
    match l.out.fail serialized with
    | some err => (st2.emit (.stderr ("Failed to write to log, " ++ err ++ "\n"))).emit
        (.unlock logger)
    | none => st2.emit (.unlock logger)

/-- Lines 186-195 of `Entry.log`: `Exit(1)` for the fatal level, `panic(&entry)`
for a level at or below the panic level. -/
def Entry.finish (lv : Levels) (st : State) (entry : Nat) : Outcome :=
  if (st.entries entry).Level = lv.FatalLevel then .exited 1
  else if (st.entries entry).Level ≤ lv.PanicLevel then .panicked (.entry entry)
  else .returned

/-- `entry.log(msg)`. -/
def Entry.log (lv : Levels) (st : State) (entry : Nat) (msg : String) (now : Logrus.Time) :
    State × Outcome :=
  let st1 := Entry.emitBytes (Entry.fireHooks (Entry.stamp st entry msg now) entry) entry
  (st1, Entry.finish lv st1 entry)

/-- `entry.write(mode, format, args...)`. -/
def Entry.write (lv : Levels) (sprintf : SprintfFn) (st : State) (entry : Nat)
    (mode : formatMode) (format : String) (args : List Value) (now : Logrus.Time) :
    State × Outcome :=
  if Logger.getLevel st (st.entries entry).Logger ≥ (st.entries entry).Level then
    Entry.log lv (st.emit (.render mode format args)) entry
      (constructMessage sprintf mode format args) now
  else
    (st, .returned)

/-- `entry.Writef(format, args...)`. -/
def Entry.Writef (lv : Levels) (sprintf : SprintfFn) (st : State) (entry : Nat)
    (format : String) (args : List Value) (now : Logrus.Time) : State × Outcome :=
  Entry.write lv sprintf st entry .formatted format args now

/-- `entry.Write(args...)`. -/
def Entry.Write (lv : Levels) (sprintf : SprintfFn) (st : State) (entry : Nat)
    (args : List Value) (now : Logrus.Time) : State × Outcome :=
  Entry.write lv sprintf st entry .unformatted "" args now

/-- `entry.Writeln(args...)`. -/
def Entry.Writeln (lv : Levels) (sprintf : SprintfFn) (st : State) (entry : Nat)
    (args : List Value) (now : Logrus.Time) : State × Outcome :=
  Entry.write lv sprintf st entry .newLine "" args now

/-! ## logger.go -/

/-- `New(level)`; the standard error stream and the text formatter it installs
are taken as arguments. -/
def New (st : State) (level : Level) (stderr : Writer) (text : Formatter) : State × Nat :=
  st.allocLogger
    { out := stderr, formatter := text, hooks := fun _ => [], level := level, entryPool := [] }

/-- `logger.SetOutput(out)`. -/
def Logger.SetOutput (st : State) (logger : Nat) (out : Writer) : State :=
  (((st.emit (.lock logger)).setLogger logger { st.loggers logger with out := out })).emit
    (.unlock logger)

/-- `logger.SetFormatter(formatter)`. -/
def Logger.SetFormatter (st : State) (logger : Nat) (formatter : Formatter) : State :=
  (((st.emit (.lock logger)).setLogger logger
    { st.loggers logger with formatter := formatter })).emit (.unlock logger)

/-- `logger.AddHook(hook)`. -/
def Logger.AddHook (st : State) (logger : Nat) (hook : Hook) : State :=
  (((st.emit (.lock logger)).setLogger logger
    { st.loggers logger with hooks := LevelHooks.Add (st.loggers logger).hooks hook })).emit
    (.unlock logger)

/-- `SetLevel(level)` of `exported.go`, for the logger `std` it is applied to. -/
def SetLevel (st : State) (std : Nat) (level : Level) : State :=
  (((st.emit (.lock std)).setLogger std { st.loggers std with level := level })).emit
    (.unlock std)

/-- `logger.releaseEntry(entry)`: `entryPool.Put(entry)`. -/
def Logger.releaseEntry (st : State) (logger : Nat) (entry : Nat) : State :=
  st.setLogger logger
    { st.loggers logger with entryPool := entry :: (st.loggers logger).entryPool }

/-- `logger.newEntry()`.  `entryPool.Get()` hands out the most recently released
entry when the pool holds one. -/
def Logger.newEntry (st : State) (logger : Nat) : State × Nat :=
  match (st.loggers logger).entryPool with
  | entry :: rest => (st.setLogger logger { st.loggers logger with entryPool := rest }, entry)
  | [] => NewEntry st logger

/-- `logger.AsLevel(level)`; the deferred release runs after the result is built. -/
def Logger.AsLevel (st : State) (logger : Nat) (level : Level) : State × Nat :=
  let entry := Logger.newEntry st logger
  let r := Entry.AsLevel entry.1 entry.2 level
  (Logger.releaseEntry r.1 logger entry.2, r.2)

/-- `logger.WithFields(fields)`. -/
def Logger.WithFields (st : State) (logger : Nat) (fields : Fields) : State × Nat :=
  let entry := Logger.newEntry st logger
  let r := Entry.WithFields entry.1 entry.2 fields
  (Logger.releaseEntry r.1 logger entry.2, r.2)

/-- `logger.WithField(key, value)`. -/
def Logger.WithField (st : State) (logger : Nat) (key : String) (value : Value) :
    State × Nat :=
  let entry := Logger.newEntry st logger
  let r := Entry.WithField entry.1 entry.2 key value
  (Logger.releaseEntry r.1 logger entry.2, r.2)

/-- `logger.WithError(err)`. -/
def Logger.WithError (st : State) (logger : Nat) (err : Value) : State × Nat :=
  let entry := Logger.newEntry st logger
  let r := Entry.WithError entry.1 entry.2 err
  (Logger.releaseEntry r.1 logger entry.2, r.2)

/-- `logger.log(level, mode, format, args...)`.  When `entry.log` exits or
panics the release after it is not reached. -/
def Logger.log (lv : Levels) (sprintf : SprintfFn) (st : State) (logger : Nat)
    (level : Level) (mode : formatMode) (format : String) (args : List Value) (now : Time) :
    State × Outcome :=
  if Logger.getLevel st logger ≥ level then
    let entry := Logger.newEntry st logger
    let st1 := entry.1.emit (.render mode format args)
    let st2 := st1.setEntry entry.2 { st1.entries entry.2 with Level := level }
    let r := Entry.log lv st2 entry.2 (constructMessage sprintf mode format args) now
    match r.2 with
    | .returned => (Logger.releaseEntry r.1 logger entry.2, .returned)
    | o => (r.1, o)
  else
    (st, .returned)

/-- `logger.Debugf(format, args...)`. -/
def Logger.Debugf (lv : Levels) (sprintf : SprintfFn) (st : State) (logger : Nat)
    (format : String) (args : List Value) (now : Time) : State × Outcome :=
  Logger.log lv sprintf st logger lv.DebugLevel .formatted format args now

/-- `logger.Infof(format, args...)`. -/
def Logger.Infof (lv : Levels) (sprintf : SprintfFn) (st : State) (logger : Nat)
    (format : String) (args : List Value) (now : Time) : State × Outcome :=
  Logger.log lv sprintf st logger lv.InfoLevel .formatted format args now

/-- `logger.Warningf(format, args...)`. -/
def Logger.Warningf (lv : Levels) (sprintf : SprintfFn) (st : State) (logger : Nat)
    (format : String) (args : List Value) (now : Time) : State × Outcome :=
  Logger.log lv sprintf st logger lv.WarnLevel .formatted format args now

/-- `logger.Errorf(format, args...)`. -/
def Logger.Errorf (lv : Levels) (sprintf : SprintfFn) (st : State) (logger : Nat)
    (format : String) (args : List Value) (now : Time) : State × Outcome :=
  Logger.log lv sprintf st logger lv.ErrorLevel .formatted format args now

/-- `logger.Fatalf(format, args...)`: `Exit(1)` follows the call of `log` when
that call returns. -/
def Logger.Fatalf (lv : Levels) (sprintf : SprintfFn) (st : State) (logger : Nat)
    (format : String) (args : List Value) (now : Time) : State × Outcome :=
  let r := Logger.log lv sprintf st logger lv.FatalLevel .formatted format args now
  match r.2 with
  | .returned => (r.1, .exited 1)
  | o => (r.1, o)

/-- `logger.Panicf(format, args...)`: `panic(fmt.Sprint(args...))` follows the
call of `log` when that call returns. -/
def Logger.Panicf (lv : Levels) (sprintf : SprintfFn) (st : State) (logger : Nat)
    (format : String) (args : List Value) (now : Time) : State × Outcome :=
  let r := Logger.log lv sprintf st logger lv.PanicLevel .formatted format args now
  match r.2 with
  | .returned =>
    (r.1.emit (.render .unformatted "" args), .panicked (.message (fmt.Sprint args)))
  | o => (r.1, o)

/-- `logger.Debug(args...)`. -/
def Logger.Debug (lv : Levels) (sprintf : SprintfFn) (st : State) (logger : Nat)
    (args : List Value) (now : Time) : State × Outcome :=
  Logger.log lv sprintf st logger lv.DebugLevel .unformatted "" args now

/-- `logger.Info(args...)`. -/
def Logger.Info (lv : Levels) (sprintf : SprintfFn) (st : State) (logger : Nat)
    (args : List Value) (now : Time) : State × Outcome :=
  Logger.log lv sprintf st logger lv.InfoLevel .unformatted "" args now

/-- `logger.Warning(args...)`. -/
def Logger.Warning (lv : Levels) (sprintf : SprintfFn) (st : State) (logger : Nat)
    (args : List Value) (now : Time) : State × Outcome :=
  Logger.log lv sprintf st logger lv.WarnLevel .unformatted "" args now

/-- `logger.Error(args...)`. -/
def Logger.Error (lv : Levels) (sprintf : SprintfFn) (st : State) (logger : Nat)
    (args : List Value) (now : Time) : State × Outcome :=
  Logger.log lv sprintf st logger lv.ErrorLevel .unformatted "" args now

/-- `logger.Fatal(args...)`. -/
def Logger.Fatal (lv : Levels) (sprintf : SprintfFn) (st : State) (logger : Nat)
    (args : List Value) (now : Time) : State × Outcome :=
  let r := Logger.log lv sprintf st logger lv.FatalLevel .unformatted "" args now
  match r.2 with
  | .returned => (r.1, .exited 1)
  | o => (r.1, o)

/-- `logger.Panic(args...)`: `msg` is rendered first, and `panic(msg)` follows
the call of `log` when that call returns. -/
def Logger.Panic (lv : Levels) (sprintf : SprintfFn) (st : State) (logger : Nat)
    (args : List Value) (now : Time) : State × Outcome :=
  let msg := fmt.Sprint args
  let r := Logger.log lv sprintf (st.emit (.render .unformatted "" args)) logger lv.PanicLevel
    .unformatted "" args now
  match r.2 with
  | .returned => (r.1, .panicked (.message msg))
  | o => (r.1, o)

/-- `logger.Debugln(args...)`. -/
def Logger.Debugln (lv : Levels) (sprintf : SprintfFn) (st : State) (logger : Nat)
    (args : List Value) (now : Time) : State × Outcome :=
  Logger.log lv sprintf st logger lv.DebugLevel .newLine "" args now

/-- `logger.Infoln(args...)`. -/
def Logger.Infoln (lv : Levels) (sprintf : SprintfFn) (st : State) (logger : Nat)
    (args : List Value) (now : Time) : State × Outcome :=
  Logger.log lv sprintf st logger lv.InfoLevel .newLine "" args now

/-- `logger.Warningln(args...)`. -/
def Logger.Warningln (lv : Levels) (sprintf : SprintfFn) (st : State) (logger : Nat)
    (args : List Value) (now : Time) : State × Outcome :=
  Logger.log lv sprintf st logger lv.WarnLevel .newLine "" args now

/-- `logger.Errorln(args...)`. -/
def Logger.Errorln (lv : Levels) (sprintf : SprintfFn) (st : State) (logger : Nat)
    (args : List Value) (now : Time) : State × Outcome :=
  Logger.log lv sprintf st logger lv.ErrorLevel .newLine "" args now

/-- `logger.Fatalln(args...)`. -/
def Logger.Fatalln (lv : Levels) (sprintf : SprintfFn) (st : State) (logger : Nat)
    (args : List Value) (now : Time) : State × Outcome :=
  let r := Logger.log lv sprintf st logger lv.FatalLevel .newLine "" args now
  match r.2 with
  | .returned => (r.1, .exited 1)
  | o => (r.1, o)

/-- `logger.Panicln(args...)`: `msg` is rendered with `fmt.Sprint` first and is
the one argument handed to `log`. -/
def Logger.Panicln (lv : Levels) (sprintf : SprintfFn) (st : State) (logger : Nat)
    (args : List Value) (now : Time) : State × Outcome :=
  let msg := fmt.Sprint args
  let r := Logger.log lv sprintf (st.emit (.render .unformatted "" args)) logger lv.PanicLevel
    .newLine "" [.str msg] now
  match r.2 with
  | .returned => (r.1, .panicked (.message msg))
  | o => (r.1, o)

/-! ## The text formatter -/

/-- The record an enabled write offers to the formatter: the entry as it is
after the stamping and the hooks. -/
def Entry.offered (sprintf : SprintfFn) (st : State) (entry : Nat) (mode : formatMode)
    (format : String) (args : List Value) (now : Logrus.Time) : Record :=
  (Entry.fireHooks (Entry.stamp (st.emit (.render mode format args)) entry
    (constructMessage sprintf mode format args) now) entry).record entry

/-- The events appended to the trace between `st` and the later state `st1`. -/
def State.since (st1 st : State) : List Event :=
  st1.trace.drop st.trace.length

/-- Whether the event is the firing of the hook registry or a formatter call. -/
def Event.isFireOrFormat : Event → Bool
  | .fire _ _ _ => true
  | .format _ _ => true
  | _ => false

/-- Whether the event is a call of the formatter. -/
def Event.isFormat : Event → Bool
  | .format _ _ => true
  | _ => false

/-- Whether the event is a call of one hook. -/
def Event.isHook : Event → Bool
  | .hook _ _ _ => true
  | _ => false

/-- Every allocated entry points to an allocated map, and every pooled entry
is allocated. -/
def State.WF (st : State) : Prop :=
  (∀ e, e < st.nextEntry → (st.entries e).Data < st.nextMap) ∧
    ∀ l e, e ∈ (st.loggers l).entryPool → e < st.nextEntry

/-- The field set the walk over `hooks` leaves for an entry read as `r`: every
hook reads the entry with the fields its predecessors left, and the walk stops
at the first hook that returns an error. -/
def runHooks : List Hook → Record → Fields
  | [], r => r.Data
  | hook :: rest, r =>
    match (hook.Fire r).2 with
    | some _ => (hook.Fire r).1
    | none => runHooks rest { r with Data := (hook.Fire r).1 }

/-- The entry at the address `p.2` of the state `p.1` has the zero `Time` and
the empty `Message`. -/
def Unstamped (p : State × Nat) : Prop :=
  (p.1.entries p.2).Time = 0 ∧ (p.1.entries p.2).Message = ""

/-- The order of the six constants under which the code and its tests make
sense: panic is the least and debug the greatest.  `entry_test.go` calls an
info entry "lower than" a debug logger and expects it to be logged, and
`Entry.log` panics for every level at or below `PanicLevel`. -/
def Levels.Ordered (lv : Levels) : Prop :=
  lv.PanicLevel < lv.FatalLevel ∧ lv.FatalLevel < lv.ErrorLevel ∧
    lv.ErrorLevel < lv.WarnLevel ∧ lv.WarnLevel < lv.InfoLevel ∧ lv.InfoLevel < lv.DebugLevel

/-- The error the walk over `hooks` returns for an entry read as `r`: that of
the first hook that fails. -/
def hookError : List Hook → Record → Option String
  | [], _ => none
  | hook :: rest, r =>
    match (hook.Fire r).2 with
    | some err => some err
    | none => hookError rest { r with Data := (hook.Fire r).1 }

/-- The events of the walk over `hooks` for the entry at `entry` read as `r`. -/
def hookEvents (entry : Nat) : Nat → List Hook → Record → List Event
  | _, [], _ => []
  | index, hook :: rest, r =>
    .hook index entry r ::
      match (hook.Fire r).2 with
      | some _ => []
      | none => hookEvents entry (index + 1) rest { r with Data := (hook.Fire r).1 }

/-- The events `entry.log` appends when the logger at `logger` has the members
of `l` and the stamped entry at `entry` reads as `r`. -/
def logEvents (l : Logger) (logger entry : Nat) (r : Record) : List Event :=
  [.lock logger, .fire r.Level entry r] ++ hookEvents entry 0 (l.hooks r.Level) r ++
    [.unlock logger] ++
    (match hookError (l.hooks r.Level) r with
      | some err =>
        [.lock logger, .stderr ("Failed to fire the hook: " ++ err ++ "\n"), .unlock logger]
      | none => []) ++
    [.format entry { r with Data := runHooks (l.hooks r.Level) r }] ++
    (match l.formatter { r with Data := runHooks (l.hooks r.Level) r } with
      | .error err =>
        [.lock logger, .stderr ("Failed to obtain reader, " ++ err ++ "\n"), .unlock logger]
      | .ok serialized =>
        [.lock logger, .write logger serialized] ++
          (match l.out.fail serialized with
            | some err => [.stderr ("Failed to write to log, " ++ err ++ "\n")]
            | none => []) ++
          [.unlock logger])

/-- The byte strings `entry.log` hands to the sink when the formatter is
`formatter` and the hooks have left the entry reading as `r`. -/
def sinkBytes (formatter : Formatter) (r : Record) : List String :=
  match formatter r with
  | .error _ => []
  | .ok serialized => [serialized]

/-- The event with the address of the entry it concerns forgotten. -/
def Event.anonymous : Event → Event
  | .fire level _ seen => .fire level 0 seen
  | .hook index _ seen => .hook index 0 seen
  | .format _ seen => .format 0 seen
  | ev => ev

/-- Whether the event is a write to a sink. -/
def Event.isWrite : Event → Bool
  | .write _ _ => true
  | _ => false

/-- Whether the event is a report on standard error. -/
def Event.isStderr : Event → Bool
  | .stderr _ => true
  | _ => false

/-- The next entry `logger.newEntry()` hands out belongs to the logger and has
an empty field set: the pool is empty, or the entry on top of it is such. -/
def Logger.cleanScratch (st : State) (logger : Nat) : Prop :=
  match (st.loggers logger).entryPool with
  | [] => True
  | entry :: _ => (st.entries entry).Logger = logger ∧ st.fields entry = ∅

/-- The entry `NewEntry(logger).AsLevel(level)`, and the state in which it
exists. -/
def chainAt (st : State) (logger : Nat) (level : Level) : State × Nat :=
  Entry.AsLevel (NewEntry st logger).1 (NewEntry st logger).2 level

/-- Two runs started in `st` do the same to the outside of the logger at
`logger`: they append the same events, up to the address of the entry that is
logged, they leave the same byte strings in the logger's sink, and one returns
exactly when the other does. -/
def SameWrite (st : State) (logger : Nat) (direct viaEntry : State × Outcome) : Prop :=
  (direct.1.since st).map Event.anonymous = (viaEntry.1.since st).map Event.anonymous ∧
    (direct.1.loggers logger).out.written = (viaEntry.1.loggers logger).out.written ∧
    (direct.2 = .returned ↔ viaEntry.2 = .returned)

/-- Modelled from the spec: `logrus.go`, which declares the six constants, is
missing from the sources.  "Debug < Info < Warning < Error < Fatal < Panic
numerically": the order of the constants as the specification states it. -/
def Levels.Ascending (lv : Levels) : Prop :=
  lv.DebugLevel < lv.InfoLevel ∧ lv.InfoLevel < lv.WarnLevel ∧
    lv.WarnLevel < lv.ErrorLevel ∧ lv.ErrorLevel < lv.FatalLevel ∧ lv.FatalLevel < lv.PanicLevel

/-- The name of the call an event records. -/
def Event.kind : Event → String
  | .render _ _ _ => "render"
  | .lock _ => "lock"
  | .unlock _ => "unlock"
  | .fire _ _ _ => "fire"
  | .hook _ _ _ => "hook"
  | .format _ _ => "format"
  | .write _ _ => "write"
  | .stderr _ => "stderr"

/-- The critical sections of the lock of the logger at `logger` that a list of
events runs through, `held` being the events of the section that is open when
the list starts, if one is: a `Lock()` of that logger opens a section, the
`Unlock()` that follows closes it, and the events between the two are the
section.  Events outside a section belong to none. -/
def sectionsFrom (logger : Nat) : Option (List Event) → List Event → List (List Event)
  | none, [] => []
  | some held, [] => [held]
  | none, .lock l :: rest =>
    if l = logger then sectionsFrom logger (some []) rest else sectionsFrom logger none rest
  | none, _ :: rest => sectionsFrom logger none rest
  | some held, .unlock l :: rest =>
    if l = logger then held :: sectionsFrom logger none rest
    else sectionsFrom logger (some (held ++ [.unlock l])) rest
  | some held, ev :: rest => sectionsFrom logger (some (held ++ [ev])) rest

/-- The critical sections of the lock of the logger at `logger` in a list of
events that starts with the lock free. -/
def criticalSections (logger : Nat) (evs : List Event) : List (List Event) :=
  sectionsFrom logger none evs

/-- Whether the event is a `Lock()` or an `Unlock()`. -/
def Event.isLockOp : Event → Bool
  | .lock _ => true
  | .unlock _ => true
  | _ => false

/-- The hook leaves the keys of `f` alone: whatever entry it is fired on, every
key that `f` binds is bound in the field set the hook leaves as it was bound
in the field set the hook found. -/
def Hook.Keeps (hook : Hook) (f : Fields) : Prop :=
  ∀ (r : Record) (k : String), f.lookup k ≠ none → (hook.Fire r).1.lookup k = r.Data.lookup k

namespace Sample

/-- A stand-in for `fmt.Sprintf`: it returns the format string. -/
def sprintf : SprintfFn := fun format _ => format

/-- A formatter that always succeeds: the message, then every field. -/
def text : Formatter := fun r =>
  .ok (r.Data.entries.foldl (fun acc kv => acc ++ " " ++ kv.1 ++ "=" ++ fmt.render kv.2)
    ("msg=" ++ r.Message) ++ "\n")

/-- A writer that has received nothing and never fails. -/
def buffer : Writer := { written := [], fail := fun _ => none }

/-- The hook `ModifyHook` of `hook_test.go`: registered for the six levels, it
sets the field `wow` to `whale` and succeeds. -/
def ModifyHook (lv : Levels) : Hook :=
  { Levels := [lv.DebugLevel, lv.InfoLevel, lv.WarnLevel, lv.ErrorLevel, lv.FatalLevel,
      lv.PanicLevel],
    Fire := fun r => (r.Data.insert "wow" (.str "whale"), none) }

/-- `New(InfoLevel)` with the sink `buffer` and the formatter `text`, in the
empty state. -/
def info : State × Nat := New State.empty Levels.iota.InfoLevel buffer text

/-- `New(DebugLevel)` with the sink `buffer` and the formatter `text`, in the
empty state. -/
def debug : State × Nat := New State.empty Levels.iota.DebugLevel buffer text

/-- `NewEntry(logger)` for the logger of `info`. -/
def infoEntry : State × Nat := NewEntry info.1 info.2

/-- The entry of `infoEntry` re-levelled to debug, which `info` does not log. -/
def infoAsDebug : State × Nat := Entry.AsLevel infoEntry.1 infoEntry.2 Levels.iota.DebugLevel

/-- The logger of `info` with the panic level as its threshold, and an entry of
the fatal level on it. -/
def panicThreshold : State × Nat :=
  Entry.AsLevel (SetLevel infoEntry.1 info.2 Levels.iota.PanicLevel) infoEntry.2
    Levels.iota.FatalLevel

/-- The logger of `debug` with `ModifyHook` added. -/
def hooked : State := Logger.AddHook debug.1 debug.2 (ModifyHook Levels.iota)

/-- `NewEntry(logger)` for the logger of `hooked`. -/
def hookedEntry : State × Nat := NewEntry hooked debug.2

/-- The entry of `hookedEntry` re-levelled to info. -/
def hookedAsInfo : State × Nat := Entry.AsLevel hookedEntry.1 hookedEntry.2 Levels.iota.InfoLevel

/-- The state after `Write("x")` on the entry of `hookedAsInfo`. -/
def hookedWritten : State × Outcome :=
  Entry.Write Levels.iota sprintf hookedAsInfo.1 hookedAsInfo.2 [.str "x"] 7

/-- The field map `a -> 1`. -/
def a1 : Fields := (∅ : Fields).insert "a" (.int 1)

/-- The field map `a -> 2`. -/
def a2 : Fields := (∅ : Fields).insert "a" (.int 2)

/-- The logger of `info` raised to the debug threshold with `SetLevel`, and an
entry created on it. -/
def raisedEntry : State × Nat :=
  NewEntry (SetLevel info.1 info.2 Levels.iota.DebugLevel) info.2

/-- The state after `Write("hi")` on the entry of `raisedEntry` at time 7,
followed by `SetLevel(InfoLevel)`. -/
def lowered : State :=
  SetLevel (Entry.Write Levels.iota sprintf raisedEntry.1 raisedEntry.2 [.str "hi"] 7).1 info.2
    Levels.iota.InfoLevel

/-- The entry `logger.WithField("wow", "elephant")` of `hook_test.go`, derived
from the entry of `hookedEntry`. -/
def elephant : State × Nat :=
  Entry.WithField hookedEntry.1 hookedEntry.2 "wow" (.str "elephant")

/-- A hook registered for the six levels that leaves the fields alone and
fails. -/
def FailingHook (lv : Levels) : Hook :=
  { Levels := [lv.DebugLevel, lv.InfoLevel, lv.WarnLevel, lv.ErrorLevel, lv.FatalLevel,
      lv.PanicLevel],
    Fire := fun r => (r.Data, some "hook down") }

/-- A formatter that always fails. -/
def broken : Formatter := fun _ => .error "cannot serialize"

/-- A writer that has received nothing and fails on every write. -/
def closedPipe : Writer := { written := [], fail := fun _ => some "closed pipe" }

/-- The logger of `debug` with `FailingHook` added, and an entry created on it. -/
def failingEntry : State × Nat :=
  NewEntry (Logger.AddHook debug.1 debug.2 (FailingHook Levels.iota)) debug.2

/-- The logger of `debug` with the formatter `broken`, and an entry created on
it. -/
def brokenEntry : State × Nat :=
  NewEntry (Logger.SetFormatter debug.1 debug.2 broken) debug.2

/-- A debug logger on which the hook, the formatter and the sink all fail, and
an entry of the fatal level on it. -/
def doomedFatal : State × Nat :=
  Entry.AsLevel
    (NewEntry (Logger.SetOutput (Logger.SetFormatter
      (Logger.AddHook debug.1 debug.2 (FailingHook Levels.iota)) debug.2 broken) debug.2
      closedPipe) debug.2).1
    (NewEntry (Logger.SetOutput (Logger.SetFormatter
      (Logger.AddHook debug.1 debug.2 (FailingHook Levels.iota)) debug.2 broken) debug.2
      closedPipe) debug.2).2
    Levels.iota.FatalLevel

/-- An entry of the panic level holding `animal = orca`, on the logger of
`hooked`. -/
def orca : State × Nat :=
  Entry.WithField (Entry.AsLevel hookedEntry.1 hookedEntry.2 Levels.iota.PanicLevel).1
    (Entry.AsLevel hookedEntry.1 hookedEntry.2 Levels.iota.PanicLevel).2 "animal" (.str "orca")

/-- The state after `logger.Error("x")` on the logger of `info`. -/
def errored : State × Outcome := Logger.Error Levels.iota sprintf info.1 info.2 [.str "x"] 7

/-- The entry `logger.WithField("a", 1)` returns after `logger.Error("x")`. -/
def afterError : State × Nat := Logger.WithField errored.1 info.2 "a" (.int 1)

/-- The state after `logger.Info("x")` on the logger of `hooked`, which carries
`ModifyHook`. -/
def infoed : State × Outcome := Logger.Info Levels.iota sprintf hooked debug.2 [.str "x"] 7

/-- The entry `logger.WithField("k", "v")` returns after that `logger.Info("x")`. -/
def afterInfo : State × Nat := Logger.WithField infoed.1 debug.2 "k" (.str "v")

/-- The entry `logger.AsLevel(ErrorLevel)` returns on the logger of `info`. -/
def releveled : State × Nat := Logger.AsLevel info.1 info.2 Levels.iota.ErrorLevel

/-- The entry `logger.WithField("b", 2)` returns on the logger of `debug` after
a first `logger.WithField("a", 1)` and `SetLevel(InfoLevel)`. -/
def afterLowering : State × Nat :=
  Logger.WithField
    (SetLevel (Logger.WithField debug.1 debug.2 "a" (.int 1)).1 debug.2 Levels.iota.InfoLevel)
    debug.2 "b" (.int 2)

/-- The six constants in the order the specification states, with the least
values: debug 0, info 1, warning 2, error 3, fatal 4, panic 5. -/
def ascending : Levels :=
  { PanicLevel := 5, FatalLevel := 4, ErrorLevel := 3, WarnLevel := 2, InfoLevel := 1,
    DebugLevel := 0 }

/-- The state after `logger.Panicln("a", "b")` on the logger of `debug`. -/
def panicln : State × Outcome :=
  Logger.Panicln Levels.iota sprintf debug.1 debug.2 [.str "a", .str "b"] 7

/-- The state after `logger.Errorln("a", "b")` on the logger of `debug`. -/
def errorln : State × Outcome :=
  Logger.Errorln Levels.iota sprintf debug.1 debug.2 [.str "a", .str "b"] 7

/-- The state after `Writeln("a", "b")` on an entry of the panic level created
on the logger of `debug`. -/
def writeln : State × Outcome :=
  Entry.Writeln Levels.iota sprintf
    (Entry.AsLevel (NewEntry debug.1 debug.2).1 (NewEntry debug.1 debug.2).2
      Levels.iota.PanicLevel).1
    (Entry.AsLevel (NewEntry debug.1 debug.2).1 (NewEntry debug.1 debug.2).2
      Levels.iota.PanicLevel).2
    [.str "a", .str "b"] 7

/-- The chain `NewEntry(logger).AsLevel(InfoLevel).WithFields({wow: elephant})`
on the logger of `hooked`, which carries `ModifyHook`. -/
def elephantChain : State × Nat :=
  Entry.WithFields hookedAsInfo.1 hookedAsInfo.2 ((∅ : Fields).insert "wow" (.str "elephant"))

/-- A hook registered for the six levels that empties the field set and
succeeds. -/
def DropHook (lv : Levels) : Hook :=
  { Levels := [lv.DebugLevel, lv.InfoLevel, lv.WarnLevel, lv.ErrorLevel, lv.FatalLevel,
      lv.PanicLevel],
    Fire := fun _ => (∅, none) }

/-- The chain `NewEntry(logger).AsLevel(InfoLevel).WithFields({field: value})` on
the logger of `debug` with `DropHook` added. -/
def droppedChain : State × Nat :=
  Entry.WithFields
    (Entry.AsLevel (NewEntry (Logger.AddHook debug.1 debug.2 (DropHook Levels.iota)) debug.2).1
      (NewEntry (Logger.AddHook debug.1 debug.2 (DropHook Levels.iota)) debug.2).2
      Levels.iota.InfoLevel).1
    (Entry.AsLevel (NewEntry (Logger.AddHook debug.1 debug.2 (DropHook Levels.iota)) debug.2).1
      (NewEntry (Logger.AddHook debug.1 debug.2 (DropHook Levels.iota)) debug.2).2
      Levels.iota.InfoLevel).2
    ((∅ : Fields).insert "field" (.str "value"))

/-- The entry `logger.WithField("a", 1)` returns after `logger.Info("x")` on the
logger of `hooked`, which carries `ModifyHook`. -/
def afterInfoA : State × Nat := Logger.WithField infoed.1 debug.2 "a" (.int 1)

/-- The state after `e2 = e1.WithField("b", 2)` has been created from the entry
`e1` of `afterInfoA` and written with `Write("y")`. -/
def afterInfoWritten : State × Outcome :=
  Entry.write Levels.iota sprintf
    (Entry.WithField afterInfoA.1 afterInfoA.2 "b" (.int 2)).1
    (Entry.WithField afterInfoA.1 afterInfoA.2 "b" (.int 2)).2 .unformatted "" [.str "y"] 8

end Sample

/-! ## The expectations of the tests -/

/-- `writeLogAndAssertText(t, loggerLevel, log, assertions)` of `logger_test.go`
up to the assertions: what the buffer holds after `log` has run on a new
logger of the threshold `loggerLevel`, and how `log` ended.  The buffer and the
text formatter, `Sample.buffer` and `Sample.text` here, are given to `New`. -/
def writeLogAndAssertText (loggerLevel : Level) (log : State → Nat → State × Outcome) :
    List String × Outcome :=
  let logger := New State.empty loggerLevel Sample.buffer Sample.text
  let r := log logger.1 logger.2
  ((r.1.loggers logger.2).out.written, r.2)

/-- `logEntryAndAssertText(t, loggerLevel, log, assertions)` of `entry_test.go`
up to the assertions: what the buffer holds after `log` has run on
`NewEntry(logger)` for a new logger of the threshold `loggerLevel`, and how
`log` ended. -/
def logEntryAndAssertText (loggerLevel : Level) (log : State → Nat → State × Outcome) :
    List String × Outcome :=
  let logger := New State.empty loggerLevel Sample.buffer Sample.text
  let entry := NewEntry logger.1 logger.2
  let r := log entry.1 entry.2
  ((r.1.loggers logger.2).out.written, r.2)

/-- What a test case finds when its call has returned and has logged
`Message`. -/
def logged : List String × Outcome := (["msg=Message\n"], .returned)

/-- What a test case finds when its call has returned and has logged nothing. -/
def silent : List String × Outcome := ([], .returned)

/-- `TestLoggerDebugText` of `logger_test.go`: `lw.Debug("Message")` logs on a
logger of the debug threshold (`shouldLog: true`) and logs nothing on a logger
of the info threshold (`shouldLog: false`). -/
def TestLoggerDebugText (lv : Levels) : Prop :=
  writeLogAndAssertText lv.DebugLevel
      (fun st lw => Logger.Debug lv Sample.sprintf st lw [.str "Message"] 0) = logged ∧
    writeLogAndAssertText lv.InfoLevel
      (fun st lw => Logger.Debug lv Sample.sprintf st lw [.str "Message"] 0) = silent

/-- `TestLoggerInfoText` of `logger_test.go`: `lw.Info("Message")` logs on a
logger of the debug threshold (`shouldLog: true`) and logs nothing on a logger
of the warning threshold (`shouldLog: false`). -/
def TestLoggerInfoText (lv : Levels) : Prop :=
  writeLogAndAssertText lv.DebugLevel
      (fun st lw => Logger.Info lv Sample.sprintf st lw [.str "Message"] 0) = logged ∧
    writeLogAndAssertText lv.WarnLevel
      (fun st lw => Logger.Info lv Sample.sprintf st lw [.str "Message"] 0) = silent

/-- One case of `TestEntryLoggingWithTextFormatter` of `entry_test.go`:
`entry.AsLevel(entryLevel).Write("Message")` returns, and it has logged exactly
when `shouldLog := tc.entryLevel <= tc.loggerLevel` holds. -/
def entryLoggingCase (lv : Levels) (loggerLevel entryLevel : Level) : Prop :=
  logEntryAndAssertText loggerLevel
      (fun st entry => Entry.Write lv Sample.sprintf (Entry.AsLevel st entry entryLevel).1
        (Entry.AsLevel st entry entryLevel).2 [.str "Message"] 0) =
    if entryLevel ≤ loggerLevel then logged else silent

/-- `TestEntryLoggingWithTextFormatter` of `entry_test.go`: the three cases, an
entry of the debug level on a debug logger, an entry of the info level on a
debug logger and an entry of the debug level on an info logger. -/
def TestEntryLoggingWithTextFormatter (lv : Levels) : Prop :=
  entryLoggingCase lv lv.DebugLevel lv.DebugLevel ∧
    entryLoggingCase lv lv.DebugLevel lv.InfoLevel ∧
    entryLoggingCase lv lv.InfoLevel lv.DebugLevel

/-! ## Lemmas on the field maps -/

theorem foldl_insert_lookup (k : String) :
    ∀ (l : List (Sigma fun _ : String => Value)) (dst : Fields), l.NodupKeys →
      (l.foldl (fun d a => d.insert a.1 a.2) dst).lookup k =
        match l.dlookup k with
        | some v => some v
        | none => dst.lookup k
  | [], dst, _ => by simp
  | ⟨a, b⟩ :: t, dst, h => by
    have ht : t.NodupKeys := (List.nodupKeys_cons.1 h).2
    have ha : a ∉ t.keys := (List.nodupKeys_cons.1 h).1
    rw [List.foldl_cons, foldl_insert_lookup k t _ ht]
    by_cases hk : k = a
    · subst hk
      have : t.dlookup k = none := List.dlookup_eq_none.2 ha
      simp [this, AList.lookup_insert]
    · simp [List.dlookup_cons_ne t ⟨a, b⟩ hk, AList.lookup_insert_ne hk]

theorem copyInto_lookup (dst src : Fields) (k : String) :
    (copyInto dst src).lookup k =
      match src.lookup k with
      | some v => some v
      | none => dst.lookup k := by
  unfold copyInto AList.foldl
  exact foldl_insert_lookup k src.entries dst src.nodupKeys

theorem copyInto_empty_lookup (src : Fields) (k : String) :
    (copyInto ∅ src).lookup k = src.lookup k := by
  rw [copyInto_lookup]
  cases h : src.lookup k <;> simp

theorem merge_lookup (old new : Fields) (k : String) :
    (copyInto (copyInto ∅ old) new).lookup k =
      match new.lookup k with
      | some v => some v
      | none => old.lookup k := by
  rw [copyInto_lookup, copyInto_empty_lookup]

/-! ## Lemmas on the hook walk -/

theorem fireEach_entries (entry : Nat) :
    ∀ (hooks : List Hook) (index : Nat) (st : State),
      (fireEach entry index hooks st).1.entries = st.entries
  | [], _, _ => rfl
  | hook :: rest, index, st => by
    unfold fireEach
    cases h : (hook.Fire (st.record entry)).2 with
    | some err => simp [State.setMap, State.emit]
    | none => simp [fireEach_entries entry rest, State.setMap, State.emit]

theorem fireEach_loggers (entry : Nat) :
    ∀ (hooks : List Hook) (index : Nat) (st : State),
      (fireEach entry index hooks st).1.loggers = st.loggers
  | [], _, _ => rfl
  | hook :: rest, index, st => by
    unfold fireEach
    cases h : (hook.Fire (st.record entry)).2 with
    | some err => simp [State.setMap, State.emit]
    | none => simp [fireEach_loggers entry rest, State.setMap, State.emit]

theorem fireEach_maps (entry : Nat) (addr : Nat) :
    ∀ (hooks : List Hook) (index : Nat) (st : State), addr ≠ (st.entries entry).Data →
      (fireEach entry index hooks st).1.maps addr = st.maps addr
  | [], _, _, _ => rfl
  | hook :: rest, index, st, hne => by
    unfold fireEach
    cases h : (hook.Fire (st.record entry)).2 with
    | some err => simp [State.setMap, State.emit, hne]
    | none =>
      simp only []
      rw [fireEach_maps entry addr rest]
      · simp [State.setMap, State.emit, hne]
      · simpa [State.setMap, State.emit] using hne

theorem fireEach_trace (entry : Nat) :
    ∀ (hooks : List Hook) (index : Nat) (st : State),
      ∃ evs, (fireEach entry index hooks st).1.trace = st.trace ++ evs ∧
        evs.filter Event.isFireOrFormat = [] ∧ evs.length ≤ hooks.length
  | [], _, st => ⟨[], by simp [fireEach]⟩
  | hook :: rest, index, st => by
    unfold fireEach
    cases h : (hook.Fire (st.record entry)).2 with
    | some err =>
      exact ⟨[.hook index entry (st.record entry)], by
        simp [State.setMap, State.emit, Event.isFireOrFormat]⟩
    | none =>
      obtain ⟨evs, h1, h2, h3⟩ := fireEach_trace entry rest (index + 1)
        ((st.setMap (st.entries entry).Data (hook.Fire (st.record entry)).1).emit
          (.hook index entry (st.record entry)))
      refine ⟨.hook index entry (st.record entry) :: evs, ?_, ?_, ?_⟩
      · simp only []
        rw [h1]
        simp [State.setMap, State.emit]
      · simpa [Event.isFireOrFormat] using h2
      · simpa using h3

/-! ## Lemmas on the stages of `Entry.log` -/

theorem fireHooks_entries (st : State) (entry : Nat) :
    (Entry.fireHooks st entry).entries = st.entries := by
  unfold Entry.fireHooks LevelHooks.Fire
  simp only []
  split <;> simp [State.emit, fireEach_entries]

theorem fireHooks_loggers (st : State) (entry : Nat) :
    (Entry.fireHooks st entry).loggers = st.loggers := by
  unfold Entry.fireHooks LevelHooks.Fire
  simp only []
  split <;> simp [State.emit, fireEach_loggers]

theorem fireHooks_maps (st : State) (entry addr : Nat) (hne : addr ≠ (st.entries entry).Data) :
    (Entry.fireHooks st entry).maps addr = st.maps addr := by
  unfold Entry.fireHooks LevelHooks.Fire
  simp only []
  split <;>
    · simp only [State.emit]
      rw [fireEach_maps]
      exact hne

theorem fireHooks_no_hooks (st : State) (entry : Nat)
    (h : (st.loggers (st.entries entry).Logger).hooks (st.entries entry).Level = []) :
    (Entry.fireHooks st entry).maps = st.maps := by
  unfold Entry.fireHooks LevelHooks.Fire
  simp [State.emit, h, fireEach]

theorem fireHooks_since (st : State) (entry : Nat) :
    ∃ evs, (Entry.fireHooks st entry).trace = st.trace ++ evs ∧
      evs.filter Event.isFireOrFormat = [.fire (st.entries entry).Level entry (st.record entry)] := by
  unfold Entry.fireHooks LevelHooks.Fire
  simp only []
  obtain ⟨evs, h1, h2, _⟩ := fireEach_trace entry
    ((st.loggers (st.entries entry).Logger).hooks (st.entries entry).Level) 0
    ((st.emit (.lock (st.entries entry).Logger)).emit
      (.fire (st.entries entry).Level entry ((st.emit (.lock (st.entries entry).Logger)).record entry)))
  split
  · rename_i err _
    refine ⟨[.lock (st.entries entry).Logger,
        .fire (st.entries entry).Level entry (st.record entry)] ++ evs ++
        [.unlock (st.entries entry).Logger, .lock (st.entries entry).Logger,
         .stderr ("Failed to fire the hook: " ++ err ++ "\n"),
         .unlock (st.entries entry).Logger], ?_, ?_⟩
    · simp only [State.emit, State.record, State.fields] at h1 ⊢
      rw [h1]
      simp
    · simp [Event.isFireOrFormat, h2]
  · refine ⟨[.lock (st.entries entry).Logger,
        .fire (st.entries entry).Level entry (st.record entry)] ++ evs ++
        [.unlock (st.entries entry).Logger], ?_, ?_⟩
    · simp only [State.emit, State.record, State.fields] at h1 ⊢
      rw [h1]
      simp
    · simp [Event.isFireOrFormat, h2]

theorem emitBytes_entries (st : State) (entry : Nat) :
    (Entry.emitBytes st entry).entries = st.entries := by
  unfold Entry.emitBytes
  simp only []
  split
  · simp [State.emit]
  · split <;> simp [State.emit, State.setLogger]

theorem emitBytes_maps (st : State) (entry : Nat) :
    (Entry.emitBytes st entry).maps = st.maps := by
  unfold Entry.emitBytes
  simp only []
  split
  · simp [State.emit]
  · split <;> simp [State.emit, State.setLogger]

theorem emitBytes_level (st : State) (entry l : Nat) :
    ((Entry.emitBytes st entry).loggers l).level = (st.loggers l).level := by
  unfold Entry.emitBytes
  simp only []
  split
  · simp [State.emit]
  · split <;>
    · simp only [State.emit, State.setLogger]
      split <;> simp_all

theorem emitBytes_written_ok (st : State) (entry : Nat) (bytes : String)
    (h : (st.loggers (st.entries entry).Logger).formatter (st.record entry) = .ok bytes) :
    ((Entry.emitBytes st entry).loggers (st.entries entry).Logger).out.written =
      (st.loggers (st.entries entry).Logger).out.written ++ [bytes] := by
  unfold Entry.emitBytes
  simp only [h]
  split <;> simp [State.emit, State.setLogger]

theorem emitBytes_loggers_error (st : State) (entry : Nat) (err : String)
    (h : (st.loggers (st.entries entry).Logger).formatter (st.record entry) = .error err) :
    (Entry.emitBytes st entry).loggers = st.loggers := by
  unfold Entry.emitBytes
  simp [h, State.emit]

theorem emitBytes_since (st : State) (entry : Nat) :
    ∃ evs, (Entry.emitBytes st entry).trace = st.trace ++ evs ∧
      evs.filter Event.isFireOrFormat = [.format entry (st.record entry)] := by
  unfold Entry.emitBytes
  simp only []
  split
  · rename_i err _
    exact ⟨[.format entry (st.record entry), .lock (st.entries entry).Logger,
      .stderr ("Failed to obtain reader, " ++ err ++ "\n"), .unlock (st.entries entry).Logger],
      by simp [State.emit], by simp [Event.isFireOrFormat]⟩
  · rename_i serialized _
    split
    · rename_i err _
      exact ⟨[.format entry (st.record entry), .lock (st.entries entry).Logger,
        .write (st.entries entry).Logger serialized,
        .stderr ("Failed to write to log, " ++ err ++ "\n"), .unlock (st.entries entry).Logger],
        by simp [State.emit, State.setLogger], by simp [Event.isFireOrFormat]⟩
    · exact ⟨[.format entry (st.record entry), .lock (st.entries entry).Logger,
        .write (st.entries entry).Logger serialized, .unlock (st.entries entry).Logger],
        by simp [State.emit, State.setLogger], by simp [Event.isFireOrFormat]⟩

theorem stamp_entries_self (st : State) (entry : Nat) (msg : String) (now : Time) :
    (Entry.stamp st entry msg now).entries entry =
      { st.entries entry with Time := now, Message := msg } := by
  simp [Entry.stamp, State.setEntry]

theorem stamp_entries_other (st : State) (entry other : Nat) (msg : String) (now : Time)
    (h : other ≠ entry) : (Entry.stamp st entry msg now).entries other = st.entries other := by
  simp [Entry.stamp, State.setEntry, h]

/-- The entry cells after `entry.log(msg)`: the logged entry is stamped, every
other cell is as before. -/
theorem log_entries (lv : Levels) (st : State) (entry : Nat) (msg : String) (now : Time) :
    (Entry.log lv st entry msg now).1.entries =
      fun i => if i = entry then { st.entries entry with Time := now, Message := msg }
        else st.entries i := by
  unfold Entry.log
  simp only [emitBytes_entries, fireHooks_entries]
  simp [Entry.stamp, State.setEntry]

/-- The map cells after `entry.log(msg)`: only the map of the logged entry can
have changed. -/
theorem log_maps (lv : Levels) (st : State) (entry addr : Nat) (msg : String) (now : Time)
    (h : addr ≠ (st.entries entry).Data) :
    (Entry.log lv st entry msg now).1.maps addr = st.maps addr := by
  unfold Entry.log
  simp only [emitBytes_maps]
  rw [fireHooks_maps]
  · simp [Entry.stamp, State.setEntry]
  · simpa [Entry.stamp, State.setEntry] using h

theorem hooked_logger (st : State) (entry : Nat) (msg : String) (now : Time) :
    ((Entry.fireHooks (Entry.stamp st entry msg now) entry).entries entry).Logger =
      (st.entries entry).Logger := by
  simp [fireHooks_entries, Entry.stamp, State.setEntry]

theorem hooked_loggers (st : State) (entry : Nat) (msg : String) (now : Time) :
    (Entry.fireHooks (Entry.stamp st entry msg now) entry).loggers = st.loggers := by
  simp [fireHooks_loggers, Entry.stamp, State.setEntry]

/-- The sink after `entry.log(msg)` when the formatter succeeds on the record
it is given. -/
theorem log_written_ok (lv : Levels) (st : State) (entry : Nat) (msg : String) (now : Time)
    (bytes : String)
    (h : (st.loggers (st.entries entry).Logger).formatter
      ((Entry.fireHooks (Entry.stamp st entry msg now) entry).record entry) = .ok bytes) :
    ((Entry.log lv st entry msg now).1.loggers (st.entries entry).Logger).out.written =
      (st.loggers (st.entries entry).Logger).out.written ++ [bytes] := by
  unfold Entry.log
  simp only []
  have key := emitBytes_written_ok (Entry.fireHooks (Entry.stamp st entry msg now) entry) entry
    bytes (by rw [hooked_logger, hooked_loggers]; exact h)
  rw [hooked_logger, hooked_loggers] at key
  exact key

/-- The three public write methods are `entry.write` at their mode. -/
theorem Write_family (lv : Levels) (sprintf : SprintfFn) (st : State) (entry : Nat)
    (format : String) (args : List Value) (now : Time) :
    Entry.Write lv sprintf st entry args now =
        Entry.write lv sprintf st entry .unformatted "" args now ∧
      Entry.Writef lv sprintf st entry format args now =
        Entry.write lv sprintf st entry .formatted format args now ∧
      Entry.Writeln lv sprintf st entry args now =
        Entry.write lv sprintf st entry .newLine "" args now :=
  ⟨rfl, rfl, rfl⟩

theorem since_of_append (st1 st : State) (evs : List Event) (h : st1.trace = st.trace ++ evs) :
    st1.since st = evs := by
  simp [State.since, h]

/-- The trace of `entry.log(msg)`: among the events it appends, the hook
registry is fired once, on the stamped entry, and the formatter is called once
after it, on the entry as the hooks left it. -/
theorem log_since (lv : Levels) (st : State) (entry : Nat) (msg : String) (now : Time) :
    ∃ evs, (Entry.log lv st entry msg now).1.trace = st.trace ++ evs ∧
      evs.filter Event.isFireOrFormat =
        [.fire (st.entries entry).Level entry ((Entry.stamp st entry msg now).record entry),
         .format entry ((Entry.fireHooks (Entry.stamp st entry msg now) entry).record entry)] := by
  obtain ⟨evs1, h1, f1⟩ := fireHooks_since (Entry.stamp st entry msg now) entry
  obtain ⟨evs2, h2, f2⟩ := emitBytes_since (Entry.fireHooks (Entry.stamp st entry msg now) entry)
    entry
  refine ⟨evs1 ++ evs2, ?_, ?_⟩
  · unfold Entry.log
    simp only []
    rw [h2, h1]
    simp [Entry.stamp, State.setEntry]
  · rw [List.filter_append, f1, f2]
    simp [Entry.stamp, State.setEntry]

/-- The trace of an enabled `entry.write`. -/
theorem write_since (lv : Levels) (sprintf : SprintfFn) (st : State) (entry : Nat)
    (mode : formatMode) (format : String) (args : List Value) (now : Time)
    (hle : (st.entries entry).Level ≤ (st.loggers (st.entries entry).Logger).level) :
    ((Entry.write lv sprintf st entry mode format args now).1.since st).filter
        Event.isFireOrFormat =
      [.fire (st.entries entry).Level entry
          { Data := st.fields entry, Time := now, Level := (st.entries entry).Level,
            Message := constructMessage sprintf mode format args },
       .format entry (Entry.offered sprintf st entry mode format args now)] := by
  have hle2 : Logger.getLevel st (st.entries entry).Logger ≥ (st.entries entry).Level := hle
  unfold Entry.write
  rw [if_pos hle2]
  obtain ⟨evs, h1, h2⟩ := log_since lv (st.emit (.render mode format args)) entry
    (constructMessage sprintf mode format args) now
  have h3 : (Entry.log lv (st.emit (.render mode format args)) entry
      (constructMessage sprintf mode format args) now).1.trace =
      st.trace ++ (Event.render mode format args :: evs) := by
    rw [h1]
    simp [State.emit]
  rw [since_of_append _ _ _ h3]
  simp only [List.filter_cons, Event.isFireOrFormat, h2]
  simp [Entry.offered, Entry.stamp, State.setEntry, State.emit, State.record, State.fields]

theorem WithField_eq_WithFields (st : State) (entry : Nat) (key : String) (value : Value) :
    Entry.WithField st entry key value =
      Entry.WithFields st entry ((∅ : Fields).insert key value) := by
  unfold Entry.WithField
  split
  · rename_i h
    unfold Entry.WithFields
    rw [if_pos h]
  · rfl

theorem WithError_eq_WithFields (st : State) (entry : Nat) (err : Value) :
    Entry.WithError st entry err =
      Entry.WithFields st entry ((∅ : Fields).insert errorKey err) :=
  WithField_eq_WithFields st entry errorKey err

theorem Sprint_single_string (m : String) : fmt.Sprint [.str m] = m := by
  simp [fmt.Sprint, fmt.render, fmt.sprintRest]

/-! ## Lemmas on derivation and aliasing -/

theorem write_entries_other (lv : Levels) (sprintf : SprintfFn) (st : State) (entry other : Nat)
    (mode : formatMode) (format : String) (args : List Value) (now : Time)
    (h : other ≠ entry) :
    (Entry.write lv sprintf st entry mode format args now).1.entries other =
      st.entries other := by
  unfold Entry.write
  split
  · rw [log_entries]
    simp [h, State.emit]
  · rfl

theorem write_maps_other (lv : Levels) (sprintf : SprintfFn) (st : State) (entry addr : Nat)
    (mode : formatMode) (format : String) (args : List Value) (now : Time)
    (h : addr ≠ (st.entries entry).Data) :
    (Entry.write lv sprintf st entry mode format args now).1.maps addr = st.maps addr := by
  unfold Entry.write
  split
  · rw [log_maps]
    · simp [State.emit]
    · simpa [State.emit] using h
  · rfl

theorem WithFields_disabled (st : State) (entry : Nat) (fields : Fields)
    (h : (st.loggers (st.entries entry).Logger).level < (st.entries entry).Level) :
    Entry.WithFields st entry fields = (st, entry) := by
  unfold Entry.WithFields
  have h2 : (st.entries entry).Level > Logger.getLevel st (st.entries entry).Logger := h
  rw [if_pos h2]

theorem WithFields_enabled (st : State) (entry : Nat) (fields : Fields)
    (h : (st.entries entry).Level ≤ (st.loggers (st.entries entry).Logger).level) :
    Entry.WithFields st entry fields =
      newLogEntry (st.allocMap (copyInto (copyInto ∅ (st.fields entry)) fields)).1
        (st.entries entry).Logger (st.entries entry).Level st.nextMap := by
  unfold Entry.WithFields
  have h2 : ¬ ((st.entries entry).Level > Logger.getLevel st (st.entries entry).Logger) :=
    Nat.not_lt_of_le h
  rw [if_neg h2]
  rfl

/-- Deriving an entry with `WithFields` and writing the derived entry leaves the
cell and the field map of an allocated parent as they were. -/
theorem derive_write_frame (lv : Levels) (sprintf : SprintfFn) (st : State) (entry : Nat)
    (fields : Fields) (mode : formatMode) (format : String) (args : List Value) (now : Time)
    (he : entry < st.nextEntry) (hm : (st.entries entry).Data < st.nextMap) :
    (Entry.write lv sprintf (Entry.WithFields st entry fields).1
        (Entry.WithFields st entry fields).2 mode format args now).1.entries entry =
      st.entries entry ∧
    (Entry.write lv sprintf (Entry.WithFields st entry fields).1
        (Entry.WithFields st entry fields).2 mode format args now).1.fields entry =
      st.fields entry := by
  by_cases h : (st.entries entry).Level ≤ (st.loggers (st.entries entry).Logger).level
  · have hne : entry ≠ st.nextEntry := Nat.ne_of_lt he
    have hmne : (st.entries entry).Data ≠ st.nextMap := Nat.ne_of_lt hm
    have h1 : (Entry.WithFields st entry fields).1.entries entry = st.entries entry := by
      rw [WithFields_enabled st entry fields h]
      simp [newLogEntry, State.allocEntry, State.allocMap, hne]
    have h2 : (Entry.WithFields st entry fields).2 = st.nextEntry := by
      rw [WithFields_enabled st entry fields h]
      rfl
    have h3 : ((Entry.WithFields st entry fields).1.entries
        (Entry.WithFields st entry fields).2).Data = st.nextMap := by
      rw [WithFields_enabled st entry fields h]
      simp [newLogEntry, State.allocEntry, State.allocMap]
    have h4 : (Entry.WithFields st entry fields).1.maps (st.entries entry).Data =
        st.maps (st.entries entry).Data := by
      rw [WithFields_enabled st entry fields h]
      simp [newLogEntry, State.allocEntry, State.allocMap, hmne]
    have h5 := write_entries_other lv sprintf (Entry.WithFields st entry fields).1
      (Entry.WithFields st entry fields).2 entry mode format args now (by rw [h2]; exact hne)
    refine ⟨h5.trans h1, ?_⟩
    unfold State.fields
    rw [h5, h1, write_maps_other, h4]
    rw [h3]
    exact hmne
  · have hlt : (st.loggers (st.entries entry).Logger).level < (st.entries entry).Level :=
      Nat.lt_of_not_le h
    rw [WithFields_disabled st entry fields hlt]
    have hw : Entry.write lv sprintf st entry mode format args now = (st, .returned) := by
      unfold Entry.write
      have : ¬ (Logger.getLevel st (st.entries entry).Logger ≥ (st.entries entry).Level) := h
      rw [if_neg this]
    simp [hw]

theorem WithFields_valid (st : State) (entry : Nat) (fields : Fields)
    (he : entry < st.nextEntry) (hm : (st.entries entry).Data < st.nextMap) :
    (Entry.WithFields st entry fields).2 < (Entry.WithFields st entry fields).1.nextEntry ∧
      ((Entry.WithFields st entry fields).1.entries (Entry.WithFields st entry fields).2).Data <
        (Entry.WithFields st entry fields).1.nextMap := by
  by_cases h : (st.entries entry).Level ≤ (st.loggers (st.entries entry).Logger).level
  · rw [WithFields_enabled st entry fields h]
    simp [newLogEntry, State.allocEntry, State.allocMap]
  · rw [WithFields_disabled st entry fields (Nat.lt_of_not_le h)]
    exact ⟨he, hm⟩

theorem newEntry_valid (st : State) (logger : Nat) (hwf : st.WF) :
    (Logger.newEntry st logger).2 < (Logger.newEntry st logger).1.nextEntry ∧
      ((Logger.newEntry st logger).1.entries (Logger.newEntry st logger).2).Data <
        (Logger.newEntry st logger).1.nextMap := by
  unfold Logger.newEntry
  cases hp : (st.loggers logger).entryPool with
  | nil => simp [NewEntry, newLogEntry, State.allocEntry, State.allocMap]
  | cons e rest =>
    have he : e < st.nextEntry := hwf.2 logger e (by rw [hp]; exact List.mem_cons_self e rest)
    simpa [State.setLogger] using And.intro he (hwf.1 e he)

theorem Logger_WithFields_valid (st : State) (logger : Nat) (fields : Fields) (hwf : st.WF) :
    (Logger.WithFields st logger fields).2 < (Logger.WithFields st logger fields).1.nextEntry ∧
      ((Logger.WithFields st logger fields).1.entries (Logger.WithFields st logger fields).2).Data <
        (Logger.WithFields st logger fields).1.nextMap := by
  obtain ⟨h1, h2⟩ := newEntry_valid st logger hwf
  simpa [Logger.WithFields, Logger.releaseEntry, State.setLogger] using
    WithFields_valid (Logger.newEntry st logger).1 (Logger.newEntry st logger).2 fields h1 h2

theorem Logger_WithField_eq (st : State) (logger : Nat) (key : String) (value : Value) :
    Logger.WithField st logger key value =
      Logger.WithFields st logger ((∅ : Fields).insert key value) := by
  simp only [Logger.WithField, Logger.WithFields, WithField_eq_WithFields]

theorem Logger_WithFields_fresh (st : State) (logger : Nat) (fields : Fields)
    (hp : (st.loggers logger).entryPool = []) :
    (Logger.WithFields st logger fields).1.fields (Logger.WithFields st logger fields).2 =
      copyInto (copyInto ∅ ∅) fields := by
  have hn : Logger.newEntry st logger = NewEntry st logger := by
    unfold Logger.newEntry
    rw [hp]
  have hen : ((NewEntry st logger).1.entries (NewEntry st logger).2).Level ≤
      ((NewEntry st logger).1.loggers
        ((NewEntry st logger).1.entries (NewEntry st logger).2).Logger).level := by
    simp [NewEntry, newLogEntry, State.allocEntry, State.allocMap]
  unfold Logger.WithFields
  simp only [hn]
  rw [WithFields_enabled _ _ _ hen]
  simp [NewEntry, newLogEntry, State.allocEntry, State.allocMap, State.fields,
    Logger.releaseEntry, State.setLogger]

theorem singleton_lookup (key : String) (value : Value) (k : String) :
    (copyInto (copyInto ∅ (∅ : Fields)) ((∅ : Fields).insert key value)).lookup k =
      if k = key then some value else none := by
  rw [merge_lookup]
  by_cases h : k = key
  · subst h
    rw [AList.lookup_insert, if_pos rfl]
  · rw [AList.lookup_insert_ne h, AList.lookup_empty, if_neg h]

theorem Sample.hooked_WF : Sample.hooked.WF := by
  refine ⟨?_, ?_⟩
  · intro e he
    exact absurd he (Nat.not_lt_zero e)
  · intro l e he
    have hp : (Sample.hooked.loggers l).entryPool = [] := by
      simp only [Sample.hooked, Logger.AddHook, State.emit, State.setLogger, Sample.debug, New,
        State.allocLogger, State.empty]
      split <;> simp
    rw [hp] at he
    exact absurd he (List.not_mem_nil e)

theorem Sample.infoEntry_WF : Sample.infoEntry.1.WF := by
  refine ⟨?_, ?_⟩
  · intro e he
    have h0 : e = 0 := Nat.lt_one_iff.1 he
    subst h0
    decide
  · intro l e he
    have hp : (Sample.infoEntry.1.loggers l).entryPool = [] := by
      simp only [Sample.infoEntry, NewEntry, newLogEntry, State.allocEntry, State.allocMap,
        Sample.info, New, State.allocLogger, State.empty]
      split <;> simp
    rw [hp] at he
    exact absurd he (List.not_mem_nil e)

theorem Sample.hookedEntry_WF : Sample.hookedEntry.1.WF := by
  refine ⟨?_, ?_⟩
  · intro e he
    have h0 : e = 0 := Nat.lt_one_iff.1 he
    subst h0
    decide
  · intro l e he
    have hp : (Sample.hookedEntry.1.loggers l).entryPool = [] := by
      simp only [Sample.hookedEntry, NewEntry, newLogEntry, State.allocEntry, State.allocMap,
        Sample.hooked, Logger.AddHook, State.emit, State.setLogger, Sample.debug, New,
        State.allocLogger, State.empty]
      split <;> simp
    rw [hp] at he
    exact absurd he (List.not_mem_nil e)

theorem fireEach_append_last (entry : Nat) (hook : Hook) :
    ∀ (pre : List Hook) (index : Nat) (st : State),
      (∀ h, h ∈ pre → ∀ rec, (h.Fire rec).2 = none) →
      (fireEach entry index (pre ++ [hook]) st).1.maps (st.entries entry).Data =
        (hook.Fire ((fireEach entry index pre st).1.record entry)).1
  | [], index, st, _ => by
    simp only [List.nil_append, fireEach]
    cases (hook.Fire (st.record entry)).2 <;> simp [State.setMap, State.emit]
  | h :: pre, index, st, hpre => by
    have hh : (h.Fire (st.record entry)).2 = none := hpre h (List.mem_cons_self h pre) _
    have ih := fireEach_append_last entry hook pre (index + 1)
      ((st.setMap (st.entries entry).Data (h.Fire (st.record entry)).1).emit
        (.hook index entry (st.record entry)))
      (fun h2 hm rec => hpre h2 (List.mem_cons_of_mem h hm) rec)
    simp only [List.cons_append, fireEach, hh]
    simpa [State.setMap, State.emit] using ih

theorem fireEach_runHooks (entry : Nat) :
    ∀ (hooks : List Hook) (index : Nat) (st : State),
      (fireEach entry index hooks st).1.maps (st.entries entry).Data =
        runHooks hooks (st.record entry)
  | [], _, _ => rfl
  | hook :: rest, index, st => by
    unfold fireEach runHooks
    cases h : (hook.Fire (st.record entry)).2 with
    | some err => simp [State.setMap, State.emit]
    | none =>
      have ih := fireEach_runHooks entry rest (index + 1)
        ((st.setMap (st.entries entry).Data (hook.Fire (st.record entry)).1).emit
          (.hook index entry (st.record entry)))
      simpa [State.setMap, State.emit, State.record, State.fields] using ih

theorem fireHooks_maps_eq (st : State) (entry : Nat) :
    (Entry.fireHooks st entry).maps =
      (fireEach entry 0 ((st.loggers (st.entries entry).Logger).hooks (st.entries entry).Level)
        ((st.emit (.lock (st.entries entry).Logger)).emit
          (.fire (st.entries entry).Level entry (st.record entry)))).1.maps := by
  unfold Entry.fireHooks LevelHooks.Fire
  simp only []
  split <;> rfl

/-- When every hook registered for the level but the last succeeds, the field
map the formatter is offered is the one the last hook returned. -/
theorem offered_last_hook (sprintf : SprintfFn) (st : State) (entry : Nat) (mode : formatMode)
    (format : String) (args : List Value) (now : Time) (pre : List Hook) (hook : Hook)
    (hh : (st.loggers (st.entries entry).Logger).hooks (st.entries entry).Level = pre ++ [hook])
    (hpre : ∀ h, h ∈ pre → ∀ rec, (h.Fire rec).2 = none) :
    ∃ rec, (Entry.offered sprintf st entry mode format args now).Data = (hook.Fire rec).1 := by
  have key := fireEach_append_last entry hook pre 0
    (((Entry.stamp (st.emit (.render mode format args)) entry
        (constructMessage sprintf mode format args) now).emit
        (.lock (st.entries entry).Logger)).emit
      (.fire (st.entries entry).Level entry
        ((Entry.stamp (st.emit (.render mode format args)) entry
          (constructMessage sprintf mode format args) now).record entry))) hpre
  refine ⟨_, Eq.trans ?_ key⟩
  simp only [Entry.offered, State.record, State.fields, fireHooks_entries, fireHooks_maps_eq]
  simp only [Entry.stamp, State.setEntry, State.emit, if_true, hh]

/-- The fields the formatter is offered are what the hooks registered for the
entry's level leave of the entry's fields. -/
theorem offered_data (sprintf : SprintfFn) (st : State) (entry : Nat) (mode : formatMode)
    (format : String) (args : List Value) (now : Time) :
    (Entry.offered sprintf st entry mode format args now).Data =
      runHooks ((st.loggers (st.entries entry).Logger).hooks (st.entries entry).Level)
        (Record.mk (st.fields entry) now (st.entries entry).Level
          (constructMessage sprintf mode format args)) := by
  have key := fireEach_runHooks entry
    ((st.loggers (st.entries entry).Logger).hooks (st.entries entry).Level) 0
    (((Entry.stamp (st.emit (.render mode format args)) entry
        (constructMessage sprintf mode format args) now).emit
        (.lock (st.entries entry).Logger)).emit
      (.fire (st.entries entry).Level entry
        ((Entry.stamp (st.emit (.render mode format args)) entry
          (constructMessage sprintf mode format args) now).record entry)))
  simp only [Entry.offered, State.record, State.fields, fireHooks_entries, fireHooks_maps_eq]
  simp only [Entry.stamp, State.setEntry, State.emit, if_true, State.record, State.fields]
    at key ⊢
  exact key

/-- The sink after an enabled write whose formatter call succeeds. -/
theorem write_written_ok (lv : Levels) (sprintf : SprintfFn) (st : State)
    (entry : Nat) (mode : formatMode) (format : String) (args : List Value) (now : Time)
    (bytes : String)
    (hfmt : (st.loggers (st.entries entry).Logger).formatter
      (Entry.offered sprintf st entry mode format args now) = .ok bytes)
    (hle : (st.entries entry).Level ≤ (st.loggers (st.entries entry).Logger).level) :
    ((Entry.write lv sprintf st entry mode format args now).1.loggers
        (st.entries entry).Logger).out.written =
      (st.loggers (st.entries entry).Logger).out.written ++ [bytes] := by
  have hle2 : Logger.getLevel st (st.entries entry).Logger ≥ (st.entries entry).Level := hle
  unfold Entry.write
  rw [if_pos hle2]
  exact log_written_ok lv (st.emit (.render mode format args)) entry _ now bytes hfmt

/-! ## The exact trace and sink of `Entry.log` -/

theorem fireEach_error (entry : Nat) :
    ∀ (hooks : List Hook) (index : Nat) (st : State),
      (fireEach entry index hooks st).2 = hookError hooks (st.record entry)
  | [], _, _ => rfl
  | hook :: rest, index, st => by
    unfold fireEach hookError
    cases h : (hook.Fire (st.record entry)).2 with
    | some err => rfl
    | none =>
      have ih := fireEach_error entry rest (index + 1)
        ((st.setMap (st.entries entry).Data (hook.Fire (st.record entry)).1).emit
          (.hook index entry (st.record entry)))
      simpa [State.setMap, State.emit, State.record, State.fields] using ih

theorem fireEach_trace_eq (entry : Nat) :
    ∀ (hooks : List Hook) (index : Nat) (st : State),
      (fireEach entry index hooks st).1.trace =
        st.trace ++ hookEvents entry index hooks (st.record entry)
  | [], _, st => by simp [fireEach, hookEvents]
  | hook :: rest, index, st => by
    unfold fireEach hookEvents
    cases h : (hook.Fire (st.record entry)).2 with
    | some err => simp [State.setMap, State.emit]
    | none =>
      have ih := fireEach_trace_eq entry rest (index + 1)
        ((st.setMap (st.entries entry).Data (hook.Fire (st.record entry)).1).emit
          (.hook index entry (st.record entry)))
      simpa [State.setMap, State.emit, State.record, State.fields] using ih

/-- The entry after the hooks: its fields are what the walk leaves. -/
theorem fireHooks_record (st : State) (entry : Nat) :
    (Entry.fireHooks st entry).record entry =
      { st.record entry with
        Data := runHooks ((st.loggers (st.entries entry).Logger).hooks (st.entries entry).Level)
          (st.record entry) } := by
  have key := fireEach_runHooks entry
    ((st.loggers (st.entries entry).Logger).hooks (st.entries entry).Level) 0
    ((st.emit (.lock (st.entries entry).Logger)).emit
      (.fire (st.entries entry).Level entry (st.record entry)))
  simp only [State.record, State.fields, fireHooks_entries, fireHooks_maps_eq]
  simp only [State.emit, State.record, State.fields] at key ⊢
  rw [key]

/-- The trace of the hook stage. -/
theorem fireHooks_trace (st : State) (entry : Nat) :
    (Entry.fireHooks st entry).trace =
      st.trace ++
        ([.lock (st.entries entry).Logger,
          .fire (st.entries entry).Level entry (st.record entry)] ++
          hookEvents entry 0
            ((st.loggers (st.entries entry).Logger).hooks (st.entries entry).Level)
            (st.record entry) ++
          [.unlock (st.entries entry).Logger] ++
          (match hookError
              ((st.loggers (st.entries entry).Logger).hooks (st.entries entry).Level)
              (st.record entry) with
            | some err =>
              [.lock (st.entries entry).Logger,
                .stderr ("Failed to fire the hook: " ++ err ++ "\n"),
                .unlock (st.entries entry).Logger]
            | none => [])) := by
  have herr := fireEach_error entry
    ((st.loggers (st.entries entry).Logger).hooks (st.entries entry).Level) 0
    ((st.emit (.lock (st.entries entry).Logger)).emit
      (.fire (st.entries entry).Level entry (st.record entry)))
  have htr := fireEach_trace_eq entry
    ((st.loggers (st.entries entry).Logger).hooks (st.entries entry).Level) 0
    ((st.emit (.lock (st.entries entry).Logger)).emit
      (.fire (st.entries entry).Level entry (st.record entry)))
  have hrec : ((st.emit (.lock (st.entries entry).Logger)).emit
      (.fire (st.entries entry).Level entry (st.record entry))).record entry =
      st.record entry := rfl
  rw [hrec] at herr htr
  unfold Entry.fireHooks LevelHooks.Fire
  simp only []
  have hrec2 : (st.emit (.lock (st.entries entry).Logger)).record entry = st.record entry := rfl
  have hl : (st.emit (.lock (st.entries entry).Logger)).loggers = st.loggers := rfl
  have he : (st.emit (.lock (st.entries entry).Logger)).entries = st.entries := rfl
  rw [hrec2]
  rw [herr]
  cases hookError ((st.loggers (st.entries entry).Logger).hooks (st.entries entry).Level)
      (st.record entry) with
  | some err =>
    simp only [State.emit] at htr ⊢
    rw [htr]
    simp
  | none =>
    simp only [State.emit] at htr ⊢
    rw [htr]
    simp

/-- The trace of the format-and-write stage. -/
theorem emitBytes_trace (st : State) (entry : Nat) :
    (Entry.emitBytes st entry).trace =
      st.trace ++
        ([.format entry (st.record entry)] ++
          (match (st.loggers (st.entries entry).Logger).formatter (st.record entry) with
            | .error err =>
              [.lock (st.entries entry).Logger,
                .stderr ("Failed to obtain reader, " ++ err ++ "\n"),
                .unlock (st.entries entry).Logger]
            | .ok serialized =>
              [.lock (st.entries entry).Logger, .write (st.entries entry).Logger serialized] ++
                (match (st.loggers (st.entries entry).Logger).out.fail serialized with
                  | some err => [.stderr ("Failed to write to log, " ++ err ++ "\n")]
                  | none => []) ++
                [.unlock (st.entries entry).Logger])) := by
  unfold Entry.emitBytes
  simp only []
  cases (st.loggers (st.entries entry).Logger).formatter (st.record entry) with
  | error err => simp [State.emit]
  | ok serialized =>
    simp only []
    have hl : (st.emit (.format entry (st.record entry))).loggers = st.loggers := rfl
    rw [hl]
    cases (st.loggers (st.entries entry).Logger).out.fail serialized with
    | some err => simp [State.emit, State.setLogger]
    | none => simp [State.emit, State.setLogger]

/-- The loggers after the format-and-write stage: the sink of the entry's
logger has received what the formatter returned, nothing else has changed. -/
theorem emitBytes_loggers (st : State) (entry : Nat) :
    (Entry.emitBytes st entry).loggers =
      fun i => if i = (st.entries entry).Logger then
        { st.loggers i with
          out := { (st.loggers i).out with
            written := (st.loggers i).out.written ++
              sinkBytes (st.loggers i).formatter (st.record entry) } }
        else st.loggers i := by
  unfold Entry.emitBytes sinkBytes
  simp only []
  funext i
  cases h : (st.loggers (st.entries entry).Logger).formatter (st.record entry) with
  | error err =>
    by_cases hi : i = (st.entries entry).Logger
    · subst hi
      simp [State.emit, h]
    · simp [State.emit, hi]
  | ok serialized =>
    simp only [State.emit, State.setLogger]
    split <;>
    · by_cases hi : i = (st.entries entry).Logger
      · simp [hi, h]
      · simp [hi]

/-- The exact trace of `entry.log(msg)`. -/
theorem log_trace (lv : Levels) (st : State) (entry : Nat) (msg : String) (now : Time) :
    (Entry.log lv st entry msg now).1.trace =
      st.trace ++ logEvents (st.loggers (st.entries entry).Logger) (st.entries entry).Logger entry
        (Record.mk (st.fields entry) now (st.entries entry).Level msg) := by
  unfold Entry.log
  simp only []
  rw [emitBytes_trace, fireHooks_trace, fireHooks_record, fireHooks_entries, fireHooks_loggers]
  have hrec : (Entry.stamp st entry msg now).record entry =
      Record.mk (st.fields entry) now (st.entries entry).Level msg := by
    simp [Entry.stamp, State.record, State.fields, State.setEntry]
  have hen : (Entry.stamp st entry msg now).entries entry =
      { st.entries entry with Time := now, Message := msg } := by
    simp [Entry.stamp, State.setEntry]
  have hlo : (Entry.stamp st entry msg now).loggers = st.loggers := rfl
  have htr : (Entry.stamp st entry msg now).trace = st.trace := rfl
  rw [hrec, hen, hlo, htr]
  simp only [logEvents, List.append_assoc]

/-- The loggers after `entry.log(msg)`. -/
theorem log_loggers (lv : Levels) (st : State) (entry : Nat) (msg : String) (now : Time) :
    (Entry.log lv st entry msg now).1.loggers =
      fun i => if i = (st.entries entry).Logger then
        { st.loggers i with
          out := { (st.loggers i).out with
            written := (st.loggers i).out.written ++
              sinkBytes (st.loggers i).formatter
                { Record.mk (st.fields entry) now (st.entries entry).Level msg with
                  Data := runHooks ((st.loggers i).hooks (st.entries entry).Level)
                    (Record.mk (st.fields entry) now (st.entries entry).Level msg) } } }
        else st.loggers i := by
  unfold Entry.log
  simp only []
  rw [emitBytes_loggers, fireHooks_record, fireHooks_entries, fireHooks_loggers]
  have hrec : (Entry.stamp st entry msg now).record entry =
      Record.mk (st.fields entry) now (st.entries entry).Level msg := by
    simp [Entry.stamp, State.record, State.fields, State.setEntry]
  have hen : (Entry.stamp st entry msg now).entries entry =
      { st.entries entry with Time := now, Message := msg } := by
    simp [Entry.stamp, State.setEntry]
  have hlo : (Entry.stamp st entry msg now).loggers = st.loggers := rfl
  rw [hrec, hen, hlo]
  funext i
  by_cases hi : i = (st.entries entry).Logger
  · subst hi
    simp
  · simp [hi]

/-- How `entry.log(msg)` ends is decided by the entry's level alone. -/
theorem log_outcome (lv : Levels) (st : State) (entry : Nat) (msg : String) (now : Time) :
    (Entry.log lv st entry msg now).2 =
      if (st.entries entry).Level = lv.FatalLevel then .exited 1
      else if (st.entries entry).Level ≤ lv.PanicLevel then .panicked (.entry entry)
      else .returned := by
  unfold Entry.log Entry.finish
  simp only [emitBytes_entries, fireHooks_entries]
  simp [Entry.stamp, State.setEntry]

/-! ## The exact trace and sink of an enabled write -/

theorem offered_eq (sprintf : SprintfFn) (st : State) (entry : Nat) (mode : formatMode)
    (format : String) (args : List Value) (now : Time) :
    Entry.offered sprintf st entry mode format args now =
      Record.mk
        (runHooks ((st.loggers (st.entries entry).Logger).hooks (st.entries entry).Level)
          (Record.mk (st.fields entry) now (st.entries entry).Level
            (constructMessage sprintf mode format args)))
        now (st.entries entry).Level (constructMessage sprintf mode format args) := by
  unfold Entry.offered
  rw [fireHooks_record]
  simp [Entry.stamp, State.setEntry, State.emit, State.record, State.fields]

theorem write_trace (lv : Levels) (sprintf : SprintfFn) (st : State) (entry : Nat)
    (mode : formatMode) (format : String) (args : List Value) (now : Time)
    (hle : (st.entries entry).Level ≤ (st.loggers (st.entries entry).Logger).level) :
    (Entry.write lv sprintf st entry mode format args now).1.trace =
      st.trace ++ (.render mode format args ::
        logEvents (st.loggers (st.entries entry).Logger) (st.entries entry).Logger entry
          (Record.mk (st.fields entry) now (st.entries entry).Level
            (constructMessage sprintf mode format args))) := by
  have hle2 : Logger.getLevel st (st.entries entry).Logger ≥ (st.entries entry).Level := hle
  unfold Entry.write
  rw [if_pos hle2, log_trace]
  simp [State.emit, State.fields]

theorem write_loggers (lv : Levels) (sprintf : SprintfFn) (st : State) (entry : Nat)
    (mode : formatMode) (format : String) (args : List Value) (now : Time)
    (hle : (st.entries entry).Level ≤ (st.loggers (st.entries entry).Logger).level) :
    (Entry.write lv sprintf st entry mode format args now).1.loggers =
      fun i => if i = (st.entries entry).Logger then
        { st.loggers i with
          out := { (st.loggers i).out with
            written := (st.loggers i).out.written ++
              sinkBytes (st.loggers i).formatter
                (Entry.offered sprintf st entry mode format args now) } }
        else st.loggers i := by
  have hle2 : Logger.getLevel st (st.entries entry).Logger ≥ (st.entries entry).Level := hle
  unfold Entry.write
  rw [if_pos hle2, log_loggers, offered_eq]
  funext i
  by_cases hi : i = (st.entries entry).Logger
  · subst hi
    simp [State.emit, State.fields]
  · simp [State.emit, hi]

theorem write_outcome (lv : Levels) (sprintf : SprintfFn) (st : State) (entry : Nat)
    (mode : formatMode) (format : String) (args : List Value) (now : Time)
    (hle : (st.entries entry).Level ≤ (st.loggers (st.entries entry).Logger).level) :
    (Entry.write lv sprintf st entry mode format args now).2 =
      if (st.entries entry).Level = lv.FatalLevel then .exited 1
      else if (st.entries entry).Level ≤ lv.PanicLevel then .panicked (.entry entry)
      else .returned := by
  have hle2 : Logger.getLevel st (st.entries entry).Logger ≥ (st.entries entry).Level := hle
  unfold Entry.write
  rw [if_pos hle2, log_outcome]
  simp [State.emit]

theorem hookEvents_no_write (entry : Nat) :
    ∀ (hooks : List Hook) (index : Nat) (r : Record),
      (hookEvents entry index hooks r).filter Event.isWrite = []
  | [], _, _ => rfl
  | hook :: rest, index, r => by
    unfold hookEvents
    cases h : (hook.Fire r).2 with
    | some err => simp [Event.isWrite]
    | none => simp [Event.isWrite, hookEvents_no_write entry rest]

/-- The sink writes among the events of `entry.log`: one for each byte string
the formatter returned. -/
theorem logEvents_writes (l : Logger) (logger entry : Nat) (r : Record) :
    (logEvents l logger entry r).filter Event.isWrite =
      (sinkBytes l.formatter { r with Data := runHooks (l.hooks r.Level) r }).map
        (Event.write logger) := by
  unfold logEvents sinkBytes
  simp only [List.filter_append, hookEvents_no_write]
  cases hookError (l.hooks r.Level) r <;>
    cases l.formatter { r with Data := runHooks (l.hooks r.Level) r } with
    | error err => simp [Event.isWrite]
    | ok serialized => cases hf : l.out.fail serialized <;> simp [Event.isWrite, hf]

/-- Under the order of the constants the error, warning, info and debug levels
are above the fatal level, hence neither fatal nor at or below panic. -/
theorem plain_levels (lv : Levels) (hord : lv.Ordered) (l : Level)
    (hmem : l ∈ [lv.ErrorLevel, lv.WarnLevel, lv.InfoLevel, lv.DebugLevel]) :
    l ≠ lv.FatalLevel ∧ lv.PanicLevel < l := by
  obtain ⟨h1, h2, h3, h4, h5⟩ := hord
  simp only [List.mem_cons, List.mem_singleton, List.not_mem_nil, or_false] at hmem
  have hf : lv.FatalLevel < l := by
    rcases hmem with h | h | h | h <;> rw [h]
    · exact h2
    · exact Nat.lt_trans h2 h3
    · exact Nat.lt_trans h2 (Nat.lt_trans h3 h4)
    · exact Nat.lt_trans h2 (Nat.lt_trans h3 (Nat.lt_trans h4 h5))
  exact ⟨Nat.ne_of_gt hf, Nat.lt_trans h1 hf⟩

/-- How a write ends, enabled or not. -/
theorem write_outcome_cases (lv : Levels) (sprintf : SprintfFn) (st : State) (entry : Nat)
    (mode : formatMode) (format : String) (args : List Value) (now : Time) :
    (Entry.write lv sprintf st entry mode format args now).2 = .returned ∨
      ((st.entries entry).Level = lv.FatalLevel ∧
        (Entry.write lv sprintf st entry mode format args now).2 = .exited 1) ∨
      ((st.entries entry).Level ≤ lv.PanicLevel ∧
        (Entry.write lv sprintf st entry mode format args now).2 = .panicked (.entry entry)) := by
  by_cases hen : (st.entries entry).Level ≤ (st.loggers (st.entries entry).Logger).level
  · rw [write_outcome lv sprintf st entry mode format args now hen]
    by_cases h1 : (st.entries entry).Level = lv.FatalLevel
    · exact Or.inr (Or.inl ⟨h1, by rw [if_pos h1]⟩)
    · by_cases h2 : (st.entries entry).Level ≤ lv.PanicLevel
      · exact Or.inr (Or.inr ⟨h2, by rw [if_neg h1, if_pos h2]⟩)
      · exact Or.inl (by rw [if_neg h1, if_neg h2])
  · left
    unfold Entry.write
    have : ¬ (Logger.getLevel st (st.entries entry).Logger ≥ (st.entries entry).Level) := hen
    rw [if_neg this]

/-- After an enabled write the entry reads as it was offered to the formatter. -/
theorem write_record (lv : Levels) (sprintf : SprintfFn) (st : State) (entry : Nat)
    (mode : formatMode) (format : String) (args : List Value) (now : Time)
    (hle : (st.entries entry).Level ≤ (st.loggers (st.entries entry).Logger).level) :
    (Entry.write lv sprintf st entry mode format args now).1.record entry =
      Entry.offered sprintf st entry mode format args now := by
  have h2 : Logger.getLevel st (st.entries entry).Logger ≥ (st.entries entry).Level := hle
  unfold Entry.write
  rw [if_pos h2]
  simp [Entry.offered, Entry.log, State.record, State.fields, emitBytes_entries,
    emitBytes_maps]

/-! ## Lemmas on `Logger.log` -/

theorem newEntry_emit (st : State) (logger : Nat) (ev : Event) :
    (Logger.newEntry (st.emit ev) logger).2 = (Logger.newEntry st logger).2 := by
  unfold Logger.newEntry
  simp only [State.emit]
  split <;> rfl

/-- How an enabled `logger.log` ends: as the `entry.log` on the scratch entry,
whose level has been set to the level of the call. -/
theorem Logger_log_outcome (lv : Levels) (sprintf : SprintfFn) (st : State) (logger : Nat)
    (level : Level) (mode : formatMode) (format : String) (args : List Value) (now : Time)
    (hen : level ≤ (st.loggers logger).level) :
    (Logger.log lv sprintf st logger level mode format args now).2 =
      if level = lv.FatalLevel then .exited 1
      else if level ≤ lv.PanicLevel then .panicked (.entry (Logger.newEntry st logger).2)
      else .returned := by
  have hen2 : Logger.getLevel st logger ≥ level := hen
  unfold Logger.log
  rw [if_pos hen2]
  simp only []
  rw [log_outcome]
  simp only [State.setEntry, State.emit, if_true]
  by_cases h1 : level = lv.FatalLevel
  · simp [h1]
  · by_cases h2 : level ≤ lv.PanicLevel
    · simp [h1, h2]
    · simp [h1, h2]

/-- The scratch entry after an enabled `logger.log`: it carries the level of
the call, the time of the call and the rendered message. -/
theorem Logger_log_scratch (lv : Levels) (sprintf : SprintfFn) (st : State) (logger : Nat)
    (level : Level) (mode : formatMode) (format : String) (args : List Value) (now : Time)
    (hen : level ≤ (st.loggers logger).level) :
    ((Logger.log lv sprintf st logger level mode format args now).1.entries
        (Logger.newEntry st logger).2).Level = level ∧
      ((Logger.log lv sprintf st logger level mode format args now).1.entries
        (Logger.newEntry st logger).2).Time = now ∧
      ((Logger.log lv sprintf st logger level mode format args now).1.entries
        (Logger.newEntry st logger).2).Message = constructMessage sprintf mode format args := by
  have hen2 : Logger.getLevel st logger ≥ level := hen
  unfold Logger.log
  rw [if_pos hen2]
  simp only []
  split <;> simp [Logger.releaseEntry, State.setLogger, log_entries, State.setEntry, State.emit]

theorem Sprint_cons_cons (a b : Value) (rest : List Value) :
    fmt.Sprint (a :: b :: rest) =
      fmt.render a ++ (if !fmt.isString b && !fmt.isString a then " " else "") ++
        fmt.Sprint (b :: rest) := by
  simp [fmt.Sprint, fmt.sprintRest, String.append_assoc]

/-! ## The direct methods against the write of an entry -/

theorem hookEvents_anonymous (entry other : Nat) :
    ∀ (hooks : List Hook) (index : Nat) (r : Record),
      (hookEvents entry index hooks r).map Event.anonymous =
        (hookEvents other index hooks r).map Event.anonymous
  | [], _, _ => rfl
  | hook :: rest, index, r => by
    unfold hookEvents
    cases h : (hook.Fire r).2 with
    | some err => simp [Event.anonymous]
    | none => simp [Event.anonymous, hookEvents_anonymous entry other rest]

/-- The events of `entry.log` depend on the logger through its hooks, its
formatter and the failures of its sink, and on the entry through what it reads
as. -/
theorem logEvents_anonymous (l l2 : Logger) (logger entry other : Nat) (r : Record)
    (hh : l.hooks = l2.hooks) (hf : l.formatter = l2.formatter)
    (ho : l.out.fail = l2.out.fail) :
    (logEvents l logger entry r).map Event.anonymous =
      (logEvents l2 logger other r).map Event.anonymous := by
  unfold logEvents
  rw [hh, hf, ho]
  simp only [List.map_append, hookEvents_anonymous entry other]
  cases hookError (l2.hooks r.Level) r <;>
    cases l2.formatter { r with Data := runHooks (l2.hooks r.Level) r } with
    | error err => simp [Event.anonymous]
    | ok serialized => cases hx : l2.out.fail serialized <;> simp [Event.anonymous, hx]

/-- What `logger.newEntry()` hands out when the scratch entry is clean. -/
theorem newEntry_clean (st : State) (logger : Nat) (hclean : Logger.cleanScratch st logger) :
    ((Logger.newEntry st logger).1.entries (Logger.newEntry st logger).2).Logger = logger ∧
      (Logger.newEntry st logger).1.fields (Logger.newEntry st logger).2 = ∅ ∧
      ((Logger.newEntry st logger).1.loggers logger).hooks = (st.loggers logger).hooks ∧
      ((Logger.newEntry st logger).1.loggers logger).formatter = (st.loggers logger).formatter ∧
      ((Logger.newEntry st logger).1.loggers logger).out = (st.loggers logger).out ∧
      (Logger.newEntry st logger).1.trace = st.trace := by
  unfold Logger.cleanScratch at hclean
  unfold Logger.newEntry
  cases hp : (st.loggers logger).entryPool with
  | nil => simp [NewEntry, newLogEntry, State.allocEntry, State.allocMap, State.fields]
  | cons e rest =>
    rw [hp] at hclean
    simp only [] at hclean
    simpa [State.setLogger, State.fields] using hclean

/-- The trace and the sink after an enabled `logger.log` are those of the
`entry.log` on the scratch entry: the release that may follow touches the pool
only. -/
theorem Logger_log_effects (lv : Levels) (sprintf : SprintfFn) (st : State) (logger : Nat)
    (level : Level) (mode : formatMode) (format : String) (args : List Value) (now : Time)
    (hen : level ≤ (st.loggers logger).level) :
    (Logger.log lv sprintf st logger level mode format args now).1.trace =
        (Entry.log lv
          (((Logger.newEntry st logger).1.emit (.render mode format args)).setEntry
            (Logger.newEntry st logger).2
            { (Logger.newEntry st logger).1.entries (Logger.newEntry st logger).2 with
              Level := level })
          (Logger.newEntry st logger).2 (constructMessage sprintf mode format args) now).1.trace ∧
      ((Logger.log lv sprintf st logger level mode format args now).1.loggers logger).out =
        ((Entry.log lv
          (((Logger.newEntry st logger).1.emit (.render mode format args)).setEntry
            (Logger.newEntry st logger).2
            { (Logger.newEntry st logger).1.entries (Logger.newEntry st logger).2 with
              Level := level })
          (Logger.newEntry st logger).2 (constructMessage sprintf mode format args)
          now).1.loggers logger).out := by
  have hen2 : Logger.getLevel st logger ≥ level := hen
  unfold Logger.log
  rw [if_pos hen2]
  simp only []
  split <;> simp [Logger.releaseEntry, State.setLogger, State.emit]

/-- The direct path and the path through an entry do the same: `logger.log` at a
level, on a logger whose scratch entry is clean, against `entry.write` on
`NewEntry(logger).AsLevel(level)`. -/
theorem log_same_write (lv : Levels) (sprintf : SprintfFn) (st : State) (logger : Nat)
    (hclean : Logger.cleanScratch st logger) (level : Level) (mode : formatMode)
    (format : String) (args : List Value) (now : Time) :
    SameWrite st logger (Logger.log lv sprintf st logger level mode format args now)
      (Entry.write lv sprintf (chainAt st logger level).1 (chainAt st logger level).2 mode format
        args now) := by
  have hc1 : (chainAt st logger level).1.entries (chainAt st logger level).2 =
      { Logger := logger, Data := st.nextMap, Time := 0, Level := level, Message := "" } := by
    simp [chainAt, Entry.AsLevel, NewEntry, newLogEntry, State.allocEntry, State.allocMap]
  have hc2 : (chainAt st logger level).1.fields (chainAt st logger level).2 = ∅ := by
    simp [chainAt, Entry.AsLevel, NewEntry, newLogEntry, State.allocEntry, State.allocMap,
      State.fields]
  have hc3 : (chainAt st logger level).1.loggers = st.loggers := rfl
  have hc4 : (chainAt st logger level).1.trace = st.trace := rfl
  by_cases hen : level ≤ (st.loggers logger).level
  · have hben : ((chainAt st logger level).1.entries (chainAt st logger level).2).Level ≤
        ((chainAt st logger level).1.loggers
          ((chainAt st logger level).1.entries (chainAt st logger level).2).Logger).level := by
      rw [hc1, hc3]
      exact hen
    obtain ⟨hL, hF, hH, hFm, hO, hT⟩ := newEntry_clean st logger hclean
    obtain ⟨ha1, ha2⟩ := Logger_log_effects lv sprintf st logger level mode format args now hen
    have hbt := write_trace lv sprintf (chainAt st logger level).1 (chainAt st logger level).2
      mode format args now hben
    have hbl := write_loggers lv sprintf (chainAt st logger level).1 (chainAt st logger level).2
      mode format args now hben
    have hbo := write_outcome lv sprintf (chainAt st logger level).1 (chainAt st logger level).2
      mode format args now hben
    have hao := Logger_log_outcome lv sprintf st logger level mode format args now hen
    rw [hc2, hc1, hc3, hc4] at hbt
    rw [hc1] at hbo
    rw [log_trace] at ha1
    rw [log_loggers] at ha2
    simp only [State.setEntry, State.emit, State.fields, if_true] at ha1 ha2
    simp only [State.fields] at hF
    rw [hL, hF, hT] at ha1
    rw [hL, hF] at ha2
    simp only [if_true] at ha2
    refine ⟨?_, ?_, ?_⟩
    · rw [since_of_append _ _ _ (by rw [ha1, List.append_assoc]),
        since_of_append _ _ _ hbt]
      simp only [List.map_cons, List.singleton_append]
      rw [logEvents_anonymous _ (st.loggers logger) logger _ (chainAt st logger level).2 _ hH hFm
        (by rw [hO])]
    · rw [ha2, hbl, hc1, hc3, offered_eq, hc1, hc2, hc3]
      simp [hH, hFm, hO]
    · rw [hao, hbo]
      by_cases h1 : level = lv.FatalLevel
      · simp [h1]
      · by_cases h2 : level ≤ lv.PanicLevel
        · simp [h1, h2]
        · simp [h1, h2]
  · have ha : Logger.log lv sprintf st logger level mode format args now = (st, .returned) := by
      unfold Logger.log
      have : ¬ (Logger.getLevel st logger ≥ level) := hen
      rw [if_neg this]
    have hb : Entry.write lv sprintf (chainAt st logger level).1 (chainAt st logger level).2 mode
        format args now = ((chainAt st logger level).1, .returned) := by
      unfold Entry.write
      have : ¬ (Logger.getLevel (chainAt st logger level).1
          ((chainAt st logger level).1.entries (chainAt st logger level).2).Logger ≥
          ((chainAt st logger level).1.entries (chainAt st logger level).2).Level) := by
        rw [hc1]
        exact hen
      rw [if_neg this]
    rw [ha, hb]
    refine ⟨?_, ?_, ?_⟩
    · simp [State.since, hc4]
    · rw [hc3]
    · simp

/-! ## Lemmas on `sprintlnn` -/

theorem sprintlnn_cons (a : Value) (rest : List Value) :
    sprintlnn (a :: rest) = fmt.render a ++ fmt.sprintlnRest rest := by
  apply String.ext
  simp [sprintlnn, fmt.Sprintln]

theorem intercalate_go (rest : List Value) : ∀ acc : String,
    String.intercalate.go acc " " (rest.map fmt.render) = acc ++ fmt.sprintlnRest rest := by
  induction rest with
  | nil => intro acc; simp [String.intercalate.go, fmt.sprintlnRest]
  | cons a rest ih =>
    intro acc
    simp only [List.map_cons, String.intercalate.go, fmt.sprintlnRest]
    rw [ih]
    simp [String.append_assoc]

/-- The message of the newline mode is the renderings of the operands with one
space between every two of them. -/
theorem sprintlnn_intercalate (args : List Value) :
    sprintlnn args = " ".intercalate (args.map fmt.render) := by
  cases args with
  | nil => rfl
  | cons a rest =>
    rw [sprintlnn_cons]
    simp only [List.map_cons, String.intercalate]
    rw [intercalate_go]

/-- An entry that is derived from an enabled one: its members. -/
theorem WithFields_result (st : State) (entry : Nat) (fields : Fields)
    (h : (st.entries entry).Level ≤ (st.loggers (st.entries entry).Logger).level) :
    ((Entry.WithFields st entry fields).1.entries (Entry.WithFields st entry fields).2).Logger =
        (st.entries entry).Logger ∧
      ((Entry.WithFields st entry fields).1.entries (Entry.WithFields st entry fields).2).Level =
        (st.entries entry).Level ∧
      (Entry.WithFields st entry fields).1.fields (Entry.WithFields st entry fields).2 =
        copyInto (copyInto ∅ (st.fields entry)) fields ∧
      (Entry.WithFields st entry fields).1.loggers = st.loggers := by
  rw [WithFields_enabled st entry fields h]
  simp [newLogEntry, State.allocEntry, State.allocMap, State.fields]

/-! ## Lemmas on the fatal and panic methods -/

/-- A `logger.log` at a level above the logger's level does nothing. -/
theorem Logger_log_disabled (lv : Levels) (sprintf : SprintfFn) (st : State) (logger : Nat)
    (level : Level) (mode : formatMode) (format : String) (args : List Value) (now : Time)
    (h : (st.loggers logger).level < level) :
    Logger.log lv sprintf st logger level mode format args now = (st, .returned) := by
  have h2 : ¬ Logger.getLevel st logger ≥ level := Nat.not_le_of_lt h
  unfold Logger.log
  rw [if_neg h2]

/-- A `logger.log` at the fatal level returns, when the level is not logged, or
exits with status 1. -/
theorem Logger_log_fatal (lv : Levels) (sprintf : SprintfFn) (st : State) (logger : Nat)
    (mode : formatMode) (format : String) (args : List Value) (now : Time) :
    (Logger.log lv sprintf st logger lv.FatalLevel mode format args now).2 = .returned ∨
      (Logger.log lv sprintf st logger lv.FatalLevel mode format args now).2 = .exited 1 := by
  by_cases hen : lv.FatalLevel ≤ (st.loggers logger).level
  · right
    rw [Logger_log_outcome lv sprintf st logger lv.FatalLevel mode format args now hen, if_pos rfl]
  · left
    rw [Logger_log_disabled lv sprintf st logger lv.FatalLevel mode format args now
      (Nat.lt_of_not_le hen)]

/-- The `Exit(1)` that follows the call of `log` in the fatal methods. -/
theorem exit_after (r : State × Outcome) (h : r.2 = .returned ∨ r.2 = .exited 1) :
    (match r.2 with
      | .returned => (r.1, Outcome.exited 1)
      | o => (r.1, o)).2 = .exited 1 := by
  rcases h with h | h <;> rw [h]

/-- The state a method leaves is the state its call of `log` leaves. -/
theorem after_log_state (r : State × Outcome) (closing : Outcome) :
    (match r.2 with
      | .returned => (r.1, closing)
      | o => (r.1, o)).1 = r.1 := by
  split <;> rfl

theorem sprintlnn_single_string (m : String) : sprintlnn [.str m] = m := by
  rw [sprintlnn_cons]
  simp [fmt.render, fmt.sprintlnRest]

/-! ## Lemmas on the runs of the tests -/

/-- What `writeLogAndAssertText` finds after a direct call at `level` on a new
logger of the threshold `loggerLevel`. -/
theorem writeLog_direct (lv : Levels) (loggerLevel level : Level) :
    writeLogAndAssertText loggerLevel
        (fun st lw => Logger.log lv Sample.sprintf st lw level .unformatted "" [.str "Message"]
          0) =
      if level ≤ loggerLevel then
        (["msg=Message\n"],
          if level = lv.FatalLevel then .exited 1
          else if level ≤ lv.PanicLevel then .panicked (.entry 0)
          else .returned)
      else silent := by
  by_cases hen : level ≤ loggerLevel
  · rw [if_pos hen]
    have hen2 : level ≤ ((New State.empty loggerLevel Sample.buffer Sample.text).1.loggers
        (New State.empty loggerLevel Sample.buffer Sample.text).2).level := hen
    have hout := Logger_log_outcome lv Sample.sprintf
      (New State.empty loggerLevel Sample.buffer Sample.text).1
      (New State.empty loggerLevel Sample.buffer Sample.text).2 level .unformatted ""
      [.str "Message"] 0 hen2
    have heff := (Logger_log_effects lv Sample.sprintf
      (New State.empty loggerLevel Sample.buffer Sample.text).1
      (New State.empty loggerLevel Sample.buffer Sample.text).2 level .unformatted ""
      [.str "Message"] 0 hen2).2
    unfold writeLogAndAssertText
    simp only []
    rw [hout, heff, log_loggers]
    simp [New, State.allocLogger, State.empty, Logger.newEntry, NewEntry, newLogEntry,
      State.allocMap, State.allocEntry, State.emit, State.setEntry, State.fields, sinkBytes,
      Sample.text, Sample.buffer, runHooks, constructMessage, fmt.Sprint, fmt.sprintRest,
      fmt.render]
  · rw [if_neg hen]
    have hdis : ((New State.empty loggerLevel Sample.buffer Sample.text).1.loggers
        (New State.empty loggerLevel Sample.buffer Sample.text).2).level < level :=
      Nat.lt_of_not_le hen
    unfold writeLogAndAssertText
    simp only []
    rw [Logger_log_disabled lv Sample.sprintf _ _ level _ _ _ 0 hdis]
    rfl

/-- What `logEntryAndAssertText` finds after `entry.AsLevel(level).Write("Message")`
on a new logger of the threshold `loggerLevel`. -/
theorem logEntry_write (lv : Levels) (loggerLevel level : Level) :
    logEntryAndAssertText loggerLevel
        (fun st entry => Entry.Write lv Sample.sprintf (Entry.AsLevel st entry level).1
          (Entry.AsLevel st entry level).2 [.str "Message"] 0) =
      if level ≤ loggerLevel then
        (["msg=Message\n"],
          if level = lv.FatalLevel then .exited 1
          else if level ≤ lv.PanicLevel then .panicked (.entry 1)
          else .returned)
      else silent := by
  by_cases hen : level ≤ loggerLevel
  · rw [if_pos hen]
    have hen2 : ((Entry.AsLevel
          (NewEntry (New State.empty loggerLevel Sample.buffer Sample.text).1
            (New State.empty loggerLevel Sample.buffer Sample.text).2).1
          (NewEntry (New State.empty loggerLevel Sample.buffer Sample.text).1
            (New State.empty loggerLevel Sample.buffer Sample.text).2).2 level).1.entries
        (Entry.AsLevel
          (NewEntry (New State.empty loggerLevel Sample.buffer Sample.text).1
            (New State.empty loggerLevel Sample.buffer Sample.text).2).1
          (NewEntry (New State.empty loggerLevel Sample.buffer Sample.text).1
            (New State.empty loggerLevel Sample.buffer Sample.text).2).2 level).2).Level ≤
        ((Entry.AsLevel
          (NewEntry (New State.empty loggerLevel Sample.buffer Sample.text).1
            (New State.empty loggerLevel Sample.buffer Sample.text).2).1
          (NewEntry (New State.empty loggerLevel Sample.buffer Sample.text).1
            (New State.empty loggerLevel Sample.buffer Sample.text).2).2 level).1.loggers
          ((Entry.AsLevel
            (NewEntry (New State.empty loggerLevel Sample.buffer Sample.text).1
              (New State.empty loggerLevel Sample.buffer Sample.text).2).1
            (NewEntry (New State.empty loggerLevel Sample.buffer Sample.text).1
              (New State.empty loggerLevel Sample.buffer Sample.text).2).2 level).1.entries
            (Entry.AsLevel
              (NewEntry (New State.empty loggerLevel Sample.buffer Sample.text).1
                (New State.empty loggerLevel Sample.buffer Sample.text).2).1
              (NewEntry (New State.empty loggerLevel Sample.buffer Sample.text).1
                (New State.empty loggerLevel Sample.buffer Sample.text).2).2
              level).2).Logger).level := hen
    unfold logEntryAndAssertText Entry.Write
    simp only []
    rw [write_outcome lv Sample.sprintf _ _ .unformatted "" [.str "Message"] 0 hen2,
      write_loggers lv Sample.sprintf _ _ .unformatted "" [.str "Message"] 0 hen2]
    simp [New, State.allocLogger, State.empty, Entry.AsLevel, NewEntry, newLogEntry,
      State.allocMap, State.allocEntry, State.emit, State.setEntry, State.fields, sinkBytes,
      Sample.text, Sample.buffer, runHooks, constructMessage, fmt.Sprint, fmt.sprintRest,
      fmt.render, offered_eq]
  · rw [if_neg hen]
    have hdis : ¬ Logger.getLevel
        (Entry.AsLevel
          (NewEntry (New State.empty loggerLevel Sample.buffer Sample.text).1
            (New State.empty loggerLevel Sample.buffer Sample.text).2).1
          (NewEntry (New State.empty loggerLevel Sample.buffer Sample.text).1
            (New State.empty loggerLevel Sample.buffer Sample.text).2).2 level).1
        ((Entry.AsLevel
          (NewEntry (New State.empty loggerLevel Sample.buffer Sample.text).1
            (New State.empty loggerLevel Sample.buffer Sample.text).2).1
          (NewEntry (New State.empty loggerLevel Sample.buffer Sample.text).1
            (New State.empty loggerLevel Sample.buffer Sample.text).2).2 level).1.entries
          (Entry.AsLevel
            (NewEntry (New State.empty loggerLevel Sample.buffer Sample.text).1
              (New State.empty loggerLevel Sample.buffer Sample.text).2).1
            (NewEntry (New State.empty loggerLevel Sample.buffer Sample.text).1
              (New State.empty loggerLevel Sample.buffer Sample.text).2).2
            level).2).Logger ≥
        ((Entry.AsLevel
          (NewEntry (New State.empty loggerLevel Sample.buffer Sample.text).1
            (New State.empty loggerLevel Sample.buffer Sample.text).2).1
          (NewEntry (New State.empty loggerLevel Sample.buffer Sample.text).1
            (New State.empty loggerLevel Sample.buffer Sample.text).2).2 level).1.entries
          (Entry.AsLevel
            (NewEntry (New State.empty loggerLevel Sample.buffer Sample.text).1
              (New State.empty loggerLevel Sample.buffer Sample.text).2).1
            (NewEntry (New State.empty loggerLevel Sample.buffer Sample.text).1
              (New State.empty loggerLevel Sample.buffer Sample.text).2).2
            level).2).Level := hen
    unfold logEntryAndAssertText Entry.Write Entry.write
    simp only []
    rw [if_neg hdis]
    rfl

theorem run_eq_logged (c : Prop) [Decidable c] (o : Outcome) :
    ((if c then (["msg=Message\n"], o) else silent) = logged) ↔ c ∧ o = .returned := by
  by_cases h : c
  · rw [if_pos h]
    simp [logged, h]
  · rw [if_neg h]
    simp [logged, silent, h]

theorem run_eq_silent (c : Prop) [Decidable c] (o : Outcome) :
    ((if c then (["msg=Message\n"], o) else silent) = silent) ↔ ¬ c := by
  by_cases h : c
  · rw [if_pos h]
    simp [silent, h]
  · rw [if_neg h]
    simp [h]

theorem finish_returned (lv : Levels) (level : Level) (p : Payload) :
    (if level = lv.FatalLevel then Outcome.exited 1
      else if level ≤ lv.PanicLevel then .panicked p
      else .returned) = .returned ↔ lv.PanicLevel < level ∧ level ≠ lv.FatalLevel := by
  by_cases h1 : level = lv.FatalLevel
  · rw [if_pos h1]
    constructor
    · intro h
      exact Outcome.noConfusion h
    · intro h
      exact absurd h1 h.2
  · rw [if_neg h1]
    by_cases h2 : level ≤ lv.PanicLevel
    · rw [if_pos h2]
      constructor
      · intro h
        exact Outcome.noConfusion h
      · intro h
        exact absurd h2 (Nat.not_le_of_lt h.1)
    · rw [if_neg h2]
      exact ⟨fun _ => ⟨Nat.lt_of_not_le h2, h1⟩, fun _ => rfl⟩

/-- When `TestLoggerDebugText` passes. -/
theorem TestLoggerDebugText_iff (lv : Levels) :
    TestLoggerDebugText lv ↔
      lv.InfoLevel < lv.DebugLevel ∧ lv.PanicLevel < lv.DebugLevel ∧
        lv.DebugLevel ≠ lv.FatalLevel := by
  unfold TestLoggerDebugText
  simp only [Logger.Debug]
  rw [writeLog_direct, writeLog_direct, run_eq_logged, run_eq_silent, finish_returned]
  constructor
  · intro h
    exact ⟨Nat.lt_of_not_le h.2, h.1.2⟩
  · intro h
    exact ⟨⟨Nat.le_refl _, h.2⟩, Nat.not_le_of_lt h.1⟩

/-- When `TestLoggerInfoText` passes. -/
theorem TestLoggerInfoText_iff (lv : Levels) :
    TestLoggerInfoText lv ↔
      lv.InfoLevel ≤ lv.DebugLevel ∧ lv.WarnLevel < lv.InfoLevel ∧
        lv.PanicLevel < lv.InfoLevel ∧ lv.InfoLevel ≠ lv.FatalLevel := by
  unfold TestLoggerInfoText
  simp only [Logger.Info]
  rw [writeLog_direct, writeLog_direct, run_eq_logged, run_eq_silent, finish_returned]
  constructor
  · intro h
    exact ⟨h.1.1, Nat.lt_of_not_le h.2, h.1.2⟩
  · intro h
    exact ⟨⟨h.1, h.2.2⟩, Nat.not_le_of_lt h.2.1⟩

/-- When a case of `TestEntryLoggingWithTextFormatter` passes. -/
theorem entryLoggingCase_iff (lv : Levels) (loggerLevel entryLevel : Level) :
    entryLoggingCase lv loggerLevel entryLevel ↔
      (entryLevel ≤ loggerLevel → lv.PanicLevel < entryLevel ∧ entryLevel ≠ lv.FatalLevel) := by
  unfold entryLoggingCase
  rw [logEntry_write]
  by_cases h1 : entryLevel ≤ loggerLevel
  · rw [if_pos h1, if_pos h1]
    have h := run_eq_logged True
      (if entryLevel = lv.FatalLevel then Outcome.exited 1
        else if entryLevel ≤ lv.PanicLevel then .panicked (.entry 1)
        else .returned)
    rw [if_pos trivial, finish_returned] at h
    rw [h]
    exact ⟨fun h2 _ => h2.2, fun h2 => ⟨trivial, h2 h1⟩⟩
  · rw [if_neg h1, if_neg h1]
    exact ⟨fun _ h2 => absurd h2 h1, fun _ => rfl⟩

/-! ## Lemmas on the gate and on the critical sections -/

theorem newEntry_trace (st : State) (logger : Nat) :
    (Logger.newEntry st logger).1.trace = st.trace := by
  unfold Logger.newEntry
  split <;> rfl

/-- An enabled write appends to the trace. -/
theorem write_grows (lv : Levels) (sprintf : SprintfFn) (st : State) (entry : Nat)
    (mode : formatMode) (format : String) (args : List Value) (now : Time)
    (hle : (st.entries entry).Level ≤ (st.loggers (st.entries entry).Logger).level) :
    st.trace.length < (Entry.write lv sprintf st entry mode format args now).1.trace.length := by
  rw [write_trace lv sprintf st entry mode format args now hle]
  simp

/-- An enabled `logger.log` appends to the trace. -/
theorem Logger_log_grows (lv : Levels) (sprintf : SprintfFn) (st : State) (logger : Nat)
    (level : Level) (mode : formatMode) (format : String) (args : List Value) (now : Time)
    (hen : level ≤ (st.loggers logger).level) :
    st.trace.length <
      (Logger.log lv sprintf st logger level mode format args now).1.trace.length := by
  rw [(Logger_log_effects lv sprintf st logger level mode format args now hen).1, log_trace]
  simp only [State.setEntry, State.emit, newEntry_trace, List.length_append, List.length_cons,
    List.length_nil]
  omega

/-- An enabled `WithField` allocates an entry. -/
theorem WithField_allocates (st : State) (entry : Nat) (key : String) (value : Value)
    (hle : (st.entries entry).Level ≤ (st.loggers (st.entries entry).Logger).level) :
    (Entry.WithField st entry key value).1.nextEntry = st.nextEntry + 1 := by
  rw [WithField_eq_WithFields, WithFields_enabled st entry _ hle]
  rfl

theorem hookEvents_no_format (entry : Nat) :
    ∀ (hooks : List Hook) (index : Nat) (r : Record),
      (hookEvents entry index hooks r).filter Event.isFormat = []
  | [], _, _ => rfl
  | hook :: rest, index, r => by
    unfold hookEvents
    cases h : (hook.Fire r).2 with
    | some err => simp [Event.isFormat]
    | none => simp [Event.isFormat, hookEvents_no_format entry rest]

theorem sectionsFrom_lock (logger : Nat) (rest : List Event) :
    sectionsFrom logger none (.lock logger :: rest) = sectionsFrom logger (some []) rest := by
  simp [sectionsFrom]

theorem sectionsFrom_unlock (logger : Nat) (held rest : List Event) :
    sectionsFrom logger (some held) (.unlock logger :: rest) =
      held :: sectionsFrom logger none rest := by
  simp [sectionsFrom]

theorem sectionsFrom_render (logger : Nat) (mode : formatMode) (format : String)
    (args : List Value) (rest : List Event) :
    sectionsFrom logger none (.render mode format args :: rest) =
      sectionsFrom logger none rest := by
  simp [sectionsFrom]

theorem sectionsFrom_format (logger entry : Nat) (r : Record) (rest : List Event) :
    sectionsFrom logger none (.format entry r :: rest) = sectionsFrom logger none rest := by
  simp [sectionsFrom]

theorem sectionsFrom_fire (logger : Nat) (level : Level) (entry : Nat) (r : Record)
    (held rest : List Event) :
    sectionsFrom logger (some held) (.fire level entry r :: rest) =
      sectionsFrom logger (some (held ++ [.fire level entry r])) rest := by
  simp [sectionsFrom]

theorem sectionsFrom_hook (logger index entry : Nat) (r : Record) (held rest : List Event) :
    sectionsFrom logger (some held) (.hook index entry r :: rest) =
      sectionsFrom logger (some (held ++ [.hook index entry r])) rest := by
  simp [sectionsFrom]

theorem sectionsFrom_write (logger target : Nat) (bytes : String) (held rest : List Event) :
    sectionsFrom logger (some held) (.write target bytes :: rest) =
      sectionsFrom logger (some (held ++ [.write target bytes])) rest := by
  simp [sectionsFrom]

theorem sectionsFrom_stderr (logger : Nat) (text : String) (held rest : List Event) :
    sectionsFrom logger (some held) (.stderr text :: rest) =
      sectionsFrom logger (some (held ++ [.stderr text])) rest := by
  simp [sectionsFrom]

/-- The calls of the hooks stay in the critical section that is open. -/
theorem sectionsFrom_hookEvents (logger entry : Nat) (tail : List Event) :
    ∀ (hooks : List Hook) (index : Nat) (r : Record) (held : List Event),
      sectionsFrom logger (some held) (hookEvents entry index hooks r ++ tail) =
        sectionsFrom logger (some (held ++ hookEvents entry index hooks r)) tail
  | [], _, _, held => by simp [hookEvents]
  | hook :: rest, index, r, held => by
    unfold hookEvents
    cases h : (hook.Fire r).2 with
    | some err =>
      simp only [List.cons_append, List.nil_append]
      rw [sectionsFrom_hook]
    | none =>
      simp only [List.cons_append]
      rw [sectionsFrom_hook, sectionsFrom_hookEvents logger entry tail rest]
      simp

/-- The critical sections of a rendering followed by an `entry.log`: one for the
firing of the hooks, one for the report of a hook failure if there is one, and
one for the write to the sink or for the report of a formatter failure. -/
theorem logEvents_sections (l : Logger) (logger entry : Nat) (r : Record) (mode : formatMode)
    (format : String) (args : List Value) :
    criticalSections logger (.render mode format args :: logEvents l logger entry r) =
      [.fire r.Level entry r :: hookEvents entry 0 (l.hooks r.Level) r] ++
        (match hookError (l.hooks r.Level) r with
          | some err => [[.stderr ("Failed to fire the hook: " ++ err ++ "\n")]]
          | none => []) ++
        [match l.formatter { r with Data := runHooks (l.hooks r.Level) r } with
          | .error err => [.stderr ("Failed to obtain reader, " ++ err ++ "\n")]
          | .ok serialized =>
            .write logger serialized ::
              (match l.out.fail serialized with
                | some err => [.stderr ("Failed to write to log, " ++ err ++ "\n")]
                | none => [])] := by
  unfold criticalSections logEvents
  simp only [List.cons_append, List.nil_append, List.append_assoc]
  rw [sectionsFrom_render, sectionsFrom_lock, sectionsFrom_fire, sectionsFrom_hookEvents,
    sectionsFrom_unlock]
  cases hookError (l.hooks r.Level) r <;>
    cases l.formatter { r with Data := runHooks (l.hooks r.Level) r } with
    | error err =>
      simp [sectionsFrom_lock, sectionsFrom_unlock, sectionsFrom_format, sectionsFrom_stderr,
        sectionsFrom]
    | ok serialized =>
      cases hf : l.out.fail serialized <;>
        simp [hf, sectionsFrom_lock, sectionsFrom_unlock, sectionsFrom_format,
          sectionsFrom_stderr, sectionsFrom_write, sectionsFrom]

/-! ## The entry `logger.WithFields` returns -/

theorem insert_empty_lookup (key : String) (value : Value) (k : String) :
    ((∅ : Fields).insert key value).lookup k = if k = key then some value else none := by
  by_cases h : k = key
  · subst h
    rw [AList.lookup_insert, if_pos rfl]
  · rw [AList.lookup_insert_ne h, AList.lookup_empty, if_neg h]

/-- The entry `logger.WithFields` returns is valid when the scratch entry is. -/
theorem Logger_WithFields_valid_of (st : State) (logger : Nat) (fields : Fields)
    (h1 : (Logger.newEntry st logger).2 < (Logger.newEntry st logger).1.nextEntry)
    (h2 : ((Logger.newEntry st logger).1.entries (Logger.newEntry st logger).2).Data <
      (Logger.newEntry st logger).1.nextMap) :
    (Logger.WithFields st logger fields).2 < (Logger.WithFields st logger fields).1.nextEntry ∧
      ((Logger.WithFields st logger fields).1.entries (Logger.WithFields st logger fields).2).Data <
        (Logger.WithFields st logger fields).1.nextMap := by
  simpa [Logger.WithFields, Logger.releaseEntry, State.setLogger] using
    WithFields_valid (Logger.newEntry st logger).1 (Logger.newEntry st logger).2 fields h1 h2

/-- The fields of the entry `logger.WithFields(fields)` returns when the scratch
entry is enabled: those of the argument over those of the scratch entry. -/
theorem Logger_WithFields_lookup (st : State) (logger : Nat) (fields : Fields)
    (hen : ((Logger.newEntry st logger).1.entries (Logger.newEntry st logger).2).Level ≤
      ((Logger.newEntry st logger).1.loggers
        ((Logger.newEntry st logger).1.entries (Logger.newEntry st logger).2).Logger).level)
    (k : String) :
    ((Logger.WithFields st logger fields).1.fields (Logger.WithFields st logger fields).2).lookup
        k =
      match fields.lookup k with
      | some v => some v
      | none =>
        ((Logger.newEntry st logger).1.fields (Logger.newEntry st logger).2).lookup k := by
  have hr := (WithFields_result (Logger.newEntry st logger).1 (Logger.newEntry st logger).2
    fields hen).2.2.1
  have hf : (Logger.WithFields st logger fields).1.fields (Logger.WithFields st logger fields).2 =
      (Entry.WithFields (Logger.newEntry st logger).1 (Logger.newEntry st logger).2 fields).1.fields
        (Entry.WithFields (Logger.newEntry st logger).1 (Logger.newEntry st logger).2
          fields).2 := by
    simp [Logger.WithFields, Logger.releaseEntry, State.setLogger, State.fields]
  rw [hf, hr, merge_lookup]

/-- The entry `logger.WithFields(fields)` returns when the scratch entry is
disabled: the scratch entry. -/
theorem Logger_WithFields_scratch (st : State) (logger : Nat) (fields : Fields)
    (hdis : ¬ ((Logger.newEntry st logger).1.entries (Logger.newEntry st logger).2).Level ≤
      ((Logger.newEntry st logger).1.loggers
        ((Logger.newEntry st logger).1.entries (Logger.newEntry st logger).2).Logger).level) :
    (Logger.WithFields st logger fields).2 = (Logger.newEntry st logger).2 ∧
      (Logger.WithFields st logger fields).1.fields (Logger.WithFields st logger fields).2 =
        (Logger.newEntry st logger).1.fields (Logger.newEntry st logger).2 := by
  have hd := WithFields_disabled (Logger.newEntry st logger).1 (Logger.newEntry st logger).2
    fields (Nat.lt_of_not_le hdis)
  simp [Logger.WithFields, hd, Logger.releaseEntry, State.setLogger, State.fields]

/-! ## The end of a line of the text formatter -/

/-- Hooks that leave the keys of `f` alone leave them alone as a walk. -/
theorem runHooks_keeps (f : Fields) :
    ∀ (hooks : List Hook), (∀ hook ∈ hooks, hook.Keeps f) →
      ∀ (r : Record) (k : String), f.lookup k ≠ none →
        (runHooks hooks r).lookup k = r.Data.lookup k
  | [], _, _, _, _ => rfl
  | hook :: rest, hkeep, r, k, hk => by
    have h1 := hkeep hook (List.mem_cons_self _ _) r k hk
    unfold runHooks
    cases hf : (hook.Fire r).2 with
    | some err => exact h1
    | none =>
      have h2 := runHooks_keeps f rest (fun h hm => hkeep h (List.mem_cons_of_mem _ hm))
        { r with Data := (hook.Fire r).1 } k hk
      exact h2.trans h1

/-! ## The gate of `entry.write` -/

/-- The gate of `entry.write` at any mode: if the formatter returns `bytes` for
the record it is offered, the sink receives something exactly when the entry's
level is at most the logger's level, and then the single write of `bytes`. -/
theorem write_gate (lv : Levels) (sprintf : SprintfFn) (st : State)
    (entry : Nat) (mode : formatMode) (format : String) (args : List Value) (now : Time)
    (bytes : String)
    (hfmt : (st.loggers (st.entries entry).Logger).formatter
      (Entry.offered sprintf st entry mode format args now) = .ok bytes) :
    let logger := (st.entries entry).Logger
    let before := (st.loggers logger).out.written
    let after := ((Entry.write lv sprintf st entry mode format args now).1.loggers logger).out.written
    (after ≠ before ↔ (st.entries entry).Level ≤ (st.loggers logger).level) ∧
      ((st.entries entry).Level ≤ (st.loggers logger).level → after = before ++ [bytes]) ∧
      (¬ (st.entries entry).Level ≤ (st.loggers logger).level → after = before) := by
  intro logger before after
  have hen : (st.entries entry).Level ≤ (st.loggers logger).level → after = before ++ [bytes] := by
    intro hle
    have hle2 : Logger.getLevel st (st.entries entry).Logger ≥ (st.entries entry).Level := hle
    show ((Entry.write lv sprintf st entry mode format args now).1.loggers logger).out.written = _
    unfold Entry.write
    rw [if_pos hle2]
    exact log_written_ok lv (st.emit (.render mode format args)) entry _ now bytes hfmt
  have hdis : ¬ (st.entries entry).Level ≤ (st.loggers logger).level → after = before := by
    intro hgt
    have hgt2 : ¬ Logger.getLevel st (st.entries entry).Logger ≥ (st.entries entry).Level := hgt
    show ((Entry.write lv sprintf st entry mode format args now).1.loggers logger).out.written = _
    unfold Entry.write
    rw [if_neg hgt2]
  refine ⟨⟨?_, ?_⟩, hen, hdis⟩
  · intro hne
    by_contra hgt
    exact hne (hdis hgt)
  · intro hle
    rw [hen hle]
    simp

/-- The one write event of an enabled write whose formatter returns `bytes`. -/
theorem write_one_event (lv : Levels) (sprintf : SprintfFn) (st : State) (entry : Nat)
    (mode : formatMode) (format : String) (args : List Value) (now : Time) (bytes : String)
    (hfmt : (st.loggers (st.entries entry).Logger).formatter
      (Entry.offered sprintf st entry mode format args now) = .ok bytes)
    (hle : (st.entries entry).Level ≤ (st.loggers (st.entries entry).Logger).level) :
    ((Entry.write lv sprintf st entry mode format args now).1.since st).filter Event.isWrite =
      [.write (st.entries entry).Logger bytes] := by
  rw [since_of_append _ st _ (write_trace lv sprintf st entry mode format args now hle)]
  have hw := logEvents_writes (st.loggers (st.entries entry).Logger) (st.entries entry).Logger
    entry (Record.mk (st.fields entry) now (st.entries entry).Level
      (constructMessage sprintf mode format args))
  rw [offered_eq] at hfmt
  simp only [sinkBytes, hfmt] at hw
  simp only [List.filter_cons, Event.isWrite]
  exact hw

/-! ## The claims -/

/-- C1: level gate of the write family.  For every state and entry, for each of
`entry.Write(args...)`, `entry.Writef(format, args...)` and
`entry.Writeln(args...)`: if the formatter returns `bytes` for the record the
call offers it, then the sink of the entry's logger receives something exactly
when the entry's level is at most the logger's level; when it is, the sink
receives the single write of `bytes`, which is the one write event of the call,
and when it is not, the sink is left as it was. -/
theorem write_reaches_sink_iff_enabled (lv : Levels) (sprintf : SprintfFn) (st : State)
    (entry : Nat) (format : String) (args : List Value) (now : Time) :
    (∀ bytes, (st.loggers (st.entries entry).Logger).formatter
        (Entry.offered sprintf st entry .unformatted "" args now) = .ok bytes →
      let logger := (st.entries entry).Logger
      let before := (st.loggers logger).out.written
      let r := Entry.Write lv sprintf st entry args now
      ((r.1.loggers logger).out.written ≠ before ↔
          (st.entries entry).Level ≤ (st.loggers logger).level) ∧
        ((st.entries entry).Level ≤ (st.loggers logger).level →
          (r.1.loggers logger).out.written = before ++ [bytes] ∧
            (r.1.since st).filter Event.isWrite = [.write logger bytes]) ∧
        (¬ (st.entries entry).Level ≤ (st.loggers logger).level →
          (r.1.loggers logger).out.written = before)) ∧
    (∀ bytes, (st.loggers (st.entries entry).Logger).formatter
        (Entry.offered sprintf st entry .formatted format args now) = .ok bytes →
      let logger := (st.entries entry).Logger
      let before := (st.loggers logger).out.written
      let r := Entry.Writef lv sprintf st entry format args now
      ((r.1.loggers logger).out.written ≠ before ↔
          (st.entries entry).Level ≤ (st.loggers logger).level) ∧
        ((st.entries entry).Level ≤ (st.loggers logger).level →
          (r.1.loggers logger).out.written = before ++ [bytes] ∧
            (r.1.since st).filter Event.isWrite = [.write logger bytes]) ∧
        (¬ (st.entries entry).Level ≤ (st.loggers logger).level →
          (r.1.loggers logger).out.written = before)) ∧
    (∀ bytes, (st.loggers (st.entries entry).Logger).formatter
        (Entry.offered sprintf st entry .newLine "" args now) = .ok bytes →
      let logger := (st.entries entry).Logger
      let before := (st.loggers logger).out.written
      let r := Entry.Writeln lv sprintf st entry args now
      ((r.1.loggers logger).out.written ≠ before ↔
          (st.entries entry).Level ≤ (st.loggers logger).level) ∧
        ((st.entries entry).Level ≤ (st.loggers logger).level →
          (r.1.loggers logger).out.written = before ++ [bytes] ∧
            (r.1.since st).filter Event.isWrite = [.write logger bytes]) ∧
        (¬ (st.entries entry).Level ≤ (st.loggers logger).level →
          (r.1.loggers logger).out.written = before)) := by
  refine ⟨?_, ?_, ?_⟩ <;> intro bytes hfmt logger before r
  · have h := write_gate lv sprintf st entry .unformatted "" args now bytes hfmt
    exact ⟨h.1, fun hle => ⟨h.2.1 hle,
      write_one_event lv sprintf st entry .unformatted "" args now bytes hfmt hle⟩, h.2.2⟩
  · have h := write_gate lv sprintf st entry .formatted format args now bytes hfmt
    exact ⟨h.1, fun hle => ⟨h.2.1 hle,
      write_one_event lv sprintf st entry .formatted format args now bytes hfmt hle⟩, h.2.2⟩
  · have h := write_gate lv sprintf st entry .newLine "" args now bytes hfmt
    exact ⟨h.1, fun hle => ⟨h.2.1 hle,
      write_one_event lv sprintf st entry .newLine "" args now bytes hfmt hle⟩, h.2.2⟩

/-- Counterexample to C2 as stated.  On a debug logger that carries `ModifyHook`
of `hook_test.go`, the chain
`NewEntry(logger).AsLevel(InfoLevel).WithFields({wow: elephant}).Write("test")`
hands the formatter a record in which `wow` is `whale`, not the value of the
chain, and the sink receives that.  On a debug logger with a hook that empties
the field set, the chain with `{field: value}` hands the formatter the message
without the field, and the sink receives the message alone. -/
theorem chain_carries_fields_counterexample :
    (Sample.elephantChain.1.fields Sample.elephantChain.2).lookup "wow" =
        some (.str "elephant") ∧
      (Entry.offered Sample.sprintf Sample.elephantChain.1 Sample.elephantChain.2 .unformatted
        "" [.str "test"] 7).Data.lookup "wow" = some (.str "whale") ∧
      ((Entry.Write Levels.iota Sample.sprintf Sample.elephantChain.1 Sample.elephantChain.2
        [.str "test"] 7).1.loggers Sample.debug.2).out.written = ["msg=test wow=whale\n"] ∧
      (Sample.droppedChain.1.fields Sample.droppedChain.2).lookup "field" =
        some (.str "value") ∧
      (Entry.offered Sample.sprintf Sample.droppedChain.1 Sample.droppedChain.2 .unformatted
        "" [.str "test"] 7).Message = "test" ∧
      (Entry.offered Sample.sprintf Sample.droppedChain.1 Sample.droppedChain.2 .unformatted
        "" [.str "test"] 7).Data.lookup "field" = none ∧
      ((Entry.Write Levels.iota Sample.sprintf Sample.droppedChain.1 Sample.droppedChain.2
        [.str "test"] 7).1.loggers Sample.debug.2).out.written = ["msg=test\n"] := by
  decide

/-- C2, amended: one record, with the fields as the hooks leave them.  For the
chain `NewEntry(logger).AsLevel(l).WithFields(f).Write(m)` on any state: when `l`
is at most the logger's level the hook registry is handed a record whose
message is `m` and whose fields are exactly those of `f`, and the formatter is
then handed, once, the same entry with the message `m` and the fields as the
hooks registered for `l` left them (`runHooks`): every key/value of `f` when no
hook is registered for `l`, and when the hooks registered for `l` leave the
keys of `f` alone; when `l` is above the logger's level nothing is appended to
the trace, nothing reaches the sink and the write returns.  `WithField` and
`WithError` are `WithFields` of the one-key map, so the same holds for their
chains. -/
theorem chain_all_or_nothing (lv : Levels) (sprintf : SprintfFn) (st : State) (logger : Nat)
    (l : Level) (f : Fields) (m : String) (now : Time) :
    let e0 := NewEntry st logger
    let e1 := Entry.AsLevel e0.1 e0.2 l
    let e2 := Entry.WithFields e1.1 e1.2 f
    let r := Entry.Write lv sprintf e2.1 e2.2 [.str m] now
    (l ≤ (st.loggers logger).level →
      ∃ seen offered,
        (r.1.since st).filter Event.isFireOrFormat =
          [.fire l e2.2 seen, .format e2.2 offered] ∧
        seen.Message = m ∧ (∀ k, seen.Data.lookup k = f.lookup k) ∧
        offered.Message = m ∧
        offered.Data = runHooks ((st.loggers logger).hooks l) seen ∧
        ((st.loggers logger).hooks l = [] → ∀ k, offered.Data.lookup k = f.lookup k) ∧
        ((∀ hook ∈ (st.loggers logger).hooks l, hook.Keeps f) →
          ∀ k, f.lookup k ≠ none → offered.Data.lookup k = f.lookup k)) ∧
    (¬ l ≤ (st.loggers logger).level →
      r.1.trace = st.trace ∧ r.1.loggers = st.loggers ∧ r.2 = .returned) ∧
    (∀ k v, Entry.WithField e1.1 e1.2 k v = Entry.WithFields e1.1 e1.2 ((∅ : Fields).insert k v)) ∧
    (∀ err, Entry.WithError e1.1 e1.2 err =
      Entry.WithFields e1.1 e1.2 ((∅ : Fields).insert errorKey err)) := by
  intro e0 e1 e2 r
  refine ⟨?_, ?_, fun k v => WithField_eq_WithFields _ _ k v,
    fun err => WithError_eq_WithFields _ _ err⟩
  · intro hle
    have hnot : ¬ ((e1.1.entries e1.2).Level > Logger.getLevel e1.1 (e1.1.entries e1.2).Logger) := by
      simp [e1, e0, Entry.AsLevel, NewEntry, newLogEntry, State.allocEntry, State.allocMap,
        Logger.getLevel]
      exact hle
    have he2 : e2 = newLogEntry
        (e1.1.allocMap (copyInto (copyInto ∅ (e1.1.fields e1.2)) f)).1
        (e1.1.entries e1.2).Logger (e1.1.entries e1.2).Level
        (e1.1.allocMap (copyInto (copyInto ∅ (e1.1.fields e1.2)) f)).2 := by
      show Entry.WithFields e1.1 e1.2 f = _
      unfold Entry.WithFields
      rw [if_neg hnot]
    have hlevel : (e2.1.entries e2.2).Level = l := by
      rw [he2]
      simp [e1, e0, Entry.AsLevel, NewEntry, newLogEntry, State.allocEntry, State.allocMap]
    have hlogger : (e2.1.entries e2.2).Logger = logger := by
      rw [he2]
      simp [e1, e0, Entry.AsLevel, NewEntry, newLogEntry, State.allocEntry, State.allocMap]
    have hloggers : e2.1.loggers = st.loggers := by
      rw [he2]
      simp [e1, e0, Entry.AsLevel, NewEntry, newLogEntry, State.allocEntry, State.allocMap]
    have htrace : e2.1.trace = st.trace := by
      rw [he2]
      simp [e1, e0, Entry.AsLevel, NewEntry, newLogEntry, State.allocEntry, State.allocMap]
    have hfields : ∀ k, (e2.1.fields e2.2).lookup k = f.lookup k := by
      intro k
      have : e2.1.fields e2.2 = copyInto (copyInto ∅ (∅ : Fields)) f := by
        rw [he2]
        simp [e1, e0, Entry.AsLevel, NewEntry, newLogEntry, State.allocEntry, State.allocMap,
          State.fields]
      rw [this, merge_lookup]
      cases f.lookup k <;> simp
    have hen : (e2.1.entries e2.2).Level ≤ (e2.1.loggers (e2.1.entries e2.2).Logger).level := by
      rw [hlevel, hlogger, hloggers]
      exact hle
    have hs := write_since lv sprintf e2.1 e2.2 .unformatted "" [.str m] now hen
    have hsince : r.1.since st = r.1.since e2.1 := by
      simp [State.since, htrace]
    refine ⟨Record.mk (e2.1.fields e2.2) now (e2.1.entries e2.2).Level
        (constructMessage sprintf .unformatted "" [.str m]),
      Entry.offered sprintf e2.1 e2.2 .unformatted "" [.str m] now, ?_, ?_, ?_, ?_, ?_, ?_, ?_⟩
    · rw [hsince]
      show ((Entry.write lv sprintf e2.1 e2.2 .unformatted "" [.str m] now).1.since e2.1).filter
        Event.isFireOrFormat = _
      rw [hs, hlevel]
    · simp [constructMessage, Sprint_single_string]
    · exact hfields
    · simp [Entry.offered, State.record, fireHooks_entries, Entry.stamp, State.setEntry,
        State.emit, constructMessage, Sprint_single_string]
    · rw [offered_data, hlogger, hloggers, hlevel]
    · intro hno k
      have hmaps := fireHooks_no_hooks
        (Entry.stamp (e2.1.emit (.render .unformatted "" [.str m])) e2.2
          (constructMessage sprintf .unformatted "" [.str m]) now) e2.2
        (by
          simp only [Entry.stamp, State.setEntry, State.emit, if_true]
          rw [hlogger, hloggers, hlevel]
          exact hno)
      have : (Entry.offered sprintf e2.1 e2.2 .unformatted "" [.str m] now).Data =
          e2.1.fields e2.2 := by
        simp only [Entry.offered, State.record, State.fields, fireHooks_entries]
        rw [hmaps]
        simp [Entry.stamp, State.setEntry, State.emit]
      rw [this]
      exact hfields k
    · intro hkeep k hk
      rw [offered_data, hlogger, hloggers, hlevel, runHooks_keeps f _ hkeep _ k hk]
      exact hfields k
  · intro hgt
    have hyes : (e1.1.entries e1.2).Level > Logger.getLevel e1.1 (e1.1.entries e1.2).Logger := by
      simp [e1, e0, Entry.AsLevel, NewEntry, newLogEntry, State.allocEntry, State.allocMap,
        Logger.getLevel]
      exact Nat.lt_of_not_le hgt
    have he2 : e2 = (e1.1, e1.2) := by
      show Entry.WithFields e1.1 e1.2 f = _
      unfold Entry.WithFields
      rw [if_pos hyes]
    have hr : r = (e1.1, .returned) := by
      show Entry.write lv sprintf e2.1 e2.2 .unformatted "" [.str m] now = _
      unfold Entry.write
      rw [he2]
      have : ¬ (Logger.getLevel e1.1 (e1.1.entries e1.2).Logger ≥ (e1.1.entries e1.2).Level) :=
        Nat.not_le_of_lt hyes
      rw [if_neg this]
    rw [hr]
    simp [e1, e0, Entry.AsLevel, NewEntry, newLogEntry, State.allocEntry, State.allocMap]

/-- C3: a disabled write is a no-op.  When the logger's level is below the
entry's level, `Entry.write` (hence `Write`, `Writef` and `Writeln`) returns
normally and leaves the whole state as it was: no rendering, lock, hook,
formatter, sink or standard-error event is appended to the trace, no entry
(its `Time` and `Message` included), field map or logger changes, and the call
neither exits nor panics, whatever the entry's level is. -/
theorem disabled_write_is_noop (lv : Levels) (sprintf : SprintfFn) (st : State) (entry : Nat)
    (mode : formatMode) (format : String) (args : List Value) (now : Time)
    (h : (st.loggers (st.entries entry).Logger).level < (st.entries entry).Level) :
    Entry.write lv sprintf st entry mode format args now = (st, .returned) ∧
      (Entry.write lv sprintf st entry mode format args now).1.trace = st.trace ∧
      (Entry.write lv sprintf st entry mode format args now).1.entries entry = st.entries entry ∧
      Entry.Write lv sprintf st entry args now = (st, .returned) ∧
      Entry.Writef lv sprintf st entry format args now = (st, .returned) ∧
      Entry.Writeln lv sprintf st entry args now = (st, .returned) := by
  have hn : ∀ md fm, Entry.write lv sprintf st entry md fm args now = (st, .returned) := by
    intro md fm
    unfold Entry.write
    have : ¬ (Logger.getLevel st (st.entries entry).Logger ≥ (st.entries entry).Level) :=
      Nat.not_le_of_lt h
    rw [if_neg this]
  refine ⟨hn _ _, ?_, ?_, hn _ _, hn _ _, hn _ _⟩ <;> rw [hn]

/-- Witness of C1: on an info logger, `Write("hello")`, `Writef("hello")` and
`Writeln("hello")` on an info entry each hand the sink the formatter's bytes,
in one write. -/
theorem write_reaches_sink_iff_enabled_witness :
    ((Entry.Write Levels.iota Sample.sprintf Sample.infoEntry.1 Sample.infoEntry.2
        [.str "hello"] 7).1.loggers 0).out.written = ["msg=hello\n"] ∧
      ((Entry.Writef Levels.iota Sample.sprintf Sample.infoEntry.1 Sample.infoEntry.2 "hello"
        [] 7).1.loggers 0).out.written = ["msg=hello\n"] ∧
      ((Entry.Writeln Levels.iota Sample.sprintf Sample.infoEntry.1 Sample.infoEntry.2
        [.str "hello"] 7).1.loggers 0).out.written = ["msg=hello\n"] :=
  ⟨(((write_reaches_sink_iff_enabled Levels.iota Sample.sprintf Sample.infoEntry.1
      Sample.infoEntry.2 "" [.str "hello"] 7).1 "msg=hello\n" (by rfl)).2.1 (by decide)).1,
    (((write_reaches_sink_iff_enabled Levels.iota Sample.sprintf Sample.infoEntry.1
      Sample.infoEntry.2 "hello" [] 7).2.1 "msg=hello\n" (by rfl)).2.1 (by decide)).1,
    (((write_reaches_sink_iff_enabled Levels.iota Sample.sprintf Sample.infoEntry.1
      Sample.infoEntry.2 "" [.str "hello"] 7).2.2 "msg=hello\n" (by rfl)).2.1 (by decide)).1⟩

/-- Witness of C2, amended: the chain at the warning level on an info logger,
which has no hook, offers the formatter the message and the field. -/
theorem chain_all_or_nothing_witness :
    ∃ seen offered,
      ((Entry.Write Levels.iota Sample.sprintf
          (Entry.WithFields (Entry.AsLevel Sample.infoEntry.1 Sample.infoEntry.2 3).1
            (Entry.AsLevel Sample.infoEntry.1 Sample.infoEntry.2 3).2
            ((∅ : Fields).insert "field" (.str "value"))).1
          (Entry.WithFields (Entry.AsLevel Sample.infoEntry.1 Sample.infoEntry.2 3).1
            (Entry.AsLevel Sample.infoEntry.1 Sample.infoEntry.2 3).2
            ((∅ : Fields).insert "field" (.str "value"))).2
          [.str "log me"] 7).1.since Sample.info.1).filter Event.isFireOrFormat =
        [.fire 3
          (Entry.WithFields (Entry.AsLevel Sample.infoEntry.1 Sample.infoEntry.2 3).1
            (Entry.AsLevel Sample.infoEntry.1 Sample.infoEntry.2 3).2
            ((∅ : Fields).insert "field" (.str "value"))).2 seen,
         .format
          (Entry.WithFields (Entry.AsLevel Sample.infoEntry.1 Sample.infoEntry.2 3).1
            (Entry.AsLevel Sample.infoEntry.1 Sample.infoEntry.2 3).2
            ((∅ : Fields).insert "field" (.str "value"))).2 offered] ∧
      seen.Message = "log me" ∧
      (∀ k, seen.Data.lookup k = ((∅ : Fields).insert "field" (.str "value")).lookup k) ∧
      offered.Message = "log me" ∧
      offered.Data = runHooks ((Sample.info.1.loggers Sample.info.2).hooks 3) seen ∧
      ((Sample.info.1.loggers Sample.info.2).hooks 3 = [] →
        ∀ k, offered.Data.lookup k = ((∅ : Fields).insert "field" (.str "value")).lookup k) ∧
      ((∀ hook ∈ (Sample.info.1.loggers Sample.info.2).hooks 3,
          hook.Keeps ((∅ : Fields).insert "field" (.str "value"))) →
        ∀ k, ((∅ : Fields).insert "field" (.str "value")).lookup k ≠ none →
          offered.Data.lookup k = ((∅ : Fields).insert "field" (.str "value")).lookup k) :=
  (chain_all_or_nothing Levels.iota Sample.sprintf Sample.info.1 Sample.info.2 3
    ((∅ : Fields).insert "field" (.str "value")) "log me" 7).1 (by decide)

/-- Witness of C3: an entry of the fatal level under the panic threshold is not
written and the process does not exit. -/
theorem disabled_write_is_noop_witness :
    Entry.write Levels.iota Sample.sprintf Sample.panicThreshold.1 Sample.panicThreshold.2
      .unformatted "" [.str "bye"] 7 = (Sample.panicThreshold.1, .returned) :=
  (disabled_write_is_noop Levels.iota Sample.sprintf Sample.panicThreshold.1
    Sample.panicThreshold.2 .unformatted "" [.str "bye"] 7 (by decide)).1

/-- C4, what the code does: the parent is never changed, but
`logger.WithField("a", 1)` holds more than `a`.  For `e1 = logger.WithField(ka, va)`
and `e2 = e1.WithField(kb, vb)`, the scratch entry `logger.newEntry()` hands out
being allocated with an allocated map, as it is in every well-formed state:
after `e2` has been created and written, with whatever hooks the logger has,
the cell of `e1` (its `Level` included) and the contents of its field map are
what they were when `e1` was returned.  That field set binds `ka` to `va` and
every other key as the scratch entry binds it, when the level of the scratch
entry is at most the logger's level; it is the field set of the scratch entry,
`e1` being the scratch entry itself, when it is not; so it is exactly
`ka -> va` for a logger whose pool is empty, and not for a logger whose pooled
scratch entry holds fields.  More generally, for every allocated entry with an
allocated map, deriving with `WithFields`, `WithField` or `WithError` and
writing the derived entry leaves the parent's cell and field set as they
were. -/
theorem field_isolation (lv : Levels) (sprintf : SprintfFn) (st : State)
    (mode : formatMode) (format : String) (args : List Value) (now : Time) :
    (∀ logger ka va kb vb,
      let scratch := Logger.newEntry st logger
      let e1 := Logger.WithField st logger ka va
      let e2 := Entry.WithField e1.1 e1.2 kb vb
      let r := Entry.write lv sprintf e2.1 e2.2 mode format args now
      scratch.2 < scratch.1.nextEntry →
      (scratch.1.entries scratch.2).Data < scratch.1.nextMap →
      r.1.entries e1.2 = e1.1.entries e1.2 ∧ r.1.fields e1.2 = e1.1.fields e1.2 ∧
        ((scratch.1.entries scratch.2).Level ≤
            (scratch.1.loggers (scratch.1.entries scratch.2).Logger).level →
          ∀ k, (r.1.fields e1.2).lookup k =
            if k = ka then some va else (scratch.1.fields scratch.2).lookup k) ∧
        (¬ (scratch.1.entries scratch.2).Level ≤
            (scratch.1.loggers (scratch.1.entries scratch.2).Logger).level →
          e1.2 = scratch.2 ∧
            ∀ k, (r.1.fields e1.2).lookup k = (scratch.1.fields scratch.2).lookup k) ∧
        ((st.loggers logger).entryPool = [] →
          ∀ k, (r.1.fields e1.2).lookup k = if k = ka then some va else none)) ∧
    (st.WF → ∀ logger,
      (Logger.newEntry st logger).2 < (Logger.newEntry st logger).1.nextEntry ∧
        ((Logger.newEntry st logger).1.entries (Logger.newEntry st logger).2).Data <
          (Logger.newEntry st logger).1.nextMap) ∧
    (∀ entry, entry < st.nextEntry → (st.entries entry).Data < st.nextMap →
      (∀ fields,
        let d := Entry.WithFields st entry fields
        let r := Entry.write lv sprintf d.1 d.2 mode format args now
        r.1.entries entry = st.entries entry ∧ r.1.fields entry = st.fields entry) ∧
      (∀ key value,
        let d := Entry.WithField st entry key value
        let r := Entry.write lv sprintf d.1 d.2 mode format args now
        r.1.entries entry = st.entries entry ∧ r.1.fields entry = st.fields entry) ∧
      (∀ err,
        let d := Entry.WithError st entry err
        let r := Entry.write lv sprintf d.1 d.2 mode format args now
        r.1.entries entry = st.entries entry ∧ r.1.fields entry = st.fields entry)) := by
  refine ⟨?_, fun hwf logger => newEntry_valid st logger hwf, ?_⟩
  · intro logger ka va kb vb scratch e1 e2 r h1 h2
    have hv : e1.2 < e1.1.nextEntry ∧ (e1.1.entries e1.2).Data < e1.1.nextMap := by
      have hval := Logger_WithFields_valid_of st logger ((∅ : Fields).insert ka va) h1 h2
      rw [← Logger_WithField_eq] at hval
      exact hval
    have hfr := derive_write_frame lv sprintf e1.1 e1.2 ((∅ : Fields).insert kb vb) mode format
      args now hv.1 hv.2
    have hr : r = Entry.write lv sprintf
        (Entry.WithFields e1.1 e1.2 ((∅ : Fields).insert kb vb)).1
        (Entry.WithFields e1.1 e1.2 ((∅ : Fields).insert kb vb)).2 mode format args now := by
      show Entry.write lv sprintf (Entry.WithField e1.1 e1.2 kb vb).1
        (Entry.WithField e1.1 e1.2 kb vb).2 mode format args now = _
      rw [WithField_eq_WithFields]
    rw [hr]
    refine ⟨hfr.1, hfr.2, ?_, ?_, ?_⟩
    · intro hen k
      rw [hfr.2]
      show ((Logger.WithField st logger ka va).1.fields
        (Logger.WithField st logger ka va).2).lookup k = _
      rw [Logger_WithField_eq, Logger_WithFields_lookup st logger _ hen k, insert_empty_lookup]
      by_cases hk : k = ka
      · rw [if_pos hk, if_pos hk]
      · rw [if_neg hk, if_neg hk]
    · intro hdis
      have hs := Logger_WithFields_scratch st logger ((∅ : Fields).insert ka va) hdis
      rw [← Logger_WithField_eq] at hs
      refine ⟨hs.1, fun k => ?_⟩
      rw [hfr.2]
      show ((Logger.WithField st logger ka va).1.fields
        (Logger.WithField st logger ka va).2).lookup k = _
      rw [hs.2]
    · intro hp k
      rw [hfr.2]
      show ((Logger.WithField st logger ka va).1.fields
        (Logger.WithField st logger ka va).2).lookup k = _
      rw [Logger_WithField_eq, Logger_WithFields_fresh st logger _ hp, singleton_lookup]
  · intro entry he hm
    refine ⟨?_, ?_, ?_⟩
    · intro fields
      exact derive_write_frame lv sprintf st entry fields mode format args now he hm
    · intro key value
      simp only [WithField_eq_WithFields]
      exact derive_write_frame lv sprintf st entry _ mode format args now he hm
    · intro err
      simp only [WithError_eq_WithFields]
      exact derive_write_frame lv sprintf st entry _ mode format args now he hm

/-- Witness of C4, the failing input: on a debug logger that carries
`ModifyHook`, after `logger.Info("x")` the entry `e1 = logger.WithField("a", 1)`
holds `wow = whale` besides `a = 1`, before and after `e2 = e1.WithField("b", 2)`
is created and written; `e2` has not changed it, and it is not `{a: 1}`. -/
theorem field_isolation_witness :
    (Sample.afterInfoA.1.fields Sample.afterInfoA.2).lookup "wow" = some (.str "whale") ∧
      Sample.afterInfoWritten.1.fields Sample.afterInfoA.2 =
        Sample.afterInfoA.1.fields Sample.afterInfoA.2 ∧
      (Sample.afterInfoWritten.1.fields Sample.afterInfoA.2).lookup "a" = some (.int 1) ∧
      (Sample.afterInfoWritten.1.fields Sample.afterInfoA.2).lookup "wow" =
        some (.str "whale") ∧
      (Sample.afterInfoWritten.1.fields Sample.afterInfoA.2).lookup "b" = none :=
  ⟨by decide,
    ((field_isolation Levels.iota Sample.sprintf Sample.infoed.1 .unformatted "" [.str "y"]
      8).1 Sample.debug.2 "a" (.int 1) "b" (.int 2) (by decide) (by decide)).2.1,
    (((field_isolation Levels.iota Sample.sprintf Sample.infoed.1 .unformatted "" [.str "y"]
      8).1 Sample.debug.2 "a" (.int 1) "b" (.int 2) (by decide) (by decide)).2.2.1 (by decide)
      "a").trans (by decide),
    (((field_isolation Levels.iota Sample.sprintf Sample.infoed.1 .unformatted "" [.str "y"]
      8).1 Sample.debug.2 "a" (.int 1) "b" (.int 2) (by decide) (by decide)).2.2.1 (by decide)
      "wow").trans (by decide),
    (((field_isolation Levels.iota Sample.sprintf Sample.infoed.1 .unformatted "" [.str "y"]
      8).1 Sample.debug.2 "a" (.int 1) "b" (.int 2) (by decide) (by decide)).2.2.1 (by decide)
      "b").trans (by decide)⟩

/-- C5: union with override.  For every entry whose level is at most its
logger's level and every field map, `WithFields` returns the entry at the next
free address, with the same `Logger` and `Level` and with a field map of its
own at the next free map address, in which every key is bound to its value in
the argument if the argument has it and to its value in the entry's `Data`
otherwise, and is unbound if neither has it.  `WithField(k, v)` is `WithFields`
of the map `k -> v` and `WithError(err)` of the map `error -> err`. -/
theorem WithFields_union (st : State) (entry : Nat) (fields : Fields)
    (h : (st.entries entry).Level ≤ (st.loggers (st.entries entry).Logger).level) :
    let r := Entry.WithFields st entry fields
    r.2 = st.nextEntry ∧
      (r.1.entries r.2).Logger = (st.entries entry).Logger ∧
      (r.1.entries r.2).Level = (st.entries entry).Level ∧
      (r.1.entries r.2).Data = st.nextMap ∧
      (∀ k, (r.1.fields r.2).lookup k =
        match fields.lookup k with
        | some v => some v
        | none => (st.fields entry).lookup k) ∧
      (∀ key value, Entry.WithField st entry key value =
        Entry.WithFields st entry ((∅ : Fields).insert key value)) ∧
      (∀ err, Entry.WithError st entry err =
        Entry.WithFields st entry ((∅ : Fields).insert errorKey err)) := by
  intro r
  have hr : r = newLogEntry (st.allocMap (copyInto (copyInto ∅ (st.fields entry)) fields)).1
      (st.entries entry).Logger (st.entries entry).Level st.nextMap :=
    WithFields_enabled st entry fields h
  refine ⟨?_, ?_, ?_, ?_, ?_, fun key value => WithField_eq_WithFields st entry key value,
    fun err => WithError_eq_WithFields st entry err⟩
  · rw [hr]; rfl
  · rw [hr]; simp [newLogEntry, State.allocEntry, State.allocMap]
  · rw [hr]; simp [newLogEntry, State.allocEntry, State.allocMap]
  · rw [hr]; simp [newLogEntry, State.allocEntry, State.allocMap]
  · intro k
    have : r.1.fields r.2 = copyInto (copyInto ∅ (st.fields entry)) fields := by
      rw [hr]
      simp [newLogEntry, State.allocEntry, State.allocMap, State.fields]
    rw [this, merge_lookup]

/-- Witness of C5: `withFields({a:1}).withFields({a:2})` yields `a = 2`. -/
theorem WithFields_union_witness :
    ((Entry.WithFields (Entry.WithFields Sample.infoEntry.1 Sample.infoEntry.2 Sample.a1).1
        (Entry.WithFields Sample.infoEntry.1 Sample.infoEntry.2 Sample.a1).2 Sample.a2).1.fields
      (Entry.WithFields (Entry.WithFields Sample.infoEntry.1 Sample.infoEntry.2 Sample.a1).1
        (Entry.WithFields Sample.infoEntry.1 Sample.infoEntry.2 Sample.a1).2 Sample.a2).2).lookup
        "a" = some (.int 2) :=
  ((WithFields_union (Entry.WithFields Sample.infoEntry.1 Sample.infoEntry.2 Sample.a1).1
    (Entry.WithFields Sample.infoEntry.1 Sample.infoEntry.2 Sample.a1).2 Sample.a2
    (by decide)).2.2.2.2.1 "a").trans (by decide)

/-- Counterexample to C6 as stated.  On a debug logger carrying `ModifyHook`,
`d = e.AsLevel(InfoLevel)` is another entry than `e`, `e.Data` has no `wow`
before `d` is written, and after `d.Write("x")` the field the hook set on `d`
is read through `e.Data`.  And on an info logger, `WithField` applied to an
entry of the debug level returns that very entry. -/
theorem lineage_isolation_counterexample :
    Sample.hookedAsInfo.2 ≠ Sample.hookedEntry.2 ∧
      (Sample.hookedAsInfo.1.fields Sample.hookedEntry.2).lookup "wow" = none ∧
      (Sample.hookedWritten.1.fields Sample.hookedEntry.2).lookup "wow" = some (.str "whale") ∧
      (Entry.WithField Sample.infoAsDebug.1 Sample.infoAsDebug.2 "k" (.str "v")).2 =
        Sample.infoAsDebug.2 := by
  decide

/-- C6, amended: copy on derive.  In a well-formed state, for every allocated
entry whose level is at most its logger's level, the entry derived by
`WithFields` (hence by `WithField` and `WithError`, which are `WithFields` of a
one-key map) has a field map of its own: storing any contents into the derived
entry's map leaves the parent's field set as it was and storing any contents
into the parent's map leaves the derived entry's field set as it was, and the
same holds for what the hooks store while the derived entry, or the parent, is
written. -/
theorem derived_fields_are_private (lv : Levels) (sprintf : SprintfFn) (st : State)
    (hwf : st.WF) (entry : Nat) (he : entry < st.nextEntry)
    (hen : (st.entries entry).Level ≤ (st.loggers (st.entries entry).Logger).level)
    (fields : Fields) (mode : formatMode) (format : String) (args : List Value) (now : Time) :
    let d := Entry.WithFields st entry fields
    (d.1.entries d.2).Data ≠ (d.1.entries entry).Data ∧
      (∀ m, (d.1.setMap (d.1.entries d.2).Data m).fields entry = d.1.fields entry) ∧
      (∀ m, (d.1.setMap (d.1.entries entry).Data m).fields d.2 = d.1.fields d.2) ∧
      (Entry.write lv sprintf d.1 d.2 mode format args now).1.fields entry = d.1.fields entry ∧
      (Entry.write lv sprintf d.1 entry mode format args now).1.fields d.2 = d.1.fields d.2 ∧
      (∀ key value, Entry.WithField st entry key value =
        Entry.WithFields st entry ((∅ : Fields).insert key value)) ∧
      (∀ err, Entry.WithError st entry err =
        Entry.WithFields st entry ((∅ : Fields).insert errorKey err)) := by
  intro d
  have hm : (st.entries entry).Data < st.nextMap := hwf.1 entry he
  have hne : entry ≠ st.nextEntry := Nat.ne_of_lt he
  have hmne : (st.entries entry).Data ≠ st.nextMap := Nat.ne_of_lt hm
  have hd : d = newLogEntry (st.allocMap (copyInto (copyInto ∅ (st.fields entry)) fields)).1
      (st.entries entry).Logger (st.entries entry).Level st.nextMap :=
    WithFields_enabled st entry fields hen
  have h2 : d.2 = st.nextEntry := by rw [hd]; rfl
  have h1 : d.1.entries entry = st.entries entry := by
    rw [hd]
    simp [newLogEntry, State.allocEntry, State.allocMap, hne]
  have h3 : (d.1.entries d.2).Data = st.nextMap := by
    rw [hd]
    simp [newLogEntry, State.allocEntry, State.allocMap]
  have hdiff : (d.1.entries d.2).Data ≠ (d.1.entries entry).Data := by
    rw [h3, h1]
    exact fun h => hmne h.symm
  refine ⟨hdiff, ?_, ?_, ?_, ?_, fun key value => WithField_eq_WithFields st entry key value,
    fun err => WithError_eq_WithFields st entry err⟩
  · intro m
    have hsym : (d.1.entries entry).Data ≠ (d.1.entries d.2).Data := fun h => hdiff h.symm
    simp only [State.fields, State.setMap]
    rw [if_neg hsym]
  · intro m
    simp only [State.fields, State.setMap]
    rw [if_neg hdiff]
  · have hfr := derive_write_frame lv sprintf st entry fields mode format args now he hm
    have hold : d.1.fields entry = st.fields entry := by
      rw [hd]
      simp [State.fields, newLogEntry, State.allocEntry, State.allocMap, hne, hmne]
    rw [hold]
    exact hfr.2
  · have hx : d.2 ≠ entry := by rw [h2]; exact fun h => hne h.symm
    unfold State.fields
    rw [write_entries_other lv sprintf d.1 entry d.2 mode format args now hx,
      write_maps_other lv sprintf d.1 entry _ mode format args now hdiff]

/-- Witness of C6, amended: on the logger carrying `ModifyHook`, writing the
entry derived with `WithFields` leaves the parent's field set as it was. -/
theorem derived_fields_are_private_witness :
    (Entry.write Levels.iota Sample.sprintf
        (Entry.WithFields Sample.hookedEntry.1 Sample.hookedEntry.2 Sample.a1).1
        (Entry.WithFields Sample.hookedEntry.1 Sample.hookedEntry.2 Sample.a1).2
        .unformatted "" [.str "x"] 7).1.fields Sample.hookedEntry.2 =
      (Entry.WithFields Sample.hookedEntry.1 Sample.hookedEntry.2 Sample.a1).1.fields
        Sample.hookedEntry.2 :=
  (derived_fields_are_private Levels.iota Sample.sprintf Sample.hookedEntry.1
    Sample.hookedEntry_WF Sample.hookedEntry.2 (by decide) (by decide) Sample.a1 .unformatted ""
    [.str "x"] 7).2.2.2.1

/-- Counterexample to C7 as stated.  On an info logger, for the entry `e` of the
debug level (above the threshold) and the info level (enabled), the entry
`e.WithField("k", "v").AsLevel(InfoLevel)` has no binding for `k`. -/
theorem field_kept_after_relevel_counterexample :
    (Sample.infoAsDebug.1.loggers (Sample.infoAsDebug.1.entries Sample.infoAsDebug.2).Logger).level <
        (Sample.infoAsDebug.1.entries Sample.infoAsDebug.2).Level ∧
      Levels.iota.InfoLevel ≤
        (Sample.infoAsDebug.1.loggers (Sample.infoAsDebug.1.entries Sample.infoAsDebug.2).Logger).level ∧
      ((Entry.AsLevel (Entry.WithField Sample.infoAsDebug.1 Sample.infoAsDebug.2 "k" (.str "v")).1
          (Entry.WithField Sample.infoAsDebug.1 Sample.infoAsDebug.2 "k" (.str "v")).2
          Levels.iota.InfoLevel).1.fields
        (Entry.AsLevel (Entry.WithField Sample.infoAsDebug.1 Sample.infoAsDebug.2 "k" (.str "v")).1
          (Entry.WithField Sample.infoAsDebug.1 Sample.infoAsDebug.2 "k" (.str "v")).2
          Levels.iota.InfoLevel).2).lookup "k" = none := by
  decide

/-- C7, amended: the level is to be set first.  For every entry whose level is
above its logger's level, `WithField(k, v)` returns the entry itself and the
state untouched, so `e.WithField(k, v).AsLevel(l)` has the field set of `e`
and nothing more; when the level is set first, for every `l` at most the
logger's level, `e.AsLevel(l).WithField(k, v)` binds `k` to `v` and every other
key as `e.Data` does. -/
theorem relevel_then_field (st : State) (entry : Nat) (key : String) (value : Value)
    (l : Level)
    (h : (st.loggers (st.entries entry).Logger).level < (st.entries entry).Level) :
    let w := Entry.WithField st entry key value
    let d := Entry.AsLevel w.1 w.2 l
    let a := Entry.AsLevel st entry l
    let b := Entry.WithField a.1 a.2 key value
    w = (st, entry) ∧ d.1.fields d.2 = st.fields entry ∧
      (l ≤ (st.loggers (st.entries entry).Logger).level →
        (b.1.fields b.2).lookup key = some value ∧
          ∀ k, k ≠ key → (b.1.fields b.2).lookup k = (st.fields entry).lookup k) := by
  intro w d a b
  have hw : w = (st, entry) := by
    show Entry.WithField st entry key value = _
    rw [WithField_eq_WithFields, WithFields_disabled st entry _ h]
  refine ⟨hw, ?_, ?_⟩
  · show (Entry.AsLevel w.1 w.2 l).1.fields (Entry.AsLevel w.1 w.2 l).2 = _
    rw [hw]
    simp [Entry.AsLevel, newLogEntry, State.allocEntry, State.fields]
  · intro hl
    have hen : (a.1.entries a.2).Level ≤ (a.1.loggers (a.1.entries a.2).Logger).level := by
      simp only [a, Entry.AsLevel, newLogEntry, State.allocEntry, if_true]
      exact hl
    have hb : b = newLogEntry
        (a.1.allocMap (copyInto (copyInto ∅ (a.1.fields a.2)) ((∅ : Fields).insert key value))).1
        (a.1.entries a.2).Logger (a.1.entries a.2).Level a.1.nextMap := by
      show Entry.WithField a.1 a.2 key value = _
      rw [WithField_eq_WithFields, WithFields_enabled _ _ _ hen]
    have ha : a.1.fields a.2 = st.fields entry := by
      simp [a, Entry.AsLevel, newLogEntry, State.allocEntry, State.fields]
    have hf : b.1.fields b.2 =
        copyInto (copyInto ∅ (st.fields entry)) ((∅ : Fields).insert key value) := by
      rw [hb, ha]
      simp [newLogEntry, State.allocEntry, State.allocMap, State.fields]
    rw [hf]
    refine ⟨?_, ?_⟩
    · rw [merge_lookup, AList.lookup_insert]
    · intro k hk
      rw [merge_lookup, AList.lookup_insert_ne hk, AList.lookup_empty]

/-- Witness of C7, amended: on the info logger the debug entry comes back from
`WithField` as it is. -/
theorem relevel_then_field_witness :
    Entry.WithField Sample.infoAsDebug.1 Sample.infoAsDebug.2 "k" (.str "v") =
      (Sample.infoAsDebug.1, Sample.infoAsDebug.2) :=
  (relevel_then_field Sample.infoAsDebug.1 Sample.infoAsDebug.2 "k" (.str "v")
    Levels.iota.InfoLevel (by decide)).1

/-- C8: `AsLevel` clones the entry under a new level.  For every allocated
entry and every level, `AsLevel` returns the entry at the next free address,
another entry than the receiver, with the receiver's `Logger`, the receiver's
`Data` (the same map, hence the same field set) and the given level; no cell,
map or logger of the state changes, and after the new entry has been written
the receiver's cell, its `Level` included, is still what it was.  `AsDebug`,
`AsInfo`, `AsWarning`, `AsError`, `AsFatal` and `AsPanic` are `AsLevel` at
their constant. -/
theorem AsLevel_clones (lv : Levels) (sprintf : SprintfFn) (st : State) (entry : Nat)
    (level : Level) (he : entry < st.nextEntry) (mode : formatMode) (format : String)
    (args : List Value) (now : Time) :
    let d := Entry.AsLevel st entry level
    (d.2 = st.nextEntry ∧ d.2 ≠ entry) ∧
      ((d.1.entries d.2).Logger = (st.entries entry).Logger ∧
        (d.1.entries d.2).Data = (st.entries entry).Data ∧
        d.1.fields d.2 = st.fields entry ∧
        (d.1.entries d.2).Level = level) ∧
      (d.1.entries entry = st.entries entry ∧ d.1.maps = st.maps ∧ d.1.loggers = st.loggers ∧
        d.1.trace = st.trace) ∧
      ((Entry.write lv sprintf d.1 d.2 mode format args now).1.entries entry = st.entries entry ∧
        ((Entry.write lv sprintf d.1 d.2 mode format args now).1.entries entry).Level =
          (st.entries entry).Level) ∧
      (Entry.AsDebug lv st entry = Entry.AsLevel st entry lv.DebugLevel ∧
        Entry.AsInfo lv st entry = Entry.AsLevel st entry lv.InfoLevel ∧
        Entry.AsWarning lv st entry = Entry.AsLevel st entry lv.WarnLevel ∧
        Entry.AsError lv st entry = Entry.AsLevel st entry lv.ErrorLevel ∧
        Entry.AsFatal lv st entry = Entry.AsLevel st entry lv.FatalLevel ∧
        Entry.AsPanic lv st entry = Entry.AsLevel st entry lv.PanicLevel) := by
  intro d
  have hne : entry ≠ st.nextEntry := Nat.ne_of_lt he
  have h2 : d.2 = st.nextEntry := rfl
  have hx : d.2 ≠ entry := by rw [h2]; exact fun h => hne h.symm
  have hcell : d.1.entries entry = st.entries entry := by
    simp [d, Entry.AsLevel, newLogEntry, State.allocEntry, hne]
  have hw := write_entries_other lv sprintf d.1 d.2 entry mode format args now hne
  refine ⟨⟨h2, hx⟩, ⟨?_, ?_, ?_, ?_⟩, ⟨hcell, rfl, rfl, rfl⟩, ⟨hw.trans hcell, ?_⟩,
    ⟨rfl, rfl, rfl, rfl, rfl, rfl⟩⟩
  · simp [d, Entry.AsLevel, newLogEntry, State.allocEntry]
  · simp [d, Entry.AsLevel, newLogEntry, State.allocEntry]
  · simp [d, Entry.AsLevel, newLogEntry, State.allocEntry, State.fields]
  · simp [d, Entry.AsLevel, newLogEntry, State.allocEntry]
  · rw [hw, hcell]

/-- Witness of C8: the info entry keeps its level after its error-level clone has
been created and written. -/
theorem AsLevel_clones_witness :
    ((Entry.write Levels.iota Sample.sprintf
        (Entry.AsLevel Sample.infoEntry.1 Sample.infoEntry.2 Levels.iota.ErrorLevel).1
        (Entry.AsLevel Sample.infoEntry.1 Sample.infoEntry.2 Levels.iota.ErrorLevel).2
        .unformatted "" [.str "x"] 7).1.entries Sample.infoEntry.2).Level =
      (Sample.infoEntry.1.entries Sample.infoEntry.2).Level :=
  (AsLevel_clones Levels.iota Sample.sprintf Sample.infoEntry.1 Sample.infoEntry.2
    Levels.iota.ErrorLevel (by decide) .unformatted "" [.str "x"] 7).2.2.2.1.2

/-- Counterexample to C9 as stated.  The entry of `raisedEntry` is written at
time 7 with the message `hi` while its logger is at the debug threshold; once
`SetLevel(InfoLevel)` has lowered the threshold, `WithField` on that entry
returns the entry itself, which has a `Message` and a `Time`. -/
theorem derived_entry_is_unstamped_counterexample :
    (Entry.WithField Sample.lowered Sample.raisedEntry.2 "k" (.str "v")).2 =
        Sample.raisedEntry.2 ∧
      ((Entry.WithField Sample.lowered Sample.raisedEntry.2 "k" (.str "v")).1.entries
        (Entry.WithField Sample.lowered Sample.raisedEntry.2 "k" (.str "v")).2).Message = "hi" ∧
      ((Entry.WithField Sample.lowered Sample.raisedEntry.2 "k" (.str "v")).1.entries
        (Entry.WithField Sample.lowered Sample.raisedEntry.2 "k" (.str "v")).2).Time = 7 ∧
      ¬ Unstamped (Entry.WithField Sample.lowered Sample.raisedEntry.2 "k" (.str "v")) := by
  refine ⟨by decide, by decide, by decide, ?_⟩
  intro h
  exact absurd h.1 (by decide)

/-- C9, amended: stamping happens at the write.  The entry returned by
`NewEntry`, `NewEntryWithFields`, `NewEntryWithField` or `AsLevel`, and the
entry returned by `WithFields`, `WithField` or `WithError` on an entry whose
level is at most its logger's level, has the zero `Time` and the empty
`Message`, whatever the receiver holds; on an entry whose level is above its
logger's level these three return the receiver itself and leave the state
alone; and after a write on an entry whose level is at most its logger's level
the entry's `Message` is the message rendered from the arguments of the write
and its `Time` is the time of the write. -/
theorem stamped_by_the_write (lv : Levels) (sprintf : SprintfFn) (st : State) :
    (∀ logger, Unstamped (NewEntry st logger)) ∧
    (∀ logger fields, Unstamped (NewEntryWithFields st logger fields)) ∧
    (∀ logger key value, Unstamped (NewEntryWithField st logger key value)) ∧
    (∀ entry level, Unstamped (Entry.AsLevel st entry level)) ∧
    (∀ entry, (st.entries entry).Level ≤ (st.loggers (st.entries entry).Logger).level →
      (∀ fields, Unstamped (Entry.WithFields st entry fields)) ∧
      (∀ key value, Unstamped (Entry.WithField st entry key value)) ∧
      (∀ err, Unstamped (Entry.WithError st entry err)) ∧
      ∀ mode format args now,
        ((Entry.write lv sprintf st entry mode format args now).1.entries entry).Message =
            constructMessage sprintf mode format args ∧
          ((Entry.write lv sprintf st entry mode format args now).1.entries entry).Time = now) ∧
    (∀ entry, (st.loggers (st.entries entry).Logger).level < (st.entries entry).Level →
      (∀ fields, Entry.WithFields st entry fields = (st, entry)) ∧
      (∀ key value, Entry.WithField st entry key value = (st, entry)) ∧
      (∀ err, Entry.WithError st entry err = (st, entry))) := by
  have hwf : ∀ entry, (st.entries entry).Level ≤ (st.loggers (st.entries entry).Logger).level →
      ∀ fields, Unstamped (Entry.WithFields st entry fields) := by
    intro entry h fields
    rw [WithFields_enabled st entry fields h]
    simp [Unstamped, newLogEntry, State.allocEntry, State.allocMap]
  refine ⟨?_, ?_, ?_, ?_, ?_, ?_⟩
  · intro logger
    simp [Unstamped, NewEntry, newLogEntry, State.allocEntry, State.allocMap]
  · intro logger fields
    simp [Unstamped, NewEntryWithFields, newLogEntry, State.allocEntry]
  · intro logger key value
    simp [Unstamped, NewEntryWithField, newLogEntry, State.allocEntry, State.allocMap]
  · intro entry level
    simp [Unstamped, Entry.AsLevel, newLogEntry, State.allocEntry]
  · intro entry h
    refine ⟨hwf entry h, ?_, ?_, ?_⟩
    · intro key value
      rw [WithField_eq_WithFields]
      exact hwf entry h _
    · intro err
      rw [WithError_eq_WithFields]
      exact hwf entry h _
    · intro mode format args now
      have h2 : Logger.getLevel st (st.entries entry).Logger ≥ (st.entries entry).Level := h
      unfold Entry.write
      rw [if_pos h2, log_entries]
      simp
  · intro entry h
    refine ⟨fun fields => WithFields_disabled st entry fields h, ?_, ?_⟩
    · intro key value
      rw [WithField_eq_WithFields]
      exact WithFields_disabled st entry _ h
    · intro err
      rw [WithError_eq_WithFields]
      exact WithFields_disabled st entry _ h

/-- Witness of C9, amended: after `Write("hi")` at time 7 on an info entry of an
info logger, the entry's message is `hi`. -/
theorem stamped_by_the_write_witness :
    ((Entry.write Levels.iota Sample.sprintf Sample.infoEntry.1 Sample.infoEntry.2 .unformatted
        "" [.str "hi"] 7).1.entries Sample.infoEntry.2).Message = "hi" :=
  ((((stamped_by_the_write Levels.iota Sample.sprintf Sample.infoEntry.1).2.2.2.2.1
    Sample.infoEntry.2 (by decide)).2.2.2 .unformatted "" [.str "hi"] 7).1).trans (by decide)

/-- C10: hook mutation visibility.  In every write on an entry whose level is
at most its logger's level, among the events the write appends the hook
registry is fired exactly once, with the entry's level and the entry itself as
it is once `Time` and `Message` are stamped, and the formatter is called
exactly once, after the hooks, on that same entry as the hooks left it (its
fields are `runHooks` of the entry's fields); the bytes the formatter returns
for it are what the sink receives.  Hence when the
last hook registered for the level sets a field (and the hooks before it
succeed), the formatter is offered that value for the key, whatever the entry
held under the key before the write. -/
theorem hooks_fire_once_before_format (lv : Levels) (sprintf : SprintfFn) (st : State)
    (entry : Nat) (mode : formatMode) (format : String) (args : List Value) (now : Time)
    (hen : (st.entries entry).Level ≤ (st.loggers (st.entries entry).Logger).level) :
    let r := Entry.write lv sprintf st entry mode format args now
    let offered := Entry.offered sprintf st entry mode format args now
    (r.1.since st).filter Event.isFireOrFormat =
        [.fire (st.entries entry).Level entry
            { Data := st.fields entry, Time := now, Level := (st.entries entry).Level,
              Message := constructMessage sprintf mode format args },
         .format entry offered] ∧
      (offered.Time = now ∧ offered.Message = constructMessage sprintf mode format args ∧
        offered.Level = (st.entries entry).Level ∧ offered = r.1.record entry ∧
        offered.Data =
          runHooks ((st.loggers (st.entries entry).Logger).hooks (st.entries entry).Level)
            (Record.mk (st.fields entry) now (st.entries entry).Level
              (constructMessage sprintf mode format args))) ∧
      (∀ bytes, (st.loggers (st.entries entry).Logger).formatter offered = .ok bytes →
        (r.1.loggers (st.entries entry).Logger).out.written =
          (st.loggers (st.entries entry).Logger).out.written ++ [bytes]) ∧
      (∀ pre hook key value,
        (st.loggers (st.entries entry).Logger).hooks (st.entries entry).Level = pre ++ [hook] →
        (∀ h, h ∈ pre → ∀ rec, (h.Fire rec).2 = none) →
        (∀ rec, (hook.Fire rec).1 = rec.Data.insert key value) →
        offered.Data.lookup key = some value) := by
  intro r offered
  refine ⟨write_since lv sprintf st entry mode format args now hen,
    ⟨?_, ?_, ?_, ?_, offered_data sprintf st entry mode format args now⟩, ?_, ?_⟩
  · simp [offered, Entry.offered, State.record, fireHooks_entries, Entry.stamp, State.setEntry]
  · simp [offered, Entry.offered, State.record, fireHooks_entries, Entry.stamp, State.setEntry]
  · simp [offered, Entry.offered, State.record, fireHooks_entries, Entry.stamp, State.setEntry,
      State.emit]
  · have h2 : Logger.getLevel st (st.entries entry).Logger ≥ (st.entries entry).Level := hen
    show Entry.offered sprintf st entry mode format args now =
      (Entry.write lv sprintf st entry mode format args now).1.record entry
    unfold Entry.write
    rw [if_pos h2]
    simp [Entry.offered, Entry.log, State.record, State.fields, emitBytes_entries,
      emitBytes_maps]
  · intro bytes hb
    exact ((write_written_ok lv sprintf st entry mode format args now bytes
      hb) hen)
  · intro pre hook key value hh hpre hset
    obtain ⟨rec, hrec⟩ := offered_last_hook sprintf st entry mode format args now pre hook hh hpre
    rw [hrec, hset, AList.lookup_insert]

/-- Witness of C10: with `ModifyHook` registered, the entry that holds
`wow = elephant` is offered to the formatter with `wow = whale`. -/
theorem hooks_fire_once_before_format_witness :
    (Sample.elephant.1.fields Sample.elephant.2).lookup "wow" = some (.str "elephant") ∧
      (Entry.offered Sample.sprintf Sample.elephant.1 Sample.elephant.2 .unformatted ""
        [.str "test"] 7).Data.lookup "wow" = some (.str "whale") :=
  ⟨by decide,
    (hooks_fire_once_before_format Levels.iota Sample.sprintf Sample.elephant.1 Sample.elephant.2
      .unformatted "" [.str "test"] 7 (by decide)).2.2.2 [] (Sample.ModifyHook Levels.iota) "wow"
      (.str "whale") (by rfl) (fun h hm => absurd hm (List.not_mem_nil h)) (fun _ => rfl)⟩

/-- C11: a hook failure never blocks the log attempt.  In every write on an
entry whose level is at most its logger's level in which the walk over the
hooks returns an error, the error is reported on standard error, the formatter
is still called once, after the hooks, on the entry as the hooks left it, the
sink receives what the formatter returned for it (one write of its bytes when it
succeeds), by the same rule as when no hook fails, and the way the write ends is
decided by the entry's level alone: the error is not handed to the caller. -/
theorem hook_failure_does_not_block (lv : Levels) (sprintf : SprintfFn) (st : State)
    (entry : Nat) (mode : formatMode) (format : String) (args : List Value) (now : Time)
    (err : String)
    (hen : (st.entries entry).Level ≤ (st.loggers (st.entries entry).Logger).level)
    (herr : hookError ((st.loggers (st.entries entry).Logger).hooks (st.entries entry).Level)
      (Record.mk (st.fields entry) now (st.entries entry).Level
        (constructMessage sprintf mode format args)) = some err) :
    let r := Entry.write lv sprintf st entry mode format args now
    let offered := Entry.offered sprintf st entry mode format args now
    let logger := (st.entries entry).Logger
    Event.stderr ("Failed to fire the hook: " ++ err ++ "\n") ∈ r.1.since st ∧
      (r.1.since st).filter Event.isFireOrFormat =
        [.fire (st.entries entry).Level entry
            (Record.mk (st.fields entry) now (st.entries entry).Level
              (constructMessage sprintf mode format args)),
         .format entry offered] ∧
      (r.1.loggers logger).out.written =
        (st.loggers logger).out.written ++ sinkBytes (st.loggers logger).formatter offered ∧
      (∀ bytes, (st.loggers logger).formatter offered = .ok bytes →
        (r.1.loggers logger).out.written = (st.loggers logger).out.written ++ [bytes] ∧
          (r.1.since st).filter Event.isWrite = [.write logger bytes]) ∧
      r.2 = (if (st.entries entry).Level = lv.FatalLevel then .exited 1
        else if (st.entries entry).Level ≤ lv.PanicLevel then .panicked (.entry entry)
        else .returned) := by
  intro r offered logger
  have htr := write_trace lv sprintf st entry mode format args now hen
  have hsince := since_of_append _ _ _ htr
  have hlog := write_loggers lv sprintf st entry mode format args now hen
  have hw : (r.1.loggers logger).out.written =
      (st.loggers logger).out.written ++ sinkBytes (st.loggers logger).formatter offered := by
    show ((Entry.write lv sprintf st entry mode format args now).1.loggers
      (st.entries entry).Logger).out.written = _
    rw [hlog]
    simp [offered, logger]
  refine ⟨?_, write_since lv sprintf st entry mode format args now hen, hw, ?_,
    write_outcome lv sprintf st entry mode format args now hen⟩
  · show _ ∈ (Entry.write lv sprintf st entry mode format args now).1.since st
    rw [hsince]
    simp [logEvents, herr]
  · intro bytes hb
    refine ⟨?_, ?_⟩
    · rw [hw]
      simp [sinkBytes, hb]
    · show ((Entry.write lv sprintf st entry mode format args now).1.since st).filter
        Event.isWrite = _
      rw [hsince, List.filter_cons, logEvents_writes]
      have ho := offered_eq sprintf st entry mode format args now
      simp only [offered, logger] at hb
      rw [ho] at hb
      simp [Event.isWrite, sinkBytes, hb]

/-- Witness of C11: on a debug logger whose hook fails, the entry is still
written. -/
theorem hook_failure_does_not_block_witness :
    ((Entry.write Levels.iota Sample.sprintf Sample.failingEntry.1 Sample.failingEntry.2
        .unformatted "" [.str "hello"] 7).1.loggers 0).out.written = ["msg=hello\n"] ∧
      (Entry.write Levels.iota Sample.sprintf Sample.failingEntry.1 Sample.failingEntry.2
        .unformatted "" [.str "hello"] 7).2 = .returned :=
  ⟨((hook_failure_does_not_block Levels.iota Sample.sprintf Sample.failingEntry.1
      Sample.failingEntry.2 .unformatted "" [.str "hello"] 7 "hook down" (by decide)
      (by rfl)).2.2.2.1 "msg=hello\n" (by rfl)).1,
   ((hook_failure_does_not_block Levels.iota Sample.sprintf Sample.failingEntry.1
      Sample.failingEntry.2 .unformatted "" [.str "hello"] 7 "hook down" (by decide)
      (by rfl)).2.2.2.2).trans (by decide)⟩

/-- C12: a format failure suppresses the sink write.  In every write on an
entry whose level is at most its logger's level in which the formatter returns
an error for the entry it is offered, no write to a sink is among the events of
the write, no logger changes (the sink has received nothing), the failure is
reported on standard error, and the write returns when the entry's level is
neither the fatal level nor at or below the panic level: under the order of
the constants, when it is the error, warning, info or debug level. -/
theorem format_failure_suppresses_write (lv : Levels) (sprintf : SprintfFn) (st : State)
    (entry : Nat) (mode : formatMode) (format : String) (args : List Value) (now : Time)
    (err : String)
    (hen : (st.entries entry).Level ≤ (st.loggers (st.entries entry).Logger).level)
    (hfmt : (st.loggers (st.entries entry).Logger).formatter
      (Entry.offered sprintf st entry mode format args now) = .error err) :
    let r := Entry.write lv sprintf st entry mode format args now
    (r.1.since st).filter Event.isWrite = [] ∧
      r.1.loggers = st.loggers ∧
      (r.1.loggers (st.entries entry).Logger).out.written =
        (st.loggers (st.entries entry).Logger).out.written ∧
      Event.stderr ("Failed to obtain reader, " ++ err ++ "\n") ∈ r.1.since st ∧
      ((st.entries entry).Level ≠ lv.FatalLevel → ¬ (st.entries entry).Level ≤ lv.PanicLevel →
        r.2 = .returned) ∧
      (lv.Ordered →
        (st.entries entry).Level ∈ [lv.ErrorLevel, lv.WarnLevel, lv.InfoLevel, lv.DebugLevel] →
        r.2 = .returned) := by
  intro r
  have htr := write_trace lv sprintf st entry mode format args now hen
  have hsince := since_of_append _ _ _ htr
  have hlog := write_loggers lv sprintf st entry mode format args now hen
  have hout := write_outcome lv sprintf st entry mode format args now hen
  have ho := offered_eq sprintf st entry mode format args now
  have hsame : r.1.loggers = st.loggers := by
    show (Entry.write lv sprintf st entry mode format args now).1.loggers = _
    rw [hlog]
    funext i
    by_cases hi : i = (st.entries entry).Logger
    · subst hi
      simp [sinkBytes, hfmt]
    · simp [hi]
  have hret : (st.entries entry).Level ≠ lv.FatalLevel →
      ¬ (st.entries entry).Level ≤ lv.PanicLevel → r.2 = .returned := by
    intro h1 h2
    show (Entry.write lv sprintf st entry mode format args now).2 = _
    rw [hout, if_neg h1, if_neg h2]
  refine ⟨?_, hsame, by rw [hsame], ?_, hret, ?_⟩
  · show ((Entry.write lv sprintf st entry mode format args now).1.since st).filter
      Event.isWrite = _
    rw [hsince, List.filter_cons, logEvents_writes]
    rw [ho] at hfmt
    simp [Event.isWrite, sinkBytes, hfmt]
  · show _ ∈ (Entry.write lv sprintf st entry mode format args now).1.since st
    rw [hsince]
    rw [ho] at hfmt
    simp [logEvents, hfmt]
  · intro hord hmem
    obtain ⟨h1, h2, h3, h4, h5⟩ := hord
    simp only [List.mem_cons, List.mem_singleton, List.not_mem_nil, or_false] at hmem
    apply hret
    · rcases hmem with h | h | h | h <;> rw [h] <;> apply Nat.ne_of_gt
      · exact h2
      · exact Nat.lt_trans h2 h3
      · exact Nat.lt_trans h2 (Nat.lt_trans h3 h4)
      · exact Nat.lt_trans h2 (Nat.lt_trans h3 (Nat.lt_trans h4 h5))
    · apply Nat.not_le_of_lt
      rcases hmem with h | h | h | h <;> rw [h]
      · exact Nat.lt_trans h1 h2
      · exact Nat.lt_trans h1 (Nat.lt_trans h2 h3)
      · exact Nat.lt_trans h1 (Nat.lt_trans h2 (Nat.lt_trans h3 h4))
      · exact Nat.lt_trans h1 (Nat.lt_trans h2 (Nat.lt_trans h3 (Nat.lt_trans h4 h5)))

/-- Witness of C12: on a debug logger whose formatter fails, a write reaches no
sink and returns. -/
theorem format_failure_suppresses_write_witness :
    ((Entry.write Levels.iota Sample.sprintf Sample.brokenEntry.1 Sample.brokenEntry.2
        .unformatted "" [.str "hello"] 7).1.loggers 0).out.written = [] ∧
      (Entry.write Levels.iota Sample.sprintf Sample.brokenEntry.1 Sample.brokenEntry.2
        .unformatted "" [.str "hello"] 7).2 = .returned :=
  ⟨(format_failure_suppresses_write Levels.iota Sample.sprintf Sample.brokenEntry.1
      Sample.brokenEntry.2 .unformatted "" [.str "hello"] 7 "cannot serialize" (by decide)
      (by rfl)).2.2.1,
   (format_failure_suppresses_write Levels.iota Sample.sprintf Sample.brokenEntry.1
      Sample.brokenEntry.2 .unformatted "" [.str "hello"] 7 "cannot serialize" (by decide)
      (by rfl)).2.2.2.2.1 (by decide) (by decide)⟩

/-- C13: the fatal level ends the process, the levels above it do not.  A
write on an entry of the fatal level that its logger logs ends with exit
status 1 after the hooks have been fired, the formatter has been called and the
sink has received what the formatter returned, whatever the hooks, the
formatter and the sink do (the statement is for every state, hence for every
combination of their failures); a write on an entry of any other level never
ends with an exit: under the order of the constants, a write on an entry of
the error, warning, info or debug level. -/
theorem fatal_write_exits (lv : Levels) (sprintf : SprintfFn) (st : State) (entry : Nat)
    (mode : formatMode) (format : String) (args : List Value) (now : Time) :
    let r := Entry.write lv sprintf st entry mode format args now
    let offered := Entry.offered sprintf st entry mode format args now
    let logger := (st.entries entry).Logger
    ((st.entries entry).Level = lv.FatalLevel →
      (st.entries entry).Level ≤ (st.loggers logger).level →
      r.2 = .exited 1 ∧
        (r.1.since st).filter Event.isFireOrFormat =
          [.fire (st.entries entry).Level entry
              (Record.mk (st.fields entry) now (st.entries entry).Level
                (constructMessage sprintf mode format args)),
           .format entry offered] ∧
        (r.1.loggers logger).out.written =
          (st.loggers logger).out.written ++ sinkBytes (st.loggers logger).formatter offered) ∧
    ((st.entries entry).Level ≠ lv.FatalLevel → ∀ code, r.2 ≠ .exited code) ∧
    (lv.Ordered →
      (st.entries entry).Level ∈ [lv.ErrorLevel, lv.WarnLevel, lv.InfoLevel, lv.DebugLevel] →
      ∀ code, r.2 ≠ .exited code) := by
  intro r offered logger
  have hno : (st.entries entry).Level ≠ lv.FatalLevel → ∀ code, r.2 ≠ .exited code := by
    intro hne code
    rcases write_outcome_cases lv sprintf st entry mode format args now with h | h | h
    · show (Entry.write lv sprintf st entry mode format args now).2 ≠ _
      rw [h]
      exact fun hc => Outcome.noConfusion hc
    · exact absurd h.1 hne
    · show (Entry.write lv sprintf st entry mode format args now).2 ≠ _
      rw [h.2]
      exact fun hc => Outcome.noConfusion hc
  refine ⟨?_, hno, fun hord hmem => hno (plain_levels lv hord _ hmem).1⟩
  intro hf hen
  refine ⟨?_, write_since lv sprintf st entry mode format args now hen, ?_⟩
  · show (Entry.write lv sprintf st entry mode format args now).2 = _
    rw [write_outcome lv sprintf st entry mode format args now hen, if_pos hf]
  · show ((Entry.write lv sprintf st entry mode format args now).1.loggers
      (st.entries entry).Logger).out.written = _
    rw [write_loggers lv sprintf st entry mode format args now hen]
    simp [offered, logger]

/-- Witness of C13: with a failing hook, a failing formatter and a failing sink,
the write of a fatal entry ends with exit status 1. -/
theorem fatal_write_exits_witness :
    (Entry.write Levels.iota Sample.sprintf Sample.doomedFatal.1 Sample.doomedFatal.2
      .unformatted "" [.str "bye"] 7).2 = .exited 1 :=
  ((fatal_write_exits Levels.iota Sample.sprintf Sample.doomedFatal.1 Sample.doomedFatal.2
    .unformatted "" [.str "bye"] 7).1 (by decide) (by decide)).1

/-- C14: the panic level raises a panic that carries the entry.  A write on an
entry of the panic level, on a logger whose level is not below the panic level
(the least of the constants), ends, after the hooks have been fired, the
formatter called and the sink given what the formatter returned, with a panic
whose payload is the address of that entry, where the caller reads the panic
level, the message rendered by the write and the fields as the hooks left
them; a write on an entry whose level is above the panic level never ends with
a panic: under the order of the constants, a write on an entry of the error,
warning, info or debug level. -/
theorem panic_write_carries_entry (lv : Levels) (sprintf : SprintfFn) (st : State)
    (entry : Nat) (mode : formatMode) (format : String) (args : List Value) (now : Time) :
    let r := Entry.write lv sprintf st entry mode format args now
    let offered := Entry.offered sprintf st entry mode format args now
    let logger := (st.entries entry).Logger
    ((st.entries entry).Level = lv.PanicLevel → lv.PanicLevel ≠ lv.FatalLevel →
      lv.PanicLevel ≤ (st.loggers logger).level →
      r.2 = .panicked (.entry entry) ∧
        (r.1.record entry).Level = lv.PanicLevel ∧
        (r.1.record entry).Message = constructMessage sprintf mode format args ∧
        (r.1.record entry).Data =
          runHooks ((st.loggers logger).hooks lv.PanicLevel)
            (Record.mk (st.fields entry) now lv.PanicLevel
              (constructMessage sprintf mode format args)) ∧
        (r.1.since st).filter Event.isFireOrFormat =
          [.fire lv.PanicLevel entry
              (Record.mk (st.fields entry) now lv.PanicLevel
                (constructMessage sprintf mode format args)),
           .format entry offered] ∧
        (r.1.loggers logger).out.written =
          (st.loggers logger).out.written ++ sinkBytes (st.loggers logger).formatter offered) ∧
    (lv.PanicLevel < (st.entries entry).Level → ∀ payload, r.2 ≠ .panicked payload) ∧
    (lv.Ordered →
      (st.entries entry).Level ∈ [lv.ErrorLevel, lv.WarnLevel, lv.InfoLevel, lv.DebugLevel] →
      ∀ payload, r.2 ≠ .panicked payload) := by
  intro r offered logger
  have hno : lv.PanicLevel < (st.entries entry).Level → ∀ payload, r.2 ≠ .panicked payload := by
    intro hlt payload
    rcases write_outcome_cases lv sprintf st entry mode format args now with h | h | h
    · show (Entry.write lv sprintf st entry mode format args now).2 ≠ _
      rw [h]
      exact fun hc => Outcome.noConfusion hc
    · show (Entry.write lv sprintf st entry mode format args now).2 ≠ _
      rw [h.2]
      exact fun hc => Outcome.noConfusion hc
    · exact absurd h.1 (Nat.not_le_of_lt hlt)
  refine ⟨?_, hno, fun hord hmem => hno (plain_levels lv hord _ hmem).2⟩
  intro hp hpf hle
  have hen : (st.entries entry).Level ≤ (st.loggers (st.entries entry).Logger).level := by
    rw [hp]
    exact hle
  have hrec := write_record lv sprintf st entry mode format args now hen
  have ho := offered_eq sprintf st entry mode format args now
  have hs := write_since lv sprintf st entry mode format args now hen
  rw [hp] at ho hs
  refine ⟨?_, ?_, ?_, ?_, hs, ?_⟩
  · show (Entry.write lv sprintf st entry mode format args now).2 = _
    rw [write_outcome lv sprintf st entry mode format args now hen, hp, if_neg hpf,
      if_pos (Nat.le_refl _)]
  · show ((Entry.write lv sprintf st entry mode format args now).1.record entry).Level = _
    rw [hrec, ho]
  · show ((Entry.write lv sprintf st entry mode format args now).1.record entry).Message = _
    rw [hrec, ho]
  · show ((Entry.write lv sprintf st entry mode format args now).1.record entry).Data = _
    rw [hrec, ho]
  · show ((Entry.write lv sprintf st entry mode format args now).1.loggers
      (st.entries entry).Logger).out.written = _
    rw [write_loggers lv sprintf st entry mode format args now hen]
    simp [offered, logger]

/-- Witness of C14: the write of the panic entry `orca` panics with the entry,
from which the message is read. -/
theorem panic_write_carries_entry_witness :
    (Entry.write Levels.iota Sample.sprintf Sample.orca.1 Sample.orca.2 .unformatted ""
        [.str "It is over 9000!"] 7).2 = .panicked (.entry Sample.orca.2) ∧
      ((Entry.write Levels.iota Sample.sprintf Sample.orca.1 Sample.orca.2 .unformatted ""
        [.str "It is over 9000!"] 7).1.record Sample.orca.2).Message = "It is over 9000!" :=
  ⟨((panic_write_carries_entry Levels.iota Sample.sprintf Sample.orca.1 Sample.orca.2
      .unformatted "" [.str "It is over 9000!"] 7).1 (by decide) (by decide) (by decide)).1,
   (((panic_write_carries_entry Levels.iota Sample.sprintf Sample.orca.1 Sample.orca.2
      .unformatted "" [.str "It is over 9000!"] 7).1 (by decide) (by decide)
      (by decide)).2.2.1).trans (by decide)⟩

/-- C15, what the code does: the panic of `logger.Panic`, `logger.Panicf` and
`logger.Panicln` carries the scratch entry, not the message.  On every logger
whose level is not below the panic level, `logger.log(PanicLevel, ...)` runs
`entry.log` on the scratch entry, which panics with the address of that entry,
so the `panic(msg)` that follows the call of `log` is never reached. -/
theorem direct_panic_payload_is_entry (lv : Levels) (sprintf : SprintfFn) (st : State)
    (logger : Nat) (format : String) (args : List Value) (now : Time)
    (hpf : lv.PanicLevel ≠ lv.FatalLevel) (hen : lv.PanicLevel ≤ (st.loggers logger).level) :
    (Logger.Panic lv sprintf st logger args now).2 =
        .panicked (.entry (Logger.newEntry st logger).2) ∧
      (Logger.Panicf lv sprintf st logger format args now).2 =
        .panicked (.entry (Logger.newEntry st logger).2) ∧
      (Logger.Panicln lv sprintf st logger args now).2 =
        .panicked (.entry (Logger.newEntry st logger).2) ∧
      ∀ text, (Logger.Panic lv sprintf st logger args now).2 ≠ .panicked (.message text) ∧
        (Logger.Panicf lv sprintf st logger format args now).2 ≠ .panicked (.message text) ∧
        (Logger.Panicln lv sprintf st logger args now).2 ≠ .panicked (.message text) := by
  have hlog : ∀ (s : State) (mode : formatMode) (fm : String) (as : List Value),
      (s.loggers logger).level = (st.loggers logger).level →
      (Logger.log lv sprintf s logger lv.PanicLevel mode fm as now).2 =
        .panicked (.entry (Logger.newEntry s logger).2) := by
    intro s mode fm as hs
    rw [Logger_log_outcome lv sprintf s logger lv.PanicLevel mode fm as now (by rw [hs]; exact hen),
      if_neg hpf, if_pos (Nat.le_refl _)]
  have h1 : (Logger.Panic lv sprintf st logger args now).2 =
      .panicked (.entry (Logger.newEntry st logger).2) := by
    unfold Logger.Panic
    simp only []
    rw [hlog (st.emit (.render .unformatted "" args)) .unformatted "" args rfl, newEntry_emit]
  have h2 : (Logger.Panicf lv sprintf st logger format args now).2 =
      .panicked (.entry (Logger.newEntry st logger).2) := by
    unfold Logger.Panicf
    simp only []
    rw [hlog _ _ _ _ rfl]
  have h3 : (Logger.Panicln lv sprintf st logger args now).2 =
      .panicked (.entry (Logger.newEntry st logger).2) := by
    unfold Logger.Panicln
    simp only []
    rw [hlog (st.emit (.render .unformatted "" args)) .newLine "" [.str (fmt.Sprint args)] rfl,
      newEntry_emit]
  refine ⟨h1, h2, h3, fun text => ⟨?_, ?_, ?_⟩⟩
  · rw [h1]
    exact fun hc => Payload.noConfusion (Outcome.panicked.inj hc)
  · rw [h2]
    exact fun hc => Payload.noConfusion (Outcome.panicked.inj hc)
  · rw [h3]
    exact fun hc => Payload.noConfusion (Outcome.panicked.inj hc)

/-- Witness of C15, the failing input: on an info logger `logger.Panic("boom")`
logs the message `boom` and panics with the entry at address 0. -/
theorem direct_panic_payload_is_entry_witness :
    (Logger.Panic Levels.iota Sample.sprintf Sample.info.1 Sample.info.2 [.str "boom"] 7).2 =
        .panicked (.entry 0) ∧
      ((Logger.Panic Levels.iota Sample.sprintf Sample.info.1 Sample.info.2 [.str "boom"]
        7).1.loggers 0).out.written = ["msg=boom\n"] :=
  ⟨(direct_panic_payload_is_entry Levels.iota Sample.sprintf Sample.info.1 Sample.info.2 ""
      [.str "boom"] 7 (by decide) (by decide)).1.trans (by decide), by decide⟩

/-- C17, the failing input: after `logger.Error("x")` on an info logger, the
entry `logger.WithField("a", 1)` returns has the error level, while the
logger's level is still the info level. -/
theorem pooled_level_is_stale :
    Sample.errored.2 = .returned ∧
      (Sample.afterError.1.loggers Sample.info.2).level = Levels.iota.InfoLevel ∧
      (Sample.afterError.1.entries Sample.afterError.2).Level = Levels.iota.ErrorLevel ∧
      (Sample.afterError.1.entries Sample.afterError.2).Level ≠
        (Sample.afterError.1.loggers Sample.info.2).level := by
  decide

/-- C18, the failing input: after `logger.Info("x")` on a logger that carries
`ModifyHook`, the pooled entry holds the field the hook set, and the entry
`logger.WithField("k", "v")` returns holds `wow = whale` besides `k = v`. -/
theorem pooled_fields_leak :
    Sample.infoed.2 = .returned ∧
      (Sample.infoed.1.loggers Sample.debug.2).entryPool = [0] ∧
      (Sample.infoed.1.fields 0).lookup "wow" = some (.str "whale") ∧
      (Sample.afterInfo.1.fields Sample.afterInfo.2).lookup "k" = some (.str "v") ∧
      (Sample.afterInfo.1.fields Sample.afterInfo.2).lookup "wow" = some (.str "whale") := by
  decide

/-- C19, the failing inputs: the entry `logger.AsLevel(ErrorLevel)` returns
holds the very map of the scratch entry the call has put back into the pool;
and once `SetLevel(InfoLevel)` has lowered the threshold of a debug logger,
the entry `logger.WithField("b", 2)` returns is the pooled scratch entry
itself. -/
theorem escaped_entry_is_pooled :
    (Sample.releveled.1.loggers Sample.info.2).entryPool = [0] ∧
      Sample.releveled.2 = 1 ∧
      (Sample.releveled.1.entries Sample.releveled.2).Data =
        (Sample.releveled.1.entries 0).Data ∧
      (Sample.afterLowering.1.loggers Sample.debug.2).entryPool = [0] ∧
      Sample.afterLowering.2 = 0 := by
  decide

/-- Counterexample to C20 as stated.  The message of `Write("a", "b")` is `ab`,
without a space between the two strings, on an entry that is logged. -/
theorem Write_joins_with_spaces_counterexample :
    constructMessage Sample.sprintf .unformatted "" [.str "a", .str "b"] = "ab" ∧
      ((Entry.Write Levels.iota Sample.sprintf Sample.infoEntry.1 Sample.infoEntry.2
        [.str "a", .str "b"] 7).1.entries Sample.infoEntry.2).Message = "ab" ∧
      ((Entry.Write Levels.iota Sample.sprintf Sample.infoEntry.1 Sample.infoEntry.2
        [.str "a", .str "b"] 7).1.entries Sample.infoEntry.2).Message ≠ "a b" := by
  decide

/-- C20, amended: the message of `Write` is `fmt.Sprint` of the arguments.  The
message stamped by `entry.Write(args...)` on an entry its logger logs, and the
message stamped on the scratch entry by `logger.Debug`, `logger.Info`,
`logger.Warning` and `logger.Error` when their level is logged, is
`fmt.Sprint(args...)`: empty for no argument, the rendering of the argument for
one, and for more the rendering of the first, then one space exactly when
neither the first nor the second is a string, then the message of the rest;
nothing follows the last argument. -/
theorem Write_message_is_Sprint (lv : Levels) (sprintf : SprintfFn) (st : State)
    (args : List Value) (now : Time) :
    (∀ entry, (st.entries entry).Level ≤ (st.loggers (st.entries entry).Logger).level →
      ((Entry.Write lv sprintf st entry args now).1.entries entry).Message = fmt.Sprint args) ∧
    (∀ logger,
      (lv.DebugLevel ≤ (st.loggers logger).level →
        ((Logger.Debug lv sprintf st logger args now).1.entries
          (Logger.newEntry st logger).2).Message = fmt.Sprint args) ∧
      (lv.InfoLevel ≤ (st.loggers logger).level →
        ((Logger.Info lv sprintf st logger args now).1.entries
          (Logger.newEntry st logger).2).Message = fmt.Sprint args) ∧
      (lv.WarnLevel ≤ (st.loggers logger).level →
        ((Logger.Warning lv sprintf st logger args now).1.entries
          (Logger.newEntry st logger).2).Message = fmt.Sprint args) ∧
      (lv.ErrorLevel ≤ (st.loggers logger).level →
        ((Logger.Error lv sprintf st logger args now).1.entries
          (Logger.newEntry st logger).2).Message = fmt.Sprint args)) ∧
    fmt.Sprint [] = "" ∧
    (∀ a, fmt.Sprint [a] = fmt.render a) ∧
    (∀ a b rest, fmt.Sprint (a :: b :: rest) =
      fmt.render a ++ (if !fmt.isString b && !fmt.isString a then " " else "") ++
        fmt.Sprint (b :: rest)) := by
  refine ⟨?_, ?_, rfl, ?_, Sprint_cons_cons⟩
  · intro entry hen
    have h2 : Logger.getLevel st (st.entries entry).Logger ≥ (st.entries entry).Level := hen
    unfold Entry.Write Entry.write
    rw [if_pos h2, log_entries]
    simp [constructMessage]
  · intro logger
    refine ⟨?_, ?_, ?_, ?_⟩ <;> intro hen
    · exact (Logger_log_scratch lv sprintf st logger _ .unformatted "" args now hen).2.2
    · exact (Logger_log_scratch lv sprintf st logger _ .unformatted "" args now hen).2.2
    · exact (Logger_log_scratch lv sprintf st logger _ .unformatted "" args now hen).2.2
    · exact (Logger_log_scratch lv sprintf st logger _ .unformatted "" args now hen).2.2
  · intro a
    simp [fmt.Sprint, fmt.sprintRest]

/-- Witness of C20, amended: `Write(1, 2)` on an info entry of an info logger
stamps the message `1 2`. -/
theorem Write_message_is_Sprint_witness :
    ((Entry.Write Levels.iota Sample.sprintf Sample.infoEntry.1 Sample.infoEntry.2
      [.int 1, .int 2] 7).1.entries Sample.infoEntry.2).Message = "1 2" :=
  ((Write_message_is_Sprint Levels.iota Sample.sprintf Sample.infoEntry.1 [.int 1, .int 2] 7).1
    Sample.infoEntry.2 (by decide)).trans (by decide)

/-- C16: the direct methods run the gated write path of an entry.  On a logger
whose scratch entry is clean (the pool is empty, or the entry on top of it
belongs to the logger and has an empty field set), for the debug, info,
warning and error levels, `logger.<L>(args...)`, `logger.<L>f(format, args...)`
and `logger.<L>ln(args...)` do what `NewEntry(logger).AsLevel(L)` followed by
`Write(args...)`, `Writef(format, args...)` and `Writeln(args...)` does: the same
events in the same order (rendering, lock, firing of the registry, every hook
with what it reads, formatter call with what it is offered, sink write,
reports), up to the address of the entry that is logged, hence the same hooks
fired, and the same byte strings in the sink, nothing of either when the level
is above the logger's level; and one returns exactly when the other does, which
both do at a level that is neither fatal nor at or below panic. -/
theorem direct_methods_match_entry_write (lv : Levels) (sprintf : SprintfFn) (st : State)
    (logger : Nat) (hclean : Logger.cleanScratch st logger) (format : String)
    (args : List Value) (now : Time) :
    (SameWrite st logger (Logger.Debug lv sprintf st logger args now)
        (Entry.Write lv sprintf (chainAt st logger lv.DebugLevel).1 (chainAt st logger lv.DebugLevel).2
          args now) ∧
      SameWrite st logger (Logger.Debugf lv sprintf st logger format args now)
        (Entry.Writef lv sprintf (chainAt st logger lv.DebugLevel).1 (chainAt st logger lv.DebugLevel).2
          format args now) ∧
      SameWrite st logger (Logger.Debugln lv sprintf st logger args now)
        (Entry.Writeln lv sprintf (chainAt st logger lv.DebugLevel).1 (chainAt st logger lv.DebugLevel).2
          args now) ∧
      SameWrite st logger (Logger.Info lv sprintf st logger args now)
        (Entry.Write lv sprintf (chainAt st logger lv.InfoLevel).1 (chainAt st logger lv.InfoLevel).2
          args now) ∧
      SameWrite st logger (Logger.Infof lv sprintf st logger format args now)
        (Entry.Writef lv sprintf (chainAt st logger lv.InfoLevel).1 (chainAt st logger lv.InfoLevel).2
          format args now) ∧
      SameWrite st logger (Logger.Infoln lv sprintf st logger args now)
        (Entry.Writeln lv sprintf (chainAt st logger lv.InfoLevel).1 (chainAt st logger lv.InfoLevel).2
          args now) ∧
      SameWrite st logger (Logger.Warning lv sprintf st logger args now)
        (Entry.Write lv sprintf (chainAt st logger lv.WarnLevel).1 (chainAt st logger lv.WarnLevel).2
          args now) ∧
      SameWrite st logger (Logger.Warningf lv sprintf st logger format args now)
        (Entry.Writef lv sprintf (chainAt st logger lv.WarnLevel).1 (chainAt st logger lv.WarnLevel).2
          format args now) ∧
      SameWrite st logger (Logger.Warningln lv sprintf st logger args now)
        (Entry.Writeln lv sprintf (chainAt st logger lv.WarnLevel).1 (chainAt st logger lv.WarnLevel).2
          args now) ∧
      SameWrite st logger (Logger.Error lv sprintf st logger args now)
        (Entry.Write lv sprintf (chainAt st logger lv.ErrorLevel).1 (chainAt st logger lv.ErrorLevel).2
          args now) ∧
      SameWrite st logger (Logger.Errorf lv sprintf st logger format args now)
        (Entry.Writef lv sprintf (chainAt st logger lv.ErrorLevel).1 (chainAt st logger lv.ErrorLevel).2
          format args now) ∧
      SameWrite st logger (Logger.Errorln lv sprintf st logger args now)
        (Entry.Writeln lv sprintf (chainAt st logger lv.ErrorLevel).1 (chainAt st logger lv.ErrorLevel).2
          args now)) ∧
    (∀ level mode,
      SameWrite st logger (Logger.log lv sprintf st logger level mode format args now)
        (Entry.write lv sprintf (chainAt st logger level).1 (chainAt st logger level).2 mode
          format args now) ∧
      (level ≠ lv.FatalLevel → ¬ level ≤ lv.PanicLevel →
        (Logger.log lv sprintf st logger level mode format args now).2 = .returned ∧
          (Entry.write lv sprintf (chainAt st logger level).1 (chainAt st logger level).2 mode
            format args now).2 = .returned) ∧
      (¬ level ≤ (st.loggers logger).level →
        (Logger.log lv sprintf st logger level mode format args now).1.since st = [] ∧
          (Entry.write lv sprintf (chainAt st logger level).1 (chainAt st logger level).2 mode
            format args now).1.since st = [])) := by
  refine ⟨⟨log_same_write lv sprintf st logger hclean _ _ _ args now,
    log_same_write lv sprintf st logger hclean _ _ _ args now,
    log_same_write lv sprintf st logger hclean _ _ _ args now,
    log_same_write lv sprintf st logger hclean _ _ _ args now,
    log_same_write lv sprintf st logger hclean _ _ _ args now,
    log_same_write lv sprintf st logger hclean _ _ _ args now,
    log_same_write lv sprintf st logger hclean _ _ _ args now,
    log_same_write lv sprintf st logger hclean _ _ _ args now,
    log_same_write lv sprintf st logger hclean _ _ _ args now,
    log_same_write lv sprintf st logger hclean _ _ _ args now,
    log_same_write lv sprintf st logger hclean _ _ _ args now,
    log_same_write lv sprintf st logger hclean _ _ _ args now⟩, ?_⟩
  intro level mode
  have hc1 : (chainAt st logger level).1.entries (chainAt st logger level).2 =
      { Logger := logger, Data := st.nextMap, Time := 0, Level := level, Message := "" } := by
    simp [chainAt, Entry.AsLevel, NewEntry, newLogEntry, State.allocEntry, State.allocMap]
  refine ⟨log_same_write lv sprintf st logger hclean level mode format args now, ?_, ?_⟩
  · intro h1 h2
    have hw := write_outcome_cases lv sprintf (chainAt st logger level).1
      (chainAt st logger level).2 mode format args now
    rw [hc1] at hw
    have hb : (Entry.write lv sprintf (chainAt st logger level).1 (chainAt st logger level).2
        mode format args now).2 = .returned := by
      rcases hw with h | h | h
      · exact h
      · exact absurd h.1 h1
      · exact absurd h.1 h2
    exact ⟨(log_same_write lv sprintf st logger hclean level mode format args now).2.2.2 hb, hb⟩
  · intro hdis
    have ha : Logger.log lv sprintf st logger level mode format args now = (st, .returned) := by
      unfold Logger.log
      have : ¬ (Logger.getLevel st logger ≥ level) := hdis
      rw [if_neg this]
    have hb : Entry.write lv sprintf (chainAt st logger level).1 (chainAt st logger level).2 mode
        format args now = ((chainAt st logger level).1, .returned) := by
      unfold Entry.write
      have : ¬ (Logger.getLevel (chainAt st logger level).1
          ((chainAt st logger level).1.entries (chainAt st logger level).2).Logger ≥
          ((chainAt st logger level).1.entries (chainAt st logger level).2).Level) := by
        rw [hc1]
        exact hdis
      rw [if_neg this]
    rw [ha, hb]
    exact ⟨by simp [State.since], by simp [State.since, chainAt, Entry.AsLevel, NewEntry,
      newLogEntry, State.allocEntry, State.allocMap]⟩

/-- Witness of C16: on the fresh info logger, `logger.Info("hello")` and
`NewEntry(logger).AsLevel(InfoLevel).Write("hello")` leave the same bytes in the
sink. -/
theorem direct_methods_match_entry_write_witness :
    ((Logger.Info Levels.iota Sample.sprintf Sample.info.1 Sample.info.2 [.str "hello"]
        7).1.loggers Sample.info.2).out.written =
      ((Entry.Write Levels.iota Sample.sprintf
        (chainAt Sample.info.1 Sample.info.2 Levels.iota.InfoLevel).1
        (chainAt Sample.info.1 Sample.info.2 Levels.iota.InfoLevel).2 [.str "hello"]
        7).1.loggers Sample.info.2).out.written ∧
      ((Logger.Info Levels.iota Sample.sprintf Sample.info.1 Sample.info.2 [.str "hello"]
        7).1.loggers Sample.info.2).out.written = ["msg=hello\n"] :=
  ⟨(direct_methods_match_entry_write Levels.iota Sample.sprintf Sample.info.1 Sample.info.2
      trivial "" [.str "hello"] 7).1.2.2.2.1.2.1, by decide⟩

/-- C24: short circuit.  For every entry whose level is above the level of its
logger, `WithField(k, v)`, `WithFields(f)` and `WithError(err)` return the entry
itself and leave the whole state as it is: nothing is allocated, merged or
copied, the entry's `Data` is the map it was and holds what it held, so a key
that was unbound in it is unbound in the result. -/
theorem disabled_derivation_returns_receiver (st : State) (entry : Nat)
    (h : (st.loggers (st.entries entry).Logger).level < (st.entries entry).Level) :
    (∀ key value, Entry.WithField st entry key value = (st, entry)) ∧
      (∀ fields, Entry.WithFields st entry fields = (st, entry)) ∧
      (∀ err, Entry.WithError st entry err = (st, entry)) ∧
      (∀ key value k,
        ((Entry.WithField st entry key value).1.fields
          (Entry.WithField st entry key value).2).lookup k = (st.fields entry).lookup k) ∧
      (∀ fields k,
        ((Entry.WithFields st entry fields).1.fields
          (Entry.WithFields st entry fields).2).lookup k = (st.fields entry).lookup k) ∧
      (∀ err k,
        ((Entry.WithError st entry err).1.fields
          (Entry.WithError st entry err).2).lookup k = (st.fields entry).lookup k) := by
  have hf : ∀ fields, Entry.WithFields st entry fields = (st, entry) :=
    fun fields => WithFields_disabled st entry fields h
  have h1 : ∀ key value, Entry.WithField st entry key value = (st, entry) := by
    intro key value
    rw [WithField_eq_WithFields, hf]
  have he : ∀ err, Entry.WithError st entry err = (st, entry) := by
    intro err
    rw [WithError_eq_WithFields, hf]
  refine ⟨h1, hf, he, ?_, ?_, ?_⟩
  · intro key value k
    rw [h1]
  · intro fields k
    rw [hf]
  · intro err k
    rw [he]

/-- Witness of C24: on an info logger, `WithField("a", 1)` applied to an entry
of the debug level returns that entry, in which `a` is still unbound. -/
theorem disabled_derivation_returns_receiver_witness :
    Entry.WithField Sample.infoAsDebug.1 Sample.infoAsDebug.2 "a" (.int 1) =
        (Sample.infoAsDebug.1, Sample.infoAsDebug.2) ∧
      ((Entry.WithField Sample.infoAsDebug.1 Sample.infoAsDebug.2 "a" (.int 1)).1.fields
        (Entry.WithField Sample.infoAsDebug.1 Sample.infoAsDebug.2 "a" (.int 1)).2).lookup "a" =
        none :=
  ⟨(disabled_derivation_returns_receiver Sample.infoAsDebug.1 Sample.infoAsDebug.2
      (by decide)).1 "a" (.int 1),
    ((disabled_derivation_returns_receiver Sample.infoAsDebug.1 Sample.infoAsDebug.2
      (by decide)).2.2.2.1 "a" (.int 1) "a").trans (by decide)⟩

/-- C26: the fatal methods of the logger exit whatever the threshold.  For every
logger, `logger.Fatal`, `logger.Fatalf` and `logger.Fatalln` end with `Exit(1)`;
on a logger whose level is below the fatal level, the panic level for one, they
leave the state as it is on the way, so nothing is fired, formatted or written,
while `Write`, `Writef` and `Writeln` on an entry of the fatal level of that
logger return and leave the state as it is too. -/
theorem direct_fatal_always_exits (lv : Levels) (sprintf : SprintfFn) (st : State)
    (logger : Nat) (format : String) (args : List Value) (now : Time) :
    (Logger.Fatal lv sprintf st logger args now).2 = .exited 1 ∧
      (Logger.Fatalf lv sprintf st logger format args now).2 = .exited 1 ∧
      (Logger.Fatalln lv sprintf st logger args now).2 = .exited 1 ∧
      ((st.loggers logger).level < lv.FatalLevel →
        (Logger.Fatal lv sprintf st logger args now).1 = st ∧
          (Logger.Fatalf lv sprintf st logger format args now).1 = st ∧
          (Logger.Fatalln lv sprintf st logger args now).1 = st ∧
          ∀ entry, (st.entries entry).Logger = logger →
            (st.entries entry).Level = lv.FatalLevel →
            Entry.Write lv sprintf st entry args now = (st, .returned) ∧
              Entry.Writef lv sprintf st entry format args now = (st, .returned) ∧
              Entry.Writeln lv sprintf st entry args now = (st, .returned)) := by
  refine ⟨?_, ?_, ?_, ?_⟩
  · unfold Logger.Fatal
    exact exit_after _ (Logger_log_fatal lv sprintf st logger .unformatted "" args now)
  · unfold Logger.Fatalf
    exact exit_after _ (Logger_log_fatal lv sprintf st logger .formatted format args now)
  · unfold Logger.Fatalln
    exact exit_after _ (Logger_log_fatal lv sprintf st logger .newLine "" args now)
  · intro hdis
    refine ⟨?_, ?_, ?_, ?_⟩
    · unfold Logger.Fatal
      simp only []
      rw [after_log_state, Logger_log_disabled lv sprintf st logger _ _ _ _ now hdis]
    · unfold Logger.Fatalf
      simp only []
      rw [after_log_state, Logger_log_disabled lv sprintf st logger _ _ _ _ now hdis]
    · unfold Logger.Fatalln
      simp only []
      rw [after_log_state, Logger_log_disabled lv sprintf st logger _ _ _ _ now hdis]
    · intro entry hl hlevel
      have h2 : ¬ Logger.getLevel st (st.entries entry).Logger ≥ (st.entries entry).Level := by
        rw [hl, hlevel]
        exact Nat.not_le_of_lt hdis
      refine ⟨?_, ?_, ?_⟩
      · unfold Entry.Write Entry.write
        rw [if_neg h2]
      · unfold Entry.Writef Entry.write
        rw [if_neg h2]
      · unfold Entry.Writeln Entry.write
        rw [if_neg h2]

/-- Witness of C26: on a logger with the panic level as its threshold,
`logger.Fatal("x")` exits with status 1 and leaves the sink empty, and
`Write("x")` on an entry of the fatal level returns. -/
theorem direct_fatal_always_exits_witness :
    (Logger.Fatal Levels.iota Sample.sprintf Sample.panicThreshold.1 Sample.info.2 [.str "x"]
        7).2 = .exited 1 ∧
      ((Logger.Fatal Levels.iota Sample.sprintf Sample.panicThreshold.1 Sample.info.2 [.str "x"]
        7).1.loggers Sample.info.2).out.written = [] ∧
      (Entry.Write Levels.iota Sample.sprintf Sample.panicThreshold.1 Sample.panicThreshold.2
        [.str "x"] 7).2 = .returned :=
  ⟨(direct_fatal_always_exits Levels.iota Sample.sprintf Sample.panicThreshold.1 Sample.info.2 ""
      [.str "x"] 7).1,
    (congrArg (fun s : State => (s.loggers Sample.info.2).out.written)
      ((direct_fatal_always_exits Levels.iota Sample.sprintf Sample.panicThreshold.1
        Sample.info.2 "" [.str "x"] 7).2.2.2 (by decide)).1).trans (by decide),
    congrArg Prod.snd
      (((direct_fatal_always_exits Levels.iota Sample.sprintf Sample.panicThreshold.1
        Sample.info.2 "" [.str "x"] 7).2.2.2 (by decide)).2.2.2 Sample.panicThreshold.2
        (by decide) (by decide)).1⟩

/-- C27: derivation composes.  For every entry whose level is at most its
logger's level and all field maps `f`, `g` and `h`, `h` binding every key as
`g` does if `g` has it and as `f` does otherwise, which `f` with `g` copied
into it does, `e.WithFields(f).WithFields(g)` and `e.WithFields(h)` have the
`Logger` and the `Level` of `e` and bind every key alike.  `e.WithFields` of the
empty map binds every key as `e.Data` does, and `WithFields(f)` applied twice
binds every key as `WithFields(f)` applied once. -/
theorem WithFields_composes (st : State) (entry : Nat) (f g h : Fields)
    (hen : (st.entries entry).Level ≤ (st.loggers (st.entries entry).Logger).level)
    (hh : ∀ k, h.lookup k =
      match g.lookup k with
      | some v => some v
      | none => f.lookup k) :
    let a := Entry.WithFields st entry f
    let b := Entry.WithFields a.1 a.2 g
    let c := Entry.WithFields st entry h
    let twice := Entry.WithFields a.1 a.2 f
    let same := Entry.WithFields st entry ∅
    (b.1.entries b.2).Logger = (st.entries entry).Logger ∧
      (c.1.entries c.2).Logger = (st.entries entry).Logger ∧
      (b.1.entries b.2).Level = (st.entries entry).Level ∧
      (c.1.entries c.2).Level = (st.entries entry).Level ∧
      (∀ k, (b.1.fields b.2).lookup k = (c.1.fields c.2).lookup k) ∧
      (∀ k, (copyInto f g).lookup k =
        match g.lookup k with
        | some v => some v
        | none => f.lookup k) ∧
      (∀ k, (same.1.fields same.2).lookup k = (st.fields entry).lookup k) ∧
      (∀ k, (twice.1.fields twice.2).lookup k = (a.1.fields a.2).lookup k) := by
  intro a b c twice same
  have ha := WithFields_result st entry f hen
  have haen : (a.1.entries a.2).Level ≤ (a.1.loggers (a.1.entries a.2).Logger).level := by
    show ((Entry.WithFields st entry f).1.entries (Entry.WithFields st entry f).2).Level ≤
      ((Entry.WithFields st entry f).1.loggers
        ((Entry.WithFields st entry f).1.entries (Entry.WithFields st entry f).2).Logger).level
    rw [ha.1, ha.2.1, ha.2.2.2]
    exact hen
  have hb := WithFields_result a.1 a.2 g haen
  have ht := WithFields_result a.1 a.2 f haen
  have hc := WithFields_result st entry h hen
  have hs := WithFields_result st entry ∅ hen
  have hafields : a.1.fields a.2 = copyInto (copyInto ∅ (st.fields entry)) f := ha.2.2.1
  refine ⟨hb.1.trans ha.1, hc.1, hb.2.1.trans ha.2.1, hc.2.1, ?_, copyInto_lookup f g, ?_, ?_⟩
  · intro k
    show ((Entry.WithFields a.1 a.2 g).1.fields (Entry.WithFields a.1 a.2 g).2).lookup k =
      ((Entry.WithFields st entry h).1.fields (Entry.WithFields st entry h).2).lookup k
    rw [hb.2.2.1, hc.2.2.1, merge_lookup, merge_lookup, hafields, merge_lookup, hh k]
    cases g.lookup k <;> rfl
  · intro k
    show ((Entry.WithFields st entry ∅).1.fields (Entry.WithFields st entry ∅).2).lookup k = _
    rw [hs.2.2.1, merge_lookup, AList.lookup_empty]
  · intro k
    show ((Entry.WithFields a.1 a.2 f).1.fields (Entry.WithFields a.1 a.2 f).2).lookup k = _
    rw [ht.2.2.1, merge_lookup, hafields, merge_lookup]
    cases f.lookup k <;> rfl

/-- Witness of C27: on an info entry of an info logger,
`WithFields({a: 1}).WithFields({a: 2})` binds `a` as `WithFields` of `{a: 1}`
overridden by `{a: 2}` does, to 2. -/
theorem WithFields_composes_witness :
    ((Entry.WithFields (Entry.WithFields Sample.infoEntry.1 Sample.infoEntry.2 Sample.a1).1
        (Entry.WithFields Sample.infoEntry.1 Sample.infoEntry.2 Sample.a1).2 Sample.a2).1.fields
      (Entry.WithFields (Entry.WithFields Sample.infoEntry.1 Sample.infoEntry.2 Sample.a1).1
        (Entry.WithFields Sample.infoEntry.1 Sample.infoEntry.2 Sample.a1).2 Sample.a2).2).lookup
        "a" =
      ((Entry.WithFields Sample.infoEntry.1 Sample.infoEntry.2
          (copyInto Sample.a1 Sample.a2)).1.fields
        (Entry.WithFields Sample.infoEntry.1 Sample.infoEntry.2
          (copyInto Sample.a1 Sample.a2)).2).lookup "a" ∧
      ((Entry.WithFields Sample.infoEntry.1 Sample.infoEntry.2
          (copyInto Sample.a1 Sample.a2)).1.fields
        (Entry.WithFields Sample.infoEntry.1 Sample.infoEntry.2
          (copyInto Sample.a1 Sample.a2)).2).lookup "a" = some (.int 2) :=
  ⟨(WithFields_composes Sample.infoEntry.1 Sample.infoEntry.2 Sample.a1 Sample.a2
      (copyInto Sample.a1 Sample.a2) (by decide)
      (copyInto_lookup Sample.a1 Sample.a2)).2.2.2.2.1 "a",
    by decide⟩

/-- C25, what the code does: `logger.Panicln` logs `fmt.Sprint` of its
arguments.  On every logger whose level is not below the panic level, the
message stamped on the scratch entry by `logger.Panicln(args...)` is
`fmt.Sprint(args...)`, the one string the method hands to `log`, while
`logger.Errorln(args...)`, when the error level is logged, and
`entry.Writeln(args...)`, on an entry that is logged, stamp `sprintlnn(args...)`,
the operands with a space between every two of them. -/
theorem Panicln_message_is_Sprint (lv : Levels) (sprintf : SprintfFn) (st : State)
    (logger : Nat) (args : List Value) (now : Time)
    (hen : lv.PanicLevel ≤ (st.loggers logger).level) :
    ((Logger.Panicln lv sprintf st logger args now).1.entries
        (Logger.newEntry st logger).2).Message = fmt.Sprint args ∧
      (lv.ErrorLevel ≤ (st.loggers logger).level →
        ((Logger.Errorln lv sprintf st logger args now).1.entries
          (Logger.newEntry st logger).2).Message = sprintlnn args) ∧
      (∀ entry, (st.entries entry).Level ≤ (st.loggers (st.entries entry).Logger).level →
        ((Entry.Writeln lv sprintf st entry args now).1.entries entry).Message =
          sprintlnn args) ∧
      sprintlnn args = " ".intercalate (args.map fmt.render) := by
  refine ⟨?_, ?_, ?_, sprintlnn_intercalate args⟩
  · have hen2 : lv.PanicLevel ≤
        ((st.emit (.render .unformatted "" args)).loggers logger).level := hen
    have h := (Logger_log_scratch lv sprintf (st.emit (.render .unformatted "" args)) logger
      lv.PanicLevel .newLine "" [.str (fmt.Sprint args)] now hen2).2.2
    rw [newEntry_emit] at h
    unfold Logger.Panicln
    simp only []
    rw [after_log_state, h]
    exact sprintlnn_single_string (fmt.Sprint args)
  · intro he
    exact (Logger_log_scratch lv sprintf st logger lv.ErrorLevel .newLine "" args now he).2.2
  · intro entry he
    have h2 : Logger.getLevel st (st.entries entry).Logger ≥ (st.entries entry).Level := he
    unfold Entry.Writeln Entry.write
    rw [if_pos h2, log_entries]
    simp [constructMessage]

/-- Witness of C25, the failing input: on a debug logger `logger.Panicln("a", "b")`
logs the message `ab`, while `logger.Errorln("a", "b")` and `Writeln("a", "b")`
on an entry of the panic level log `a b`. -/
theorem Panicln_message_is_Sprint_witness :
    (Sample.panicln.1.entries 0).Message = "ab" ∧
      (Sample.panicln.1.loggers Sample.debug.2).out.written = ["msg=ab\n"] ∧
      (Sample.errorln.1.entries 0).Message = "a b" ∧
      (Sample.errorln.1.loggers Sample.debug.2).out.written = ["msg=a b\n"] ∧
      (Sample.writeln.1.entries 1).Message = "a b" ∧
      (Sample.writeln.1.loggers Sample.debug.2).out.written = ["msg=a b\n"] ∧
      Sample.writeln.2 = .panicked (.entry 1) ∧
      Sample.panicln.2 = .panicked (.entry 0) :=
  ⟨(Panicln_message_is_Sprint Levels.iota Sample.sprintf Sample.debug.1 Sample.debug.2
      [.str "a", .str "b"] 7 (by decide)).1.trans (by decide),
    by decide, by decide, by decide, by decide, by decide, by decide, by decide⟩

/-- Counterexample to C23 as stated.  On a debug logger that carries
`ModifyHook`, the calls of `Write("x")` on an entry of the info level are, in
order: the rendering, `Lock`, the firing of the registry, the hook, `Unlock`,
the formatter, `Lock`, the write to the sink, `Unlock`.  The lock is released
after the hooks and acquired a second time for the write: the hooks and the
write are in two critical sections, and the formatter runs between them. -/
theorem one_critical_section_counterexample :
    (Sample.hookedWritten.1.since Sample.hookedAsInfo.1).map Event.kind =
        ["render", "lock", "fire", "hook", "unlock", "format", "lock", "write", "unlock"] ∧
      (criticalSections Sample.debug.2
        (Sample.hookedWritten.1.since Sample.hookedAsInfo.1)).map (List.map Event.kind) =
        [["fire", "hook"], ["write"]] := by
  decide

/-- C23, amended: two critical sections.  For every write on an entry its logger
logs, when the formatter returns `bytes` for the record it is offered, the
critical sections of the logger's lock among the calls of the write are: one
with the firing of the registry and the calls of the hooks; one with the report
of the hook failure, if a hook has failed; and one with the write of `bytes` to
the sink, followed by the report of the failure of that write if it has
failed.  So the write to the sink, the only one, happens while the lock is
held, and the lock is free between the hooks and the write: the call of the
formatter is among the calls of the write and in none of the sections. -/
theorem hooks_and_write_in_separate_sections (lv : Levels) (sprintf : SprintfFn) (st : State)
    (entry : Nat) (mode : formatMode) (format : String) (args : List Value) (now : Time)
    (bytes : String)
    (hle : (st.entries entry).Level ≤ (st.loggers (st.entries entry).Logger).level)
    (hfmt : (st.loggers (st.entries entry).Logger).formatter
      (Entry.offered sprintf st entry mode format args now) = .ok bytes) :
    let logger := (st.entries entry).Logger
    let r := Record.mk (st.fields entry) now (st.entries entry).Level
      (constructMessage sprintf mode format args)
    let hooks := (st.loggers logger).hooks (st.entries entry).Level
    let evs := (Entry.write lv sprintf st entry mode format args now).1.since st
    criticalSections logger evs =
        [.fire (st.entries entry).Level entry r :: hookEvents entry 0 hooks r] ++
          (match hookError hooks r with
            | some err => [[.stderr ("Failed to fire the hook: " ++ err ++ "\n")]]
            | none => []) ++
          [.write logger bytes ::
            (match (st.loggers logger).out.fail bytes with
              | some err => [.stderr ("Failed to write to log, " ++ err ++ "\n")]
              | none => [])] ∧
      evs.filter Event.isWrite = [.write logger bytes] ∧
      .format entry (Entry.offered sprintf st entry mode format args now) ∈ evs ∧
      (criticalSections logger evs).flatten.filter Event.isFormat = [] := by
  intro logger r hooks evs
  have hevs : evs = .render mode format args :: logEvents (st.loggers logger) logger entry r :=
    since_of_append _ st _ (write_trace lv sprintf st entry mode format args now hle)
  have hoff : Entry.offered sprintf st entry mode format args now =
      { r with Data := runHooks hooks r } := offered_eq sprintf st entry mode format args now
  have key : (st.loggers logger).formatter { r with Data := runHooks hooks r } = .ok bytes := by
    rw [← hoff]
    exact hfmt
  have hsec : criticalSections logger evs =
      [.fire (st.entries entry).Level entry r :: hookEvents entry 0 hooks r] ++
        (match hookError hooks r with
          | some err => [[.stderr ("Failed to fire the hook: " ++ err ++ "\n")]]
          | none => []) ++
        [.write logger bytes ::
          (match (st.loggers logger).out.fail bytes with
            | some err => [.stderr ("Failed to write to log, " ++ err ++ "\n")]
            | none => [])] := by
    rw [hevs, logEvents_sections]
    simp only [key]
  refine ⟨hsec, ?_, ?_, ?_⟩
  · rw [hevs]
    have hw := logEvents_writes (st.loggers logger) logger entry r
    simp only [sinkBytes, key] at hw
    simp only [List.filter_cons, Event.isWrite]
    exact hw
  · rw [hevs, hoff]
    unfold logEvents
    simp
  · rw [hsec]
    cases hookError hooks r <;> cases (st.loggers logger).out.fail bytes <;>
      simp [Event.isFormat, List.filter_append, hookEvents_no_format]

/-- Witness of C23, amended: on a debug logger that carries `ModifyHook`,
`Write("x")` on an entry of the info level writes one line to the sink, in the
second of the two critical sections of the write. -/
theorem hooks_and_write_in_separate_sections_witness :
    (Sample.hookedWritten.1.since Sample.hookedAsInfo.1).filter Event.isWrite =
        [.write Sample.debug.2 "msg=x wow=whale\n"] ∧
      (criticalSections Sample.debug.2
        (Sample.hookedWritten.1.since Sample.hookedAsInfo.1)).map (List.map Event.kind) =
        [["fire", "hook"], ["write"]] :=
  ⟨(hooks_and_write_in_separate_sections Levels.iota Sample.sprintf Sample.hookedAsInfo.1
      Sample.hookedAsInfo.2 .unformatted "" [.str "x"] 7 "msg=x wow=whale\n" (by decide)
      (by rfl)).2.1,
    by decide⟩

/-- Counterexample to C22 as stated.  With the constants in the stated order,
debug 0 up to panic 5, `lw.Debug("Message")` on a logger of the info threshold,
which `TestLoggerDebugText` expects to log nothing, logs and panics, as every
level is at or below the panic level; and `TestLoggerDebugText`,
`TestLoggerInfoText` and `TestEntryLoggingWithTextFormatter` fail. -/
theorem levels_ascend_counterexample :
    Sample.ascending.DebugLevel < Sample.ascending.InfoLevel ∧
      Sample.ascending.InfoLevel < Sample.ascending.WarnLevel ∧
      Sample.ascending.WarnLevel < Sample.ascending.ErrorLevel ∧
      Sample.ascending.ErrorLevel < Sample.ascending.FatalLevel ∧
      Sample.ascending.FatalLevel < Sample.ascending.PanicLevel ∧
      writeLogAndAssertText Sample.ascending.InfoLevel
          (fun st lw => Logger.Debug Sample.ascending Sample.sprintf st lw [.str "Message"] 0) =
        (["msg=Message\n"], .panicked (.entry 0)) ∧
      ¬ TestLoggerDebugText Sample.ascending ∧
      ¬ TestLoggerInfoText Sample.ascending ∧
      ¬ TestEntryLoggingWithTextFormatter Sample.ascending :=
  ⟨by decide, by decide, by decide, by decide, by decide, by decide,
    fun h => absurd h.2 (by decide), fun h => absurd h.2 (by decide),
    fun h => absurd h.1 (by unfold entryLoggingCase; decide)⟩

/-- C22, amended: the order the tests fix, and the gate.  `TestLoggerDebugText`
passes exactly when the info level is below the debug level and the debug level
is above the panic level and is not the fatal level; `TestLoggerInfoText`
exactly when the warning level is below the info level, which is at most the
debug level, above the panic level and not the fatal level; and
`TestEntryLoggingWithTextFormatter` exactly when the debug level, and the info
level if it is at most the debug level, is above the panic level and not the
fatal level.  So none of them passes when the values are ordered
Debug < Info < Warning < Error < Fatal < Panic, and all of them pass when they
are ordered Panic < Fatal < Error < Warning < Info < Debug.  Whatever the
values, a request at level `r` is enabled under the threshold `t` exactly when
`r <= t`: `Entry.write`, `Entry.WithField` and `Logger.log` do something exactly
then, and return at once otherwise. -/
theorem tests_fix_the_level_order (lv : Levels) (sprintf : SprintfFn) :
    (TestLoggerDebugText lv ↔
        lv.InfoLevel < lv.DebugLevel ∧ lv.PanicLevel < lv.DebugLevel ∧
          lv.DebugLevel ≠ lv.FatalLevel) ∧
      (TestLoggerInfoText lv ↔
        lv.InfoLevel ≤ lv.DebugLevel ∧ lv.WarnLevel < lv.InfoLevel ∧
          lv.PanicLevel < lv.InfoLevel ∧ lv.InfoLevel ≠ lv.FatalLevel) ∧
      (TestEntryLoggingWithTextFormatter lv ↔
        (lv.PanicLevel < lv.DebugLevel ∧ lv.DebugLevel ≠ lv.FatalLevel) ∧
          (lv.InfoLevel ≤ lv.DebugLevel →
            lv.PanicLevel < lv.InfoLevel ∧ lv.InfoLevel ≠ lv.FatalLevel)) ∧
      (lv.Ascending →
        ¬ TestLoggerDebugText lv ∧ ¬ TestLoggerInfoText lv ∧
          ¬ TestEntryLoggingWithTextFormatter lv) ∧
      (lv.Ordered →
        TestLoggerDebugText lv ∧ TestLoggerInfoText lv ∧
          TestEntryLoggingWithTextFormatter lv) ∧
      (∀ (st : State) (entry : Nat) (mode : formatMode) (format : String) (args : List Value)
        (now : Time),
        Entry.write lv sprintf st entry mode format args now ≠ (st, .returned) ↔
          (st.entries entry).Level ≤ (st.loggers (st.entries entry).Logger).level) ∧
      (∀ (st : State) (entry : Nat) (key : String) (value : Value),
        Entry.WithField st entry key value ≠ (st, entry) ↔
          (st.entries entry).Level ≤ (st.loggers (st.entries entry).Logger).level) ∧
      (∀ (st : State) (logger : Nat) (level : Level) (mode : formatMode) (format : String)
        (args : List Value) (now : Time),
        Logger.log lv sprintf st logger level mode format args now ≠ (st, .returned) ↔
          level ≤ (st.loggers logger).level) := by
  have hentry : TestEntryLoggingWithTextFormatter lv ↔
      (lv.PanicLevel < lv.DebugLevel ∧ lv.DebugLevel ≠ lv.FatalLevel) ∧
        (lv.InfoLevel ≤ lv.DebugLevel →
          lv.PanicLevel < lv.InfoLevel ∧ lv.InfoLevel ≠ lv.FatalLevel) := by
    unfold TestEntryLoggingWithTextFormatter
    rw [entryLoggingCase_iff, entryLoggingCase_iff, entryLoggingCase_iff]
    exact ⟨fun h => ⟨h.1 (Nat.le_refl _), h.2.1⟩, fun h => ⟨fun _ => h.1, h.2, fun _ => h.1⟩⟩
  refine ⟨TestLoggerDebugText_iff lv, TestLoggerInfoText_iff lv, hentry, ?_, ?_, ?_, ?_, ?_⟩
  · intro hasc
    obtain ⟨h1, h2, h3, h4, h5⟩ := hasc
    have hdp : lv.DebugLevel < lv.PanicLevel :=
      Nat.lt_trans h1 (Nat.lt_trans h2 (Nat.lt_trans h3 (Nat.lt_trans h4 h5)))
    refine ⟨?_, ?_, ?_⟩
    · rw [TestLoggerDebugText_iff]
      exact fun h => Nat.lt_asymm h1 h.1
    · rw [TestLoggerInfoText_iff]
      exact fun h => Nat.lt_asymm h2 h.2.1
    · rw [hentry]
      exact fun h => Nat.lt_asymm hdp h.1.1
  · intro hord
    obtain ⟨h1, h2, h3, h4, h5⟩ := hord
    have hfi : lv.FatalLevel < lv.InfoLevel := Nat.lt_trans h2 (Nat.lt_trans h3 h4)
    have hfd : lv.FatalLevel < lv.DebugLevel := Nat.lt_trans hfi h5
    refine ⟨?_, ?_, ?_⟩
    · rw [TestLoggerDebugText_iff]
      exact ⟨h5, Nat.lt_trans h1 hfd, Nat.ne_of_gt hfd⟩
    · rw [TestLoggerInfoText_iff]
      exact ⟨Nat.le_of_lt h5, h4, Nat.lt_trans h1 hfi, Nat.ne_of_gt hfi⟩
    · rw [hentry]
      exact ⟨⟨Nat.lt_trans h1 hfd, Nat.ne_of_gt hfd⟩,
        fun _ => ⟨Nat.lt_trans h1 hfi, Nat.ne_of_gt hfi⟩⟩
  · intro st entry mode format args now
    constructor
    · intro hne
      refine Classical.byContradiction fun hgt => hne ?_
      have h2 : ¬ Logger.getLevel st (st.entries entry).Logger ≥ (st.entries entry).Level := hgt
      unfold Entry.write
      rw [if_neg h2]
    · intro hle heq
      have hg := write_grows lv sprintf st entry mode format args now hle
      rw [heq] at hg
      exact Nat.lt_irrefl _ hg
  · intro st entry key value
    constructor
    · intro hne
      refine Classical.byContradiction fun hgt => hne ?_
      rw [WithField_eq_WithFields]
      exact WithFields_disabled st entry _ (Nat.lt_of_not_le hgt)
    · intro hle heq
      have hg := WithField_allocates st entry key value hle
      rw [heq] at hg
      exact Nat.succ_ne_self _ hg.symm
  · intro st logger level mode format args now
    constructor
    · intro hne
      refine Classical.byContradiction fun hgt => hne ?_
      exact Logger_log_disabled lv sprintf st logger level mode format args now
        (Nat.lt_of_not_le hgt)
    · intro hle heq
      have hg := Logger_log_grows lv sprintf st logger level mode format args now hle
      rw [heq] at hg
      exact Nat.lt_irrefl _ hg

/-- Witness of C22, amended: with panic 0, fatal 1, error 2, warning 3, info 4
and debug 5 the three tests pass, and on an info logger a write on an entry of
the info level does something. -/
theorem tests_fix_the_level_order_witness :
    (TestLoggerDebugText Levels.iota ∧ TestLoggerInfoText Levels.iota ∧
        TestEntryLoggingWithTextFormatter Levels.iota) ∧
      Entry.write Levels.iota Sample.sprintf Sample.infoEntry.1 Sample.infoEntry.2
        .unformatted "" [.str "x"] 7 ≠ (Sample.infoEntry.1, .returned) :=
  ⟨(tests_fix_the_level_order Levels.iota Sample.sprintf).2.2.2.2.1
      ⟨by decide, by decide, by decide, by decide, by decide⟩,
    ((tests_fix_the_level_order Levels.iota Sample.sprintf).2.2.2.2.2.1
      Sample.infoEntry.1 Sample.infoEntry.2 .unformatted "" [.str "x"] 7).2 (by decide)⟩

end Logrus
